import Mathlib

/-!
# Leph::Model — structural registry, generalized state, kinematic queries and
# constrained dynamics

Shallow embedding of `Model/Model.cpp`, of the declarations of
`Model/SigmabanFloatingModel.hpp`, of the exception handler of the fitness
function of `Apps/appTrajectoriesLogFitting.cpp`, of the container
`Types/MapSeries.hpp` and of the loops of `Spline/FittedSpline.cpp` that cut the
points into parts.

Conventions of the embedding.

* `double` is idealised as an exact rational number (`ℚ`).
* A C++ exception is an `Except.error` carrying a `Fault`; a member function that
  mutates the object takes the state and returns the new one.
* A `size_t` is a natural number; where the code subtracts or adds two of them
  the result is taken modulo `2 ^ 64` (`unsigned int`: modulo `2 ^ 32`).
* The routines of the rigid-body library (RBDL) and of the dense linear algebra
  library (Eigen solvers) are not part of the repository: they are the fields of
  the record `RBDL`, passed as a parameter.
* An Eigen dynamic vector that comes from the caller (`VectorXd`) is a size
  together with a coefficient function on the naturals, so that the size checks
  of the code are real; the matrices and vectors of a constraint set bound to a
  model with `n` degrees of freedom and `m` constraints carry their sizes in
  their types (`Mat`, `Vec`).
-/

set_option linter.unusedVariables false

namespace Leph

/-! ## Faults -/

/-- The faults the code can end with: the C++ exception classes thrown in
`Model.cpp`, a failed `assert`, and behaviour the language leaves undefined
(out-of-bounds access, unbounded recursion). -/
inductive Fault where
  | logic_error (what : String)
  | out_of_range
  | runtime_error (what : String)
  | assertion
  | undefined
deriving DecidableEq, Repr

/-! ## std::map -/

/-- A `std::map`, as the list of its entries; every key occurs at most once in
a map built with `StdMap.assign`. -/
abbrev StdMap (κ ν : Type) := List (κ × ν)

namespace StdMap

variable {κ ν : Type} [DecidableEq κ]

/-- Lookup of a key (`find`): the mapped value, if the key is present. -/
def find : StdMap κ ν → κ → Option ν
  | [], _ => none
  | (k', v) :: rest, k => if k' = k then some v else find rest k

/-- Checked access `map.at(key)`: throws `std::out_of_range` on a missing key. -/
def atKey (m : StdMap κ ν) (k : κ) : Except Fault ν :=
  match find m k with
  | some v => .ok v
  | none => .error Fault.out_of_range

/-- Number of entries with the key `map.count(key)`: 0 or 1. -/
def count (m : StdMap κ ν) (k : κ) : Nat :=
  match find m k with
  | some _ => 1
  | none => 0

/-- Assignment `map[key] = value`: replaces the value of a present key, inserts
the entry otherwise. -/
def assign : StdMap κ ν → κ → ν → StdMap κ ν
  | [], k, v => [(k, v)]
  | (k', v') :: rest, k, v =>
    if k' = k then (k, v) :: rest else (k', v') :: assign rest k v

/-- Removal `map.erase(key)` of the entry of a key. -/
def erase (m : StdMap κ ν) (k : κ) : StdMap κ ν :=
  m.filter (fun e => ¬ e.1 = k)

end StdMap

/-! ## Eigen dynamic vectors and matrices -/

/-- An `Eigen::VectorXd`. -/
structure VectorXd where
  size : Nat
  coeff : Nat → ℚ

/-- An `Eigen::MatrixXd`. -/
structure MatrixXd where
  rows : Nat
  cols : Nat
  coeff : Nat → Nat → ℚ

/-- An `Eigen::VectorXi`. -/
structure VectorXi where
  size : Nat
  coeff : Nat → Int

namespace VectorXd

/-- The vector `VectorXd::Zero(n)`. -/
def Zero (n : Nat) : VectorXd := ⟨n, fun _ => 0⟩

/-- The vector holding the entries of a list. -/
def ofList (l : List ℚ) : VectorXd := ⟨l.length, fun i => l.getD i 0⟩

/-- Coefficient write `v(i) = x`. -/
def set (v : VectorXd) (i : Nat) (x : ℚ) : VectorXd :=
  ⟨v.size, fun j => if j = i then x else v.coeff j⟩

end VectorXd

/-! ## std::string helpers -/

/-- The position `std::string::rfind(pat)` returns: the highest position at
which `pat` occurs in `s`, if any. -/
def rfind (s pat : List Char) : Option Nat :=
  ((List.range (s.length + 1)).reverse).find? (fun pos => pat.isPrefixOf (s.drop pos))

/-! ## VectorLabel -/

/-- Modelled from the spec: the class `VectorLabel` (`Types/VectorLabel.hpp`) is
missing from the sources; only its test and its uses in `Model.cpp` are present.
It is a vector of values in which every position carries a label, labels and
positions being in bijection (`getIndex(getLabel(i)) == i`), so that the DOF
registry built on it is a bijection between indices and names. -/
structure VectorLabel where
  entries : List (String × ℚ)

namespace VectorLabel

/-- Modelled from the spec: the labels of a `VectorLabel`, in index order. -/
def labels (v : VectorLabel) : List String := v.entries.map Prod.fst

/-- Modelled from the spec: `VectorLabel::size`, the number of labelled values. -/
def size (v : VectorLabel) : Nat := v.entries.length

/-- Modelled from the spec: `VectorLabel::exist`. -/
def exist (v : VectorLabel) (label : String) : Bool := decide (label ∈ v.labels)

/-- Modelled from the spec: `VectorLabel::append(label, value)` adds a new
labelled value at the end of the vector; as labels stay in bijection with
indices, a label that is already present is refused with a logic error. -/
def append (v : VectorLabel) (label : String) (value : ℚ) : Except Fault VectorLabel :=
  if v.exist label then
    .error (Fault.logic_error ("VectorLabel label already exists: " ++ label))
  else
    .ok ⟨v.entries ++ [(label, value)]⟩

end VectorLabel

/-! ## The RBDL model -/

/-- A body of the RBDL model; `Model.cpp` reads only its virtual flag. -/
structure Body where
  mIsVirtual : Bool
deriving DecidableEq, Repr

/-- The part of `RBDL::Model` that `Model.cpp` reads: the bodies, the children
lists `mu`, the name map (entries in iteration order), the name lookup
`GetBodyName`, the texts `RBDL::Utils::GetModelHierarchy` and
`RBDL::Utils::GetModelDOFOverview` print for the model, the sizes, gravity, and
the kinematic quantities the library caches (of a type `κ` the embedding does
not look into). -/
structure RBDLModel (κ : Type) where
  mBodies : List Body
  mu : List (List Nat)
  mBodyNameMap : List (String × Nat)
  GetBodyName : Nat → String
  GetModelHierarchy : String
  GetModelDOFOverview : String
  dof_count : Nat
  qdot_size : Nat
  gravity : Fin 3 → ℚ
  kinematics : κ

/-! ## The model -/

/-- The data members of `Leph::Model`. -/
structure Model (κ : Type) where
  _model : RBDLModel κ
  _isAutoUpdate : Bool
  _dofIndexToName : List String
  _dofNameToIndex : StdMap String Nat
  _dofs : VectorXd
  _vectorDOF : VectorLabel
  _frameIndexToName : StdMap Nat String
  _frameNameToIndex : StdMap String Nat
  _frameIndexToId : StdMap Nat Nat
  _inertiaData : MatrixXd
  _inertiaName : StdMap String Nat
  _geometryData : MatrixXd
  _geometryName : StdMap String Nat

namespace Model

variable {κ : Type}

/-- `Model::filterJointName`: cuts the name at the last occurrence of `_link`. -/
def filterJointName (name : String) : String :=
  match rfind name.data "_link".data with
  | some pos => String.mk (name.data.take pos)
  | none => name

/-- `Model::filterFrameName`: cuts the name at the last occurrence of `_link`. -/
def filterFrameName (name : String) : String :=
  match rfind name.data "_link".data with
  | some pos => String.mk (name.data.take pos)
  | none => name

/-- `Model::getRBDLBodyName`: follows the single child of virtual bodies,
counting them in `virtualDepth` (an `unsigned int`), down to a body that is
not virtual, whose name is returned; a virtual body without a unique child
gives the empty name. The recursion is bounded by `fuel`; `none` stands for a
recursion that does not end or for an index outside `mBodies` or `mu`. -/
def getRBDLBodyName (m : RBDLModel κ) : Nat → Nat → Nat → Option (String × Nat)
  | 0, _, _ => none
  | fuel + 1, bodyId, virtualDepth =>
    match m.mBodies[bodyId]? with
    | none => none
    | some body =>
      if body.mIsVirtual then
        match m.mu[bodyId]? with
        | none => none
        | some [child] => getRBDLBodyName m fuel child ((virtualDepth + 1) % 2 ^ 32)
        | some _ => some ("", virtualDepth)
      else some (m.GetBodyName bodyId, virtualDepth)

/-- `Model::addDOF`. -/
def addDOF (s : Model κ) (name : String) : Except Fault (Model κ) :=
  match s._vectorDOF.append name 0 with
  | .error e => .error e
  | .ok v =>
    .ok { s with
      _vectorDOF := v
      _dofNameToIndex := StdMap.assign s._dofNameToIndex name s._dofIndexToName.length
      _dofIndexToName := s._dofIndexToName ++ [name]
      _dofs := VectorXd.Zero v.size }

/-- The six registrations of the floating-joint case of `initializeModel`. -/
def addFloatingDOF (s : Model κ) (filteredName : String) : Except Fault (Model κ) := do
  let s ← addDOF s (filteredName ++ "_x")
  let s ← addDOF s (filteredName ++ "_y")
  let s ← addDOF s (filteredName ++ "_z")
  let s ← addDOF s (filteredName ++ "_yaw")
  let s ← addDOF s (filteredName ++ "_pitch")
  addDOF s (filteredName ++ "_roll")

/-- The first loop of `Model::initializeModel`, from body index `i` on; each
turn moves `i` forward, so `fuel` turns are enough when
`mBodies.size() - i ≤ fuel`. -/
def dofLoop : Nat → Nat → Model κ → Except Fault (Model κ)
  | 0, _, s => .ok s
  | fuel + 1, i, s =>
    if i < s._model.mBodies.length then
      match getRBDLBodyName s._model s._model.mBodies.length i 0 with
      | none => .error Fault.undefined
      | some (name, virtualDepth) =>
        let filteredName := filterJointName name
        if virtualDepth = 5 then
          match addFloatingDOF s filteredName with
          | .error e => .error e
          | .ok s => dofLoop fuel (i + 5 + 1) s
        else if virtualDepth > 0 then
          let verbose1 := s._model.GetModelHierarchy
          let verbose2 := s._model.GetModelDOFOverview
          .error (Fault.logic_error
            ("Model virtual body name not implemented: name=" ++ filteredName
              ++ " depth=" ++ toString virtualDepth ++ "\n" ++ "ModelHierarchy:\n"
              ++ verbose1 ++ "\n" ++ "ModelDOFOverview:\n" ++ verbose2))
        else
          match addDOF s filteredName with
          | .error e => .error e
          | .ok s => dofLoop fuel (i + 1) s
    else .ok s

/-- The second loop of `Model::initializeModel`, over the entries of the body
name map from frame index `index` on; returns the state and the next index. -/
def frameLoop : List (String × Nat) → Nat → Model κ → Model κ × Nat
  | [], index, s => (s, index)
  | (name, id) :: rest, index, s =>
    if id = 0 then frameLoop rest index s
    else
      let filteredName := filterFrameName name
      frameLoop rest (index + 1)
        { s with
          _frameIndexToName := StdMap.assign s._frameIndexToName index filteredName
          _frameNameToIndex := StdMap.assign s._frameNameToIndex filteredName index
          _frameIndexToId := StdMap.assign s._frameIndexToId index id }

/-- `Model::initializeModel`. -/
def initializeModel (s : Model κ) (model : RBDLModel κ)
    (inertiaData : MatrixXd) (inertiaName : StdMap String Nat)
    (geometryData : MatrixXd) (geometryName : StdMap String Nat) :
    Except Fault (Model κ) :=
  let s := { s with
    _model := model
    _inertiaData := inertiaData
    _inertiaName := inertiaName
    _geometryData := geometryData
    _geometryName := geometryName }
  match dofLoop (s._model.mBodies.length - 1) 1 s with
  | .error e => .error e
  | .ok s =>
    let (s, index) := frameLoop s._model.mBodyNameMap 0 s
    .ok { s with
      _frameIndexToName := StdMap.assign s._frameIndexToName index "origin"
      _frameNameToIndex := StdMap.assign s._frameNameToIndex "origin" index
      _frameIndexToId := StdMap.assign s._frameIndexToId index 0 }

/-- The constructor `Model(RBDL::Model&, inertiaData, inertiaName, geometryData,
geometryName)`: empty registries, auto-update on, then `initializeModel`. -/
def create (model : RBDLModel κ)
    (inertiaData : MatrixXd) (inertiaName : StdMap String Nat)
    (geometryData : MatrixXd) (geometryName : StdMap String Nat) :
    Except Fault (Model κ) :=
  initializeModel
    { _model := model
      _isAutoUpdate := true
      _dofIndexToName := []
      _dofNameToIndex := []
      _dofs := VectorXd.Zero 0
      _vectorDOF := ⟨[]⟩
      _frameIndexToName := []
      _frameNameToIndex := []
      _frameIndexToId := []
      _inertiaData := inertiaData
      _inertiaName := inertiaName
      _geometryData := geometryData
      _geometryName := geometryName }
    model inertiaData inertiaName geometryData geometryName

/-- `Model::getDOFName`. -/
def getDOFName (s : Model κ) (index : Nat) : Except Fault String :=
  if index ≥ s._dofIndexToName.length then
    .error (Fault.logic_error "Model invalid DOF index")
  else
    match s._dofIndexToName[index]? with
    | some name => .ok name
    | none => .error Fault.out_of_range

/-- `Model::getDOFIndex`. -/
def getDOFIndex (s : Model κ) (name : String) : Except Fault Nat :=
  StdMap.atKey s._dofNameToIndex name

/-- Coefficient read `_dofs(index)`; Eigen asserts that the index is below the
size. -/
def readDOF (s : Model κ) (index : Nat) : Except Fault ℚ :=
  if index < s._dofs.size then .ok (s._dofs.coeff index) else .error Fault.assertion

/-- `Model::getDOF(const std::string&)`. -/
def getDOF (s : Model κ) (name : String) : Except Fault ℚ :=
  match StdMap.atKey s._dofNameToIndex name with
  | .error Fault.out_of_range => .error (Fault.logic_error ("Model unknown getDOF(): " ++ name))
  | .error e => .error e
  | .ok index => readDOF s index

/-- `Model::setDOF(const std::string&, double)`: the outcome of the call and
the state it leaves. -/
def setDOF (s : Model κ) (name : String) (value : ℚ) : Except Fault Unit × Model κ :=
  match StdMap.atKey s._dofNameToIndex name with
  | .error Fault.out_of_range =>
    (.error (Fault.logic_error ("Model unknown setDOF(): " ++ name)), s)
  | .error e => (.error e, s)
  | .ok index =>
    if index < s._dofs.size then
      (.ok (), { s with _dofs := s._dofs.set index value })
    else (.error Fault.assertion, s)

end Model

/-! ## Fixed-size vectors and matrices, blocks and segments -/

/-- A vector with `n` coefficients. -/
abbrev Vec (n : Nat) := Fin n → ℚ

/-- A matrix with `r` rows and `c` columns. -/
abbrev Mat (r c : Nat) := Matrix (Fin r) (Fin c) ℚ

/-- The first `n` coefficients of a caller vector (read after its size has been
checked to be `n`). -/
def toVec (v : VectorXd) (n : Nat) : Vec n := fun i => v.coeff i.val

/-- Block write `M.block(r0, c0, p, q) = B`. -/
def setBlock {r c p q : Nat} (M : Mat r c) (r0 c0 : Nat) (B : Mat p q) : Mat r c :=
  fun i j =>
    if h : r0 ≤ i.val ∧ i.val < r0 + p ∧ c0 ≤ j.val ∧ j.val < c0 + q then
      B ⟨i.val - r0, by omega⟩ ⟨j.val - c0, by omega⟩
    else M i j

/-- Segment write `v.segment(i0, p) = w`. -/
def setSegment {k p : Nat} (v : Vec k) (i0 : Nat) (w : Vec p) : Vec k :=
  fun i => if h : i0 ≤ i.val ∧ i.val < i0 + p then w ⟨i.val - i0, by omega⟩ else v i

/-- Segment read `v.segment(i0, p)`. -/
def segment {k : Nat} (v : Vec k) (i0 p : Nat) (h : i0 + p ≤ k) : Vec p :=
  fun i => v ⟨i0 + i.val, by omega⟩

/-- The loop `for (i = 0; i < inertiaOffset.size(); i++) H(i, i) += inertiaOffset(i)`. -/
def addInertiaOffset {n : Nat} (H : Mat n n) (inertiaOffset : VectorXd) : Mat n n :=
  fun i j =>
    if i = j ∧ i.val < inertiaOffset.size then H i j + inertiaOffset.coeff i.val else H i j

/-! ## Constraint sets and the library routines -/

/-- The selectors `RBDLMath::LinearSolver` named in `Model.cpp`; `LinearSolverOther`
stands for every other value of the enumeration. -/
inductive LinearSolver where
  | LinearSolverPartialPivLU
  | LinearSolverColPivHouseholderQR
  | LinearSolverHouseholderQR
  | LinearSolverLLT
  | LinearSolverFullPivLU
  | LinearSolverFullPivHouseholderQR
  | LinearSolverOther (value : Nat)
deriving DecidableEq, Repr

/-- The fields of `RBDL::ConstraintSet` that `Model.cpp` reads or writes, for a
set of `m` constraints bound to a model with `n` degrees of freedom. -/
structure ConstraintSet (n m : Nat) where
  H : Mat n n
  C : Vec n
  G : Mat m n
  gamma : Vec m
  A : Mat (n + m) (n + m)
  b : Vec (n + m)
  x : Vec (n + m)
  force : Vec m
  impulse : Vec m
  v_plus : Vec m

/-- What `RBDL::CalcContactSystemVariables` computes into the constraint set:
`H`, `G`, `C` and `gamma`. -/
structure ContactSystem (n m : Nat) where
  H : Mat n n
  C : Vec n
  G : Mat m n
  gamma : Vec m

/-- The routines the model calls and that are not among the sources: those of
the libraries (RBDL, Eigen, `atan2`) and the two routines `RBDLClosedLoopInverseDynamics`
and `RBDLContactLCP` of the repository (`Model/RBDLClosedLoop.h`,
`Model/RBDLContactLCP.h`). A kinematics or dynamics routine takes the library
model by reference: it returns its result together with the kinematic
quantities it leaves cached in the model. The solvers are those of the Eigen
decompositions. -/
structure RBDL (κ : Type) where
  UpdateKinematicsCustom :
    RBDLModel κ → Option VectorXd → Option VectorXd → Option VectorXd → κ
  CalcBodyToBaseCoordinates :
    RBDLModel κ → VectorXd → Nat → Vec 3 → Bool → Vec 3 × κ
  CalcBaseToBodyCoordinates :
    RBDLModel κ → VectorXd → Nat → Vec 3 → Bool → Vec 3 × κ
  CalcBodyWorldOrientation :
    RBDLModel κ → VectorXd → Nat → Bool → Mat 3 3 × κ
  InverseDynamics :
    {n : Nat} → RBDLModel κ → VectorXd → VectorXd → VectorXd → Vec n → Vec n × κ
  CompositeRigidBodyAlgorithm :
    {n : Nat} → RBDLModel κ → VectorXd → Mat n n → Bool → Mat n n × κ
  CalcContactSystemVariables :
    {n m : Nat} → RBDLModel κ → VectorXd → VectorXd → VectorXd → ConstraintSet n m →
      ContactSystem n m × κ
  CalcContactJacobian :
    {n m : Nat} → RBDLModel κ → VectorXd → ConstraintSet n m → Mat m n → Bool → Mat m n × κ
  partialPivLu_solve : {k : Nat} → Mat k k → Vec k → Vec k
  colPivHouseholderQr_solve : {k : Nat} → Mat k k → Vec k → Vec k
  householderQr_solve : {k : Nat} → Mat k k → Vec k → Vec k
  llt_solve : {k : Nat} → Mat k k → Vec k → Vec k
  fullPivLu_solve : {k : Nat} → Mat k k → Vec k → Vec k
  fullPivHouseholderQr_solve : {k : Nat} → Mat k k → Vec k → Vec k
  colPivHouseholderQr_isInvertible : {k : Nat} → Mat k k → Bool
  colPivHouseholderQr_inverse : {k : Nat} → Mat k k → Mat k k
  ForwardDynamics :
    {n : Nat} → RBDLModel κ → VectorXd → VectorXd → VectorXd → Vec n × κ
  ForwardDynamicsContactsDirect :
    {n m : Nat} → RBDLModel κ → VectorXd → VectorXd → VectorXd → ConstraintSet n m →
      (Vec n × ConstraintSet n m) × κ
  ComputeContactImpulsesDirect :
    {n m : Nat} → RBDLModel κ → VectorXd → VectorXd → ConstraintSet n m → Vec n →
      (Vec n × ConstraintSet n m) × κ
  RBDLClosedLoopInverseDynamics :
    {n : Nat} → RBDLModel κ → VectorXd → VectorXd → VectorXd → Nat → Option VectorXd → Bool →
      (Except Fault (Vec n) × Option VectorXd) × κ
  RBDLContactLCP :
    {n m : Nat} → RBDLModel κ → VectorXd → VectorXd → VectorXd → VectorXd →
      ConstraintSet n m → VectorXi → (Except Fault Unit × ConstraintSet n m) × κ
  CalcPointJacobian6D :
    {q : Nat} → RBDLModel κ → VectorXd → Nat → Vec 3 → Mat 6 q → Bool → Mat 6 q × κ
  CalcPointVelocity6D :
    RBDLModel κ → VectorXd → VectorXd → Nat → Vec 3 → Bool → Vec 6 × κ
  CalcPointAcceleration6D :
    RBDLModel κ → VectorXd → VectorXd → VectorXd → Nat → Vec 3 → Bool → Vec 6 × κ
  CalcCenterOfMass :
    RBDLModel κ → VectorXd → VectorXd → Bool → (ℚ × Vec 3) × κ
  atan2 : ℚ → ℚ → ℚ

namespace Model

variable {κ : Type}

/-- The model after a library routine has left `kinematics` cached in `_model`. -/
def withKinematics (s : Model κ) (kinematics : κ) : Model κ :=
  { s with _model := { s._model with kinematics := kinematics } }

/-- `Model::getFrameIndex`. -/
def getFrameIndex (s : Model κ) (name : String) : Except Fault Nat :=
  StdMap.atKey s._frameNameToIndex name

/-- `Model::position(size_t, size_t, const Eigen::Vector3d&)`. -/
def position (api : RBDL κ) (s : Model κ) (srcFrameIndex dstFrameIndex : Nat)
    (point : Vec 3) : Except Fault (Vec 3 × Model κ) :=
  if srcFrameIndex = dstFrameIndex then .ok (point, s)
  else
    match StdMap.atKey s._frameIndexToId srcFrameIndex with
    | .error e => .error e
    | .ok srcId =>
      match StdMap.atKey s._frameIndexToId dstFrameIndex with
      | .error e => .error e
      | .ok dstId =>
        let (ptBase, s1) :=
          if srcId ≠ 0 then
            let r := api.CalcBodyToBaseCoordinates s._model s._dofs srcId point s._isAutoUpdate
            (r.1, withKinematics s r.2)
          else (point, s)
        let (ptBody, s2) :=
          if dstId ≠ 0 then
            let r := api.CalcBaseToBodyCoordinates s1._model s1._dofs dstId ptBase s1._isAutoUpdate
            (r.1, withKinematics s1 r.2)
          else (ptBase, s1)
        .ok (ptBody, s2)

/-- `Model::position(const std::string&, const std::string&, const Eigen::Vector3d&)`. -/
def positionByName (api : RBDL κ) (s : Model κ) (srcFrame dstFrame : String)
    (point : Vec 3) : Except Fault (Vec 3 × Model κ) :=
  match getFrameIndex s srcFrame with
  | .error e => .error e
  | .ok srcFrameIndex =>
    match getFrameIndex s dstFrame with
    | .error e => .error e
    | .ok dstFrameIndex => position api s srcFrameIndex dstFrameIndex point

/-- `Model::orientation(size_t, size_t)`. -/
def orientation (api : RBDL κ) (s : Model κ) (srcFrameIndex dstFrameIndex : Nat) :
    Except Fault (Mat 3 3 × Model κ) :=
  match StdMap.atKey s._frameIndexToId srcFrameIndex with
  | .error e => .error e
  | .ok srcId =>
    match StdMap.atKey s._frameIndexToId dstFrameIndex with
    | .error e => .error e
    | .ok dstId =>
      let r1 := api.CalcBodyWorldOrientation s._model s._dofs srcId s._isAutoUpdate
      let transform1 := r1.1
      let s1 := withKinematics s r1.2
      let r2 := api.CalcBodyWorldOrientation s1._model s1._dofs dstId s1._isAutoUpdate
      let transform2 := r2.1
      let s2 := withKinematics s1 r2.2
      .ok (transform1 * transform2.transpose, s2)

/-- `Model::orientation(const std::string&, const std::string&)`. -/
def orientationByName (api : RBDL κ) (s : Model κ) (srcFrame dstFrame : String) :
    Except Fault (Mat 3 3 × Model κ) :=
  match getFrameIndex s srcFrame with
  | .error e => .error e
  | .ok srcFrameIndex =>
    match getFrameIndex s dstFrame with
    | .error e => .error e
    | .ok dstFrameIndex => orientation api s srcFrameIndex dstFrameIndex

/-- `Model::sizeFrame`. -/
def sizeFrame (s : Model κ) : Nat := s._frameIndexToName.length

/-- `Model::getFrameName`. -/
def getFrameName (s : Model κ) (index : Nat) : Except Fault String :=
  StdMap.atKey s._frameIndexToName index

/-- `Model::bodyIdToFrameIndex`: the first frame index, in the order of the map,
that is mapped to the body identifier. -/
def bodyIdToFrameIndex (s : Model κ) (index : Nat) : Except Fault Nat :=
  match s._frameIndexToId.find? (fun mapping => mapping.2 = index) with
  | some mapping => .ok mapping.1
  | none => .error (Fault.logic_error "Model invalid RBDL id")

/-- `Model::frameIndexToBodyId`. -/
def frameIndexToBodyId (s : Model κ) (index : Nat) : Except Fault Nat :=
  StdMap.atKey s._frameIndexToId index

/-- `Model::orientationYaw(size_t, size_t)`. -/
def orientationYaw (api : RBDL κ) (s : Model κ) (srcFrameIndex dstFrameIndex : Nat) :
    Except Fault (ℚ × Model κ) :=
  match orientation api s srcFrameIndex dstFrameIndex with
  | .error e => .error e
  | .ok (rotation, s1) =>
    let rotation := rotation.transpose
    .ok (api.atan2 (rotation 1 0) (rotation 0 0), s1)

/-- `Model::orientationYaw(const std::string&, const std::string&)`. -/
def orientationYawByName (api : RBDL κ) (s : Model κ) (srcFrame dstFrame : String) :
    Except Fault (ℚ × Model κ) :=
  match orientationByName api s srcFrame dstFrame with
  | .error e => .error e
  | .ok (rotation, s1) =>
    let rotation := rotation.transpose
    .ok (api.atan2 (rotation 1 0) (rotation 0 0), s1)

/-- The writes `v.segment(0, 3) = mat * rot; v.segment(3, 3) = mat * trans` on a
6D vector whose angular part is `rot` and whose linear part is `trans`. -/
def rotateSpatial (mat : Mat 3 3) (v : Vec 6) : Vec 6 :=
  fun r =>
    if h : r.val < 3 then
      Matrix.mulVec mat (fun k => v ⟨k.val, by omega⟩) ⟨r.val, h⟩
    else
      Matrix.mulVec mat (fun k => v ⟨3 + k.val, by omega⟩) ⟨r.val - 3, by omega⟩

/-- `Model::pointJacobian`. -/
def pointJacobian (api : RBDL κ) (s : Model κ) (srcFrame dstFrame : String)
    (point : Vec 3) : Except Fault (Mat 6 s._model.qdot_size × Model κ) :=
  match getFrameIndex s srcFrame with
  | .error e => .error e
  | .ok srcFrameIndex =>
    match StdMap.atKey s._frameIndexToId srcFrameIndex with
    | .error e => .error e
    | .ok srcFrameIndex =>
      let G : Mat 6 s._model.qdot_size := 0
      let r := api.CalcPointJacobian6D s._model s._dofs srcFrameIndex point G true
      let G := r.1
      let s1 := withKinematics s r.2
      if dstFrame ≠ "origin" then
        match orientationByName api s1 "origin" dstFrame with
        | .error e => .error e
        | .ok (mat, s2) =>
          let mat := mat.transpose
          .ok (fun row i => rotateSpatial mat (fun k => G k i) row, s2)
      else .ok (G, s1)

/-- `Model::pointVelocity`. -/
def pointVelocity (api : RBDL κ) (s : Model κ) (pointFrame dstFrame : String)
    (velocity : VectorXd) (point : Vec 3) : Except Fault (Vec 6 × Model κ) :=
  match getFrameIndex s pointFrame with
  | .error e => .error e
  | .ok pointFrameIndex =>
    match StdMap.atKey s._frameIndexToId pointFrameIndex with
    | .error e => .error e
    | .ok pointFrameIndex =>
      let r := api.CalcPointVelocity6D s._model s._dofs velocity pointFrameIndex point true
      let vel := r.1
      let s1 := withKinematics s r.2
      match orientationByName api s1 "origin" dstFrame with
      | .error e => .error e
      | .ok (mat, s2) =>
        let mat := mat.transpose
        .ok (rotateSpatial mat vel, s2)

/-- `Model::pointAcceleration`. -/
def pointAcceleration (api : RBDL κ) (s : Model κ) (pointFrame dstFrame : String)
    (velocity acceleration : VectorXd) (point : Vec 3) : Except Fault (Vec 6 × Model κ) :=
  match getFrameIndex s pointFrame with
  | .error e => .error e
  | .ok pointFrameIndex =>
    match StdMap.atKey s._frameIndexToId pointFrameIndex with
    | .error e => .error e
    | .ok pointFrameIndex =>
      let r := api.CalcPointAcceleration6D s._model s._dofs velocity acceleration
        pointFrameIndex point true
      let acc := r.1
      let s1 := withKinematics s r.2
      match orientationByName api s1 "origin" dstFrame with
      | .error e => .error e
      | .ok (mat, s2) =>
        let mat := mat.transpose
        .ok (rotateSpatial mat acc, s2)

/-- `Model::centerOfMass(size_t)`. -/
def centerOfMass (api : RBDL κ) (s : Model κ) (frameIndex : Nat) :
    Except Fault (Vec 3 × Model κ) :=
  let r := api.CalcCenterOfMass s._model s._dofs s._dofs s._isAutoUpdate
  let com := r.1.2
  let s1 := withKinematics s r.2
  match getFrameIndex s1 "origin" with
  | .error e => .error e
  | .ok origin => position api s1 origin frameIndex com

/-- `Model::centerOfMass(const std::string&)`. -/
def centerOfMassByName (api : RBDL κ) (s : Model κ) (frame : String) :
    Except Fault (Vec 3 × Model κ) :=
  match getFrameIndex s frame with
  | .error e => .error e
  | .ok frameIndex => centerOfMass api s frameIndex

end Model

/-! ## Unconstrained and constrained dynamics

A dynamics call returns its outcome (the result, or the fault thrown) together
with the constraint set and the model as the call leaves them, so that what a
call that throws has written is part of the embedding.

The sizes `sizeDOF = position.size()` and `sizeCst = constraints.size()` of the
code are the type indices `s._model.dof_count` (to which the size check has just
compared `position.size()`) and `m` of the constraint set. -/

namespace Model

variable {κ : Type}

open LinearSolver

/-- `Model::forwardDynamicsCustom`. -/
def forwardDynamicsCustom (api : RBDL κ) (s : Model κ)
    (position velocity torque inertiaOffset : VectorXd) (solver : LinearSolver) :
    Except Fault (Vec s._model.dof_count) × Model κ :=
  if position.size ≠ s._model.dof_count then
    (.error (Fault.logic_error "Model invalid position vector size"), s)
  else if velocity.size ≠ s._model.dof_count then
    (.error (Fault.logic_error "Model invalid velocity vector size"), s)
  else if torque.size ≠ s._model.dof_count then
    (.error (Fault.logic_error "Model invalid acceleration vector size"), s)
  else if inertiaOffset.size ≠ s._model.dof_count then
    (.error (Fault.logic_error "Model invalid inertia vector size"), s)
  else
    let sizeDOF := position.size
    let acceleration := VectorXd.Zero sizeDOF
    let H : Mat s._model.dof_count s._model.dof_count := 0
    let C : Vec s._model.dof_count := 0
    let r1 := api.InverseDynamics s._model position velocity acceleration C
    let C := r1.1
    let s1 := withKinematics s r1.2
    let r2 := api.CompositeRigidBodyAlgorithm s1._model position H false
    let H := addInertiaOffset r2.1 inertiaOffset
    let s2 := withKinematics s1 r2.2
    match solver with
    | LinearSolverPartialPivLU =>
      (.ok (api.partialPivLu_solve H (-C + toVec torque _)), s2)
    | LinearSolverColPivHouseholderQR =>
      (.ok (api.colPivHouseholderQr_solve H (-C + toVec torque _)), s2)
    | LinearSolverHouseholderQR =>
      (.ok (api.householderQr_solve H (-C + toVec torque _)), s2)
    | LinearSolverLLT =>
      (.ok (api.llt_solve H (-C + toVec torque _)), s2)
    | LinearSolverFullPivLU =>
      (.ok (api.fullPivLu_solve H (-C + toVec torque _)), s2)
    | LinearSolverFullPivHouseholderQR =>
      (.ok (api.fullPivHouseholderQr_solve H (-C + toVec torque _)), s2)
    | LinearSolverOther _ => (.error Fault.assertion, s2)

/-- `Model::forwardDynamicsContactsCustom`: the returned acceleration, the
constraint set and the model after the call. -/
def forwardDynamicsContactsCustom (api : RBDL κ) (s : Model κ) {m : Nat}
    (constraints : ConstraintSet s._model.dof_count m)
    (position velocity torque inertiaOffset : VectorXd) (solver : LinearSolver) :
    Except Fault (Vec s._model.dof_count) × ConstraintSet s._model.dof_count m × Model κ :=
  if position.size ≠ s._model.dof_count then
    (.error (Fault.logic_error "Model invalid position vector size"), constraints, s)
  else if velocity.size ≠ s._model.dof_count then
    (.error (Fault.logic_error "Model invalid velocity vector size"), constraints, s)
  else if torque.size ≠ s._model.dof_count then
    (.error (Fault.logic_error "Model invalid torque vector size"), constraints, s)
  else if inertiaOffset.size ≠ s._model.dof_count then
    (.error (Fault.logic_error "Model invalid inertia vector size"), constraints, s)
  else
    let sizeDOF := s._model.dof_count
    let r := api.CalcContactSystemVariables s._model position velocity torque constraints
    let s1 := withKinematics s r.2
    let constraints := { constraints with
      H := addInertiaOffset r.1.H inertiaOffset
      C := r.1.C
      G := r.1.G
      gamma := r.1.gamma }
    let A : Mat (sizeDOF + m) (sizeDOF + m) := 0
    let b : Vec (sizeDOF + m) := 0
    let A := setBlock A 0 0 constraints.H
    let A := setBlock A sizeDOF 0 constraints.G
    let A := setBlock A 0 sizeDOF constraints.G.transpose
    let b := setSegment b 0 (toVec torque sizeDOF - constraints.C)
    let b := setSegment b sizeDOF constraints.gamma
    let constraints := { constraints with A := A, b := b }
    let solved : Except Fault (Vec (sizeDOF + m)) :=
      match solver with
      | LinearSolverPartialPivLU => .ok (api.partialPivLu_solve constraints.A constraints.b)
      | LinearSolverColPivHouseholderQR =>
        .ok (api.colPivHouseholderQr_solve constraints.A constraints.b)
      | LinearSolverHouseholderQR => .ok (api.householderQr_solve constraints.A constraints.b)
      | LinearSolverFullPivLU => .ok (api.fullPivLu_solve constraints.A constraints.b)
      | LinearSolverFullPivHouseholderQR =>
        .ok (api.fullPivHouseholderQr_solve constraints.A constraints.b)
      | _ => .error Fault.assertion
    match solved with
    | .error e => (.error e, constraints, s1)
    | .ok x =>
      let constraints := { constraints with x := x }
      let constraints := { constraints with
        force := -(segment constraints.x sizeDOF m (Nat.le_refl _)) }
      (.ok (segment constraints.x 0 sizeDOF (by omega)), constraints, s1)

/-- `Model::forwardImpulseDynamicsContactsCustom`. -/
def forwardImpulseDynamicsContactsCustom (api : RBDL κ) (s : Model κ) (dt : ℚ) {m : Nat}
    (constraints : ConstraintSet s._model.dof_count m)
    (position velocity torque inertiaOffset : VectorXd) (solver : LinearSolver) :
    Except Fault (Vec s._model.dof_count) × ConstraintSet s._model.dof_count m × Model κ :=
  if position.size ≠ s._model.dof_count then
    (.error (Fault.logic_error "Model invalid position vector size"), constraints, s)
  else if velocity.size ≠ s._model.dof_count then
    (.error (Fault.logic_error "Model invalid velocity vector size"), constraints, s)
  else if torque.size ≠ s._model.dof_count then
    (.error (Fault.logic_error "Model invalid torque vector size"), constraints, s)
  else if inertiaOffset.size ≠ s._model.dof_count then
    (.error (Fault.logic_error "Model invalid inertia vector size"), constraints, s)
  else
    let sizeDOF := s._model.dof_count
    let r := api.CalcContactSystemVariables s._model position velocity torque constraints
    let s1 := withKinematics s r.2
    let constraints := { constraints with
      H := addInertiaOffset r.1.H inertiaOffset
      C := r.1.C
      G := r.1.G
      gamma := r.1.gamma }
    if !api.colPivHouseholderQr_isInvertible constraints.H then
      (.error (Fault.logic_error "RBDLContactLCP non invertible H matrix"), constraints, s1)
    else
      let Hinv : Mat sizeDOF sizeDOF := api.colPivHouseholderQr_inverse constraints.H
      let GG1 : Mat m sizeDOF := constraints.G
      let gg1 : Vec m := constraints.gamma
      let M1 : Mat m m := GG1 * Hinv * GG1.transpose
      let d1 : Vec m :=
        gg1 - Matrix.mulVec (GG1 * Hinv) (toVec torque sizeDOF - constraints.C)
      let lll1 : Vec m := api.llt_solve M1 d1
      let A : Mat (sizeDOF + m) (sizeDOF + m) := 0
      let b : Vec (sizeDOF + m) := 0
      let A := setBlock A 0 0 constraints.H
      let A := setBlock A sizeDOF 0 constraints.G
      let A := setBlock A 0 sizeDOF (-dt • constraints.G.transpose)
      let b := setSegment b 0
        (dt • (toVec torque sizeDOF - constraints.C)
          + Matrix.mulVec constraints.H (toVec velocity sizeDOF))
      let constraints := { constraints with A := A, b := b }
      let solved : Except Fault (Vec (sizeDOF + m)) :=
        match solver with
        | LinearSolverPartialPivLU => .ok (api.partialPivLu_solve constraints.A constraints.b)
        | LinearSolverColPivHouseholderQR =>
          .ok (api.colPivHouseholderQr_solve constraints.A constraints.b)
        | LinearSolverHouseholderQR => .ok (api.householderQr_solve constraints.A constraints.b)
        | LinearSolverFullPivLU => .ok (api.fullPivLu_solve constraints.A constraints.b)
        | LinearSolverFullPivHouseholderQR =>
          .ok (api.fullPivHouseholderQr_solve constraints.A constraints.b)
        | _ => .error Fault.assertion
      match solved with
      | .error e => (.error e, constraints, s1)
      | .ok x =>
        let constraints := { constraints with x := x }
        let constraints := { constraints with
          force := segment constraints.x sizeDOF m (Nat.le_refl _) }
        (.ok (segment constraints.x 0 sizeDOF (by omega)), constraints, s1)

/-- `Model::inverseDynamicsContacts`. -/
def inverseDynamicsContacts (api : RBDL κ) (s : Model κ) {m : Nat}
    (constraints : ConstraintSet s._model.dof_count m)
    (position velocity acceleration inertiaOffset : VectorXd) :
    Except Fault (Vec s._model.dof_count) × ConstraintSet s._model.dof_count m × Model κ :=
  if position.size ≠ s._model.dof_count then
    (.error (Fault.logic_error "Model invalid position vector size"), constraints, s)
  else if velocity.size ≠ s._model.dof_count then
    (.error (Fault.logic_error "Model invalid velocity vector size"), constraints, s)
  else if acceleration.size ≠ s._model.dof_count then
    (.error (Fault.logic_error "Model invalid acceleration vector size"), constraints, s)
  else if inertiaOffset.size ≠ s._model.dof_count then
    (.error (Fault.logic_error "Model invalid inertia vector size"), constraints, s)
  else
    let sizeDOF := s._model.dof_count
    let r := api.CalcContactSystemVariables s._model position velocity
      (VectorXd.Zero position.size) constraints
    let s1 := withKinematics s r.2
    let constraints := { constraints with
      H := addInertiaOffset r.1.H inertiaOffset
      C := r.1.C
      G := r.1.G
      gamma := r.1.gamma }
    let A : Mat (sizeDOF + m) (sizeDOF + m) := 0
    let b : Vec (sizeDOF + m) := 0
    let A := setBlock A 0 0 constraints.H
    let A := setBlock A sizeDOF 0 constraints.G
    let A := setBlock A 0 sizeDOF constraints.G.transpose
    let b := setSegment b 0 (toVec acceleration sizeDOF)
    let b := setSegment b sizeDOF (-constraints.force)
    let constraints := { constraints with A := A, b := b }
    let constraints := { constraints with x := Matrix.mulVec constraints.A constraints.b }
    (.ok (segment constraints.x 0 sizeDOF (by omega) + constraints.C), constraints, s1)

/-- `Model::impulseContactsCustom`. -/
def impulseContactsCustom (api : RBDL κ) (s : Model κ) {m : Nat}
    (constraints : ConstraintSet s._model.dof_count m)
    (position velocity inertiaOffset : VectorXd) (solver : LinearSolver) :
    Except Fault (Vec s._model.dof_count) × ConstraintSet s._model.dof_count m × Model κ :=
  if position.size ≠ s._model.dof_count then
    (.error (Fault.logic_error "Model invalid position vector size"), constraints, s)
  else if velocity.size ≠ s._model.dof_count then
    (.error (Fault.logic_error "Model invalid velocity vector size"), constraints, s)
  else if inertiaOffset.size ≠ s._model.dof_count then
    (.error (Fault.logic_error "Model invalid inertia vector size"), constraints, s)
  else
    let sizeDOF := s._model.dof_count
    let s1 := withKinematics s (api.UpdateKinematicsCustom s._model (some position) none none)
    let r2 := api.CompositeRigidBodyAlgorithm s1._model position constraints.H false
    let s2 := withKinematics s1 r2.2
    let constraints := { constraints with H := addInertiaOffset r2.1 inertiaOffset }
    let r3 := api.CalcContactJacobian s2._model position constraints constraints.G false
    let s3 := withKinematics s2 r3.2
    let constraints := { constraints with G := r3.1 }
    let A : Mat (sizeDOF + m) (sizeDOF + m) := 0
    let b : Vec (sizeDOF + m) := 0
    let A := setBlock A 0 0 constraints.H
    let A := setBlock A sizeDOF 0 constraints.G
    let A := setBlock A 0 sizeDOF constraints.G.transpose
    let b := setSegment b 0 (Matrix.mulVec constraints.H (toVec velocity sizeDOF))
    let b := setSegment b sizeDOF constraints.v_plus
    let constraints := { constraints with A := A, b := b }
    let solved : Except Fault (Vec (sizeDOF + m)) :=
      match solver with
      | LinearSolverPartialPivLU => .ok (api.partialPivLu_solve constraints.A constraints.b)
      | LinearSolverColPivHouseholderQR =>
        .ok (api.colPivHouseholderQr_solve constraints.A constraints.b)
      | LinearSolverHouseholderQR => .ok (api.householderQr_solve constraints.A constraints.b)
      | LinearSolverFullPivLU => .ok (api.fullPivLu_solve constraints.A constraints.b)
      | LinearSolverFullPivHouseholderQR =>
        .ok (api.fullPivHouseholderQr_solve constraints.A constraints.b)
      | _ => .error Fault.assertion
    match solved with
    | .error e => (.error e, constraints, s3)
    | .ok x =>
      let constraints := { constraints with x := x }
      let constraints := { constraints with
        impulse := segment constraints.x sizeDOF m (Nat.le_refl _) }
      (.ok (segment constraints.x 0 sizeDOF (by omega)), constraints, s3)

/-- `Model::inverseDynamics(const Eigen::VectorXd&, const Eigen::VectorXd&)`. -/
def inverseDynamics (api : RBDL κ) (s : Model κ) (velocity acceleration : VectorXd) :
    Except Fault (Vec s._model.dof_count) × Model κ :=
  let QDot : Except Fault VectorXd :=
    if velocity.size = 0 then .ok (VectorXd.Zero s._model.dof_count)
    else if velocity.size ≠ s._model.dof_count then
      .error (Fault.logic_error "Model invalid velocity vector size")
    else .ok velocity
  match QDot with
  | .error e => (.error e, s)
  | .ok QDot =>
    let QDDot : Except Fault VectorXd :=
      if acceleration.size = 0 then .ok (VectorXd.Zero s._model.dof_count)
      else if acceleration.size ≠ s._model.dof_count then
        .error (Fault.logic_error "Model invalid acceleration vector size")
      else .ok acceleration
    match QDDot with
    | .error e => (.error e, s)
    | .ok QDDot =>
      let tau : Vec s._model.dof_count := 0
      let r := api.InverseDynamics s._model s._dofs QDot QDDot tau
      (.ok r.1, withKinematics s r.2)

/-- `Model::inverseDynamicsClosedLoop(size_t, …)`: the outcome, the contact force
written through the pointer `contactForce` (absent for a null pointer) and the
model after the call. -/
def inverseDynamicsClosedLoop (api : RBDL κ) (s : Model κ) (fixedFrameIndex : Nat)
    (contactForce : Option VectorXd) (useInfinityNorm : Bool)
    (velocity acceleration : VectorXd) :
    Except Fault (Vec s._model.dof_count) × Option VectorXd × Model κ :=
  let QDot : Except Fault VectorXd :=
    if velocity.size = 0 then .ok (VectorXd.Zero s._model.dof_count)
    else if velocity.size ≠ s._model.dof_count then
      .error (Fault.logic_error "Model invalid velocity vector size")
    else .ok velocity
  match QDot with
  | .error e => (.error e, contactForce, s)
  | .ok QDot =>
    let QDDot : Except Fault VectorXd :=
      if acceleration.size = 0 then .ok (VectorXd.Zero s._model.dof_count)
      else if acceleration.size ≠ s._model.dof_count then
        .error (Fault.logic_error "Model invalid acceleration vector size")
      else .ok acceleration
    match QDDot with
    | .error e => (.error e, contactForce, s)
    | .ok QDDot =>
      match StdMap.atKey s._frameIndexToId fixedFrameIndex with
      | .error e => (.error e, contactForce, s)
      | .ok fixedFrameId =>
        let r := api.RBDLClosedLoopInverseDynamics s._model s._dofs QDot QDDot
          fixedFrameId contactForce useInfinityNorm
        (r.1.1, r.1.2, withKinematics s r.2)

/-- `Model::inverseDynamicsClosedLoop(const std::string&, …)`. -/
def inverseDynamicsClosedLoopByName (api : RBDL κ) (s : Model κ) (fixedFrameName : String)
    (contactForce : Option VectorXd) (useInfinityNorm : Bool)
    (velocity acceleration : VectorXd) :
    Except Fault (Vec s._model.dof_count) × Option VectorXd × Model κ :=
  match getFrameIndex s fixedFrameName with
  | .error e => (.error e, contactForce, s)
  | .ok fixedFrameIndex =>
    inverseDynamicsClosedLoop api s fixedFrameIndex contactForce useInfinityNorm
      velocity acceleration

/-- `Model::forwardDynamics`. -/
def forwardDynamics (api : RBDL κ) (s : Model κ) (position velocity torque : VectorXd) :
    Except Fault (Vec s._model.dof_count) × Model κ :=
  if position.size ≠ s._model.dof_count then
    (.error (Fault.logic_error "Model invalid position vector size"), s)
  else if velocity.size ≠ s._model.dof_count then
    (.error (Fault.logic_error "Model invalid velocity vector size"), s)
  else if torque.size ≠ s._model.dof_count then
    (.error (Fault.logic_error "Model invalid acceleration vector size"), s)
  else
    let r := api.ForwardDynamics s._model position velocity torque
    (.ok r.1, withKinematics s r.2)

/-- `Model::forwardDynamicsContacts`. -/
def forwardDynamicsContacts (api : RBDL κ) (s : Model κ) {m : Nat}
    (constraints : ConstraintSet s._model.dof_count m)
    (position velocity torque : VectorXd) :
    Except Fault (Vec s._model.dof_count) × ConstraintSet s._model.dof_count m × Model κ :=
  if position.size ≠ s._model.dof_count then
    (.error (Fault.logic_error "Model invalid position vector size"), constraints, s)
  else if velocity.size ≠ s._model.dof_count then
    (.error (Fault.logic_error "Model invalid velocity vector size"), constraints, s)
  else if torque.size ≠ s._model.dof_count then
    (.error (Fault.logic_error "Model invalid acceleration vector size"), constraints, s)
  else
    let r := api.ForwardDynamicsContactsDirect s._model position velocity torque constraints
    (.ok r.1.1, r.1.2, withKinematics s r.2)

/-- `Model::impulseContacts`. -/
def impulseContacts (api : RBDL κ) (s : Model κ) {m : Nat}
    (constraints : ConstraintSet s._model.dof_count m)
    (position velocity : VectorXd) :
    Except Fault (Vec s._model.dof_count) × ConstraintSet s._model.dof_count m × Model κ :=
  if position.size ≠ s._model.dof_count then
    (.error (Fault.logic_error "Model invalid position vector size"), constraints, s)
  else if velocity.size ≠ s._model.dof_count then
    (.error (Fault.logic_error "Model invalid velocity vector size"), constraints, s)
  else
    let newVel : Vec s._model.dof_count := toVec velocity s._model.dof_count
    let r := api.ComputeContactImpulsesDirect s._model position velocity constraints newVel
    (.ok r.1.1, r.1.2, withKinematics s r.2)

/-- `Model::resolveContactConstraintLCP`: the arguments are handed to
`RBDLContactLCP` as they are. -/
def resolveContactConstraintLCP (api : RBDL κ) (s : Model κ) {m : Nat}
    (constraints : ConstraintSet s._model.dof_count m)
    (isBilateralConstraint : VectorXi)
    (position velocity torque inertiaOffset : VectorXd) :
    Except Fault Unit × ConstraintSet s._model.dof_count m × Model κ :=
  let r := api.RBDLContactLCP s._model position velocity torque inertiaOffset constraints
    isBilateralConstraint
  (r.1.1, r.1.2, withKinematics s r.2)

end Model


/-! ## The auto-update flag -/

/-- What the library documents for the flag `update_kinematics` of the routines
the frame queries call: called with the flag off, a routine leaves the
quantities cached in the model as they are. -/
def KeepsCacheWhenOff {κ : Type} (api : RBDL κ) : Prop :=
  (∀ m Q id p, (api.CalcBodyToBaseCoordinates m Q id p false).2 = m.kinematics) ∧
  (∀ m Q id p, (api.CalcBaseToBodyCoordinates m Q id p false).2 = m.kinematics) ∧
  (∀ m Q id, (api.CalcBodyWorldOrientation m Q id false).2 = m.kinematics) ∧
  (∀ m Q QDot, (api.CalcCenterOfMass m Q QDot false).2 = m.kinematics)

/-! ## The floating-base foot state machine

The header `Model/SigmabanFloatingModel.hpp` declares the support foot, the
recorded state of the support foot and the four operations; their bodies are
not among the sources. -/

/-- `SigmabanFloatingModel::SupportFoot`. -/
inductive SupportFoot where
  | LeftSupportFoot
  | RightSupportFoot
deriving DecidableEq, Repr

/-- Modelled from the spec: the world-frame pose of a foot, as the state machine
reads it: planar position, yaw, roll and pitch. -/
structure FootPose where
  x : ℚ
  y : ℚ
  yaw : ℚ
  roll : ℚ
  pitch : ℚ
deriving DecidableEq

/-- Modelled from the spec: the planar position and yaw of a pose. -/
def FootPose.planar (p : FootPose) : ℚ × ℚ × ℚ := (p.x, p.y, p.yaw)

/-- Modelled from the spec: what the state machine uses of the model underneath,
for a generalized state of type `σ`: the world-frame pose of a foot (kinematics
engine), the rewriting of the base rotation that lays a foot flat, and the
rewriting of the base that pins a foot at a planar position and yaw. -/
structure FloatingBase (σ : Type) where
  footPose : σ → SupportFoot → FootPose
  layFlat : σ → SupportFoot → σ
  pin : σ → SupportFoot → ℚ → ℚ → ℚ → σ

/-- Modelled from the spec: what the two rewritings of the base achieve: after
`layFlat` the foot has zero roll and pitch; after `pin` the foot has the given
planar position and yaw, and the roll and pitch it had. -/
def Anchoring {σ : Type} (k : FloatingBase σ) : Prop :=
  (∀ q foot, (k.footPose (k.layFlat q foot) foot).roll = 0 ∧
    (k.footPose (k.layFlat q foot) foot).pitch = 0) ∧
  (∀ q foot x y yaw,
    (k.footPose (k.pin q foot x y yaw) foot).planar = (x, y, yaw) ∧
    (k.footPose (k.pin q foot x y yaw) foot).roll = (k.footPose q foot).roll ∧
    (k.footPose (k.pin q foot x y yaw) foot).pitch = (k.footPose q foot).pitch)

/-- The state of `SigmabanFloatingModel`: the generalized state of the model
underneath and the data members `_supportFoot`, `_statePosX`, `_statePosY`,
`_stateRotYaw` of the header. -/
structure SigmabanFloatingModel (σ : Type) where
  _dofs : σ
  _supportFoot : SupportFoot
  _statePosX : ℚ
  _statePosY : ℚ
  _stateRotYaw : ℚ

namespace SigmabanFloatingModel

variable {σ : Type}

/-- `SigmabanFloatingModel::getSupportFoot`. -/
def getSupportFoot (s : SigmabanFloatingModel σ) : SupportFoot := s._supportFoot

/-- Modelled from the spec: the recorded anchor, planar position and yaw. -/
def anchor (s : SigmabanFloatingModel σ) : ℚ × ℚ × ℚ :=
  (s._statePosX, s._statePosY, s._stateRotYaw)

/-- Modelled from the spec: `findSupportFoot`, first step of a tick. The support
foot is decided outside; if it differs from the one of the last tick, the
current world-frame planar position and yaw of the new support foot are
recorded as the new anchor. -/
def findSupportFoot (k : FloatingBase σ) (s : SigmabanFloatingModel σ)
    (decision : SupportFoot) : SigmabanFloatingModel σ :=
  if decision ≠ s._supportFoot then
    { s with
      _supportFoot := decision
      _statePosX := (k.footPose s._dofs decision).x
      _statePosY := (k.footPose s._dofs decision).y
      _stateRotYaw := (k.footPose s._dofs decision).yaw }
  else s

/-- Modelled from the spec: `putSupportFootFlat`, the base is rewritten so that
the support foot has zero roll and pitch. -/
def putSupportFootFlat (k : FloatingBase σ) (s : SigmabanFloatingModel σ) :
    SigmabanFloatingModel σ :=
  { s with _dofs := k.layFlat s._dofs s._supportFoot }

/-- Modelled from the spec: `putSupportFootOrigin`, the base is rewritten so
that the planar position and yaw of the support foot match the recorded
anchor. -/
def putSupportFootOrigin (k : FloatingBase σ) (s : SigmabanFloatingModel σ) :
    SigmabanFloatingModel σ :=
  { s with _dofs := k.pin s._dofs s._supportFoot s._statePosX s._statePosY s._stateRotYaw }

/-- Modelled from the spec: `putOnGround`, one tick: `findSupportFoot`, then
`putSupportFootFlat`, then `putSupportFootOrigin`. -/
def putOnGround (k : FloatingBase σ) (s : SigmabanFloatingModel σ)
    (decision : SupportFoot) : SigmabanFloatingModel σ :=
  putSupportFootOrigin k (putSupportFootFlat k (findSupportFoot k s decision))

/-- Modelled from the spec: a sequence of ticks, one per decision. -/
def ticks (k : FloatingBase σ) (s : SigmabanFloatingModel σ)
    (decisions : List SupportFoot) : SigmabanFloatingModel σ :=
  decisions.foldl (putOnGround k) s

end SigmabanFloatingModel

/-! ## Fault categories -/

/-- The faults of the size checks: a logic error whose message names an
argument as an invalid vector size. -/
def IsInvalidVectorSize {α : Type} (r : Except Fault α) : Prop :=
  ∃ what, what ∈ ["position", "velocity", "acceleration", "torque", "inertia"] ∧
    r = .error (Fault.logic_error ("Model invalid " ++ what ++ " vector size"))

/-- The fitness function of `appTrajectoriesLogFitting.cpp`, on the outcome of
`scoreTrajectoryFitting`: the score is returned, a `std::runtime_error` is
caught and replaced by the penalty 2000, any other fault goes through. -/
def fitness (score : Except Fault ℚ) : Except Fault ℚ :=
  match score with
  | .error (Fault.runtime_error _) => .ok 2000
  | r => r

/-! ## MapSeries -/

/-- Subtraction of two `size_t`: the difference modulo `2 ^ 64`. -/
def usub (a b : Nat) : Nat := (a + 2 ^ 64 - b % 2 ^ 64) % 2 ^ 64

/-- `MapSeries::Point`. -/
structure MapSeries.Point where
  time : ℚ
  value : ℚ
deriving DecidableEq

/-- The data member `_data` of `Leph::MapSeries`. -/
structure MapSeries where
  _data : StdMap String (List MapSeries.Point)
deriving DecidableEq

/-- What a call of `MapSeries::get` gives: the value returned and what the
optional outputs `ptrIndexLow`, `ptrIndexUp`, `ptrPtLow`, `ptrPtUp` receive
when they are not null (`none`: nothing is assigned). -/
structure MapSeries.Interpolation where
  value : ℚ
  indexLow : Option Nat
  indexUp : Option Nat
  ptLow : Option MapSeries.Point
  ptUp : Option MapSeries.Point
deriving DecidableEq

namespace MapSeries

/-- The constructor `MapSeries()`. -/
def empty : MapSeries := ⟨[]⟩

/-- `MapSeries::exist`. -/
def exist (s : MapSeries) (name : String) : Bool :=
  decide (StdMap.count s._data name > 0)

/-- `MapSeries::checkSeries`. -/
def checkSeries (s : MapSeries) (name : String) : Except Fault Unit :=
  if StdMap.count s._data name = 0 then
    .error (Fault.logic_error ("MapSeries unknown series: " ++ name))
  else .ok ()

/-- `MapSeries::size`. -/
def size (s : MapSeries) (name : String) : Except Fault Nat :=
  match checkSeries s name with
  | .error e => .error e
  | .ok _ =>
    match StdMap.atKey s._data name with
    | .error e => .error e
    | .ok vect => .ok vect.length

/-- `MapSeries::dimension`. -/
def dimension (s : MapSeries) : Nat := s._data.length

/-- `MapSeries::clear`. -/
def clear (s : MapSeries) : MapSeries := ⟨[]⟩

/-- `MapSeries::append`: the outcome of the call and the container it leaves.
The test `size() > 0 && back().time > time` is the test on the last point, if
there is one. -/
def append (s : MapSeries) (name : String) (time value : ℚ) :
    Except Fault Unit × MapSeries :=
  let s1 : MapSeries :=
    if StdMap.count s._data name = 0 then ⟨StdMap.assign s._data name []⟩ else s
  match StdMap.atKey s1._data name with
  | .error e => (.error e, s1)
  | .ok vect =>
    let tooLow : Bool :=
      match vect.getLast? with
      | some last => decide (last.time > time)
      | none => false
    if tooLow then
      (.error (Fault.logic_error ("MapSeries append time too low: " ++ name)), s1)
    else
      (.ok (), ⟨StdMap.assign s1._data name (vect ++ [⟨time, value⟩])⟩)

/-- `MapSeries::front`; the first element of an empty vector is undefined. -/
def front (s : MapSeries) (name : String) : Except Fault Point :=
  match checkSeries s name with
  | .error e => .error e
  | .ok _ =>
    match StdMap.atKey s._data name with
    | .error e => .error e
    | .ok vect =>
      match vect.head? with
      | some p => .ok p
      | none => .error Fault.undefined

/-- `MapSeries::back`; the last element of an empty vector is undefined. -/
def back (s : MapSeries) (name : String) : Except Fault Point :=
  match checkSeries s name with
  | .error e => .error e
  | .ok _ =>
    match StdMap.atKey s._data name with
    | .error e => .error e
    | .ok vect =>
      match vect.getLast? with
      | some p => .ok p
      | none => .error Fault.undefined

/-- `MapSeries::timeMin(name)`. -/
def timeMin (s : MapSeries) (name : String) : Except Fault ℚ :=
  match checkSeries s name with
  | .error e => .error e
  | .ok _ =>
    match StdMap.atKey s._data name with
    | .error e => .error e
    | .ok vect =>
      match vect.head? with
      | some p => .ok p.time
      | none => .error Fault.undefined

/-- `MapSeries::timeMax(name)`. -/
def timeMax (s : MapSeries) (name : String) : Except Fault ℚ :=
  match checkSeries s name with
  | .error e => .error e
  | .ok _ =>
    match StdMap.atKey s._data name with
    | .error e => .error e
    | .ok vect =>
      match vect.getLast? with
      | some p => .ok p.time
      | none => .error Fault.undefined

/-- The bisection loop of `getIndex` and of `get`, which goes on while
`goesOn (indexUp - indexLow)`; the indices are `size_t`. The loop is bounded by
`fuel`; a loop that does not end within it, or a read outside the vector, is
undefined. -/
def bisect (goesOn : Nat → Bool) (vect : List Point) (time : ℚ) :
    Nat → Nat → Nat → Except Fault (Nat × Nat)
  | 0, _, _ => .error Fault.undefined
  | fuel + 1, indexLow, indexUp =>
    if goesOn (usub indexUp indexLow) then
      let indexMiddle := (indexLow + indexUp) % 2 ^ 64 / 2
      match vect[indexMiddle]? with
      | none => .error Fault.undefined
      | some p =>
        if p.time ≤ time then bisect goesOn vect time fuel indexMiddle indexUp
        else bisect goesOn vect time fuel indexLow indexMiddle
    else .ok (indexLow, indexUp)

/-- `MapSeries::getIndex`. The loop `while (indexUp - indexLow != 1)` is given
as many turns as the vector has points. -/
def getIndex (s : MapSeries) (name : String) (time : ℚ) : Except Fault Nat :=
  match checkSeries s name with
  | .error e => .error e
  | .ok _ =>
    match StdMap.atKey s._data name with
    | .error e => .error e
    | .ok vect =>
      match vect.head?, vect.getLast? with
      | some front, some back =>
        if time ≤ front.time then .ok 0
        else if time ≥ back.time then .ok (usub vect.length 1)
        else if vect.length = 1 then .ok 0
        else
          match bisect (fun d => decide (d ≠ 1)) vect time vect.length 0
              (usub vect.length 1) with
          | .error e => .error e
          | .ok (indexLow, indexUp) =>
            match vect[indexLow]?, vect[indexUp]? with
            | some ptLow, some ptUp =>
              if |time - ptLow.time| ≤ |time - ptUp.time| then .ok indexLow
              else .ok indexUp
            | _, _ => .error Fault.undefined
      | _, _ => .error Fault.undefined

/-- `MapSeries::get`. The loop `while (indexUp - indexLow > 1)` is given as many
turns as the vector has points. -/
def get (s : MapSeries) (name : String) (time : ℚ) : Except Fault Interpolation :=
  match checkSeries s name with
  | .error e => .error e
  | .ok _ =>
    match StdMap.atKey s._data name with
    | .error e => .error e
    | .ok vect =>
      if vect.length = 0 then .ok ⟨0, none, none, none, none⟩
      else
        match vect.head?, vect.getLast? with
        | some front, some back =>
          if vect.length = 1 then .ok ⟨front.value, none, none, none, none⟩
          else if time ≤ front.time then .ok ⟨front.value, none, none, none, none⟩
          else if time ≥ back.time then .ok ⟨back.value, none, none, none, none⟩
          else
            match bisect (fun d => decide (d > 1)) vect time vect.length 0
                (usub vect.length 1) with
            | .error e => .error e
            | .ok (indexLow, indexUp) =>
              match vect[indexLow]?, vect[indexUp]? with
              | some ptLow, some ptUp =>
                let ratio := ptUp.time - ptLow.time
                .ok ⟨(ptUp.time - time) / ratio * ptLow.value
                    + (time - ptLow.time) / ratio * ptUp.value,
                  some indexLow, some indexUp, some ptLow, some ptUp⟩
              | _, _ => .error Fault.undefined
        | _, _ => .error Fault.undefined

/-- The write `cutMap._data[name].push_back(point)`. -/
def pushBack (cutMap : StdMap String (List Point)) (name : String) (point : Point) :
    StdMap String (List Point) :=
  StdMap.assign cutMap name ((StdMap.find cutMap name).getD [] ++ [point])

/-- One turn of the outer loop of `sliceTimeRange`, for the series `it`. -/
def sliceSeries (timeBegin timeEnd : ℚ) (cutMap : StdMap String (List Point))
    (it : String × List Point) : StdMap String (List Point) :=
  let cutMap := StdMap.assign cutMap it.1 []
  let cutMap := it.2.foldl
    (fun cutMap point =>
      if point.time ≥ timeBegin ∧ point.time ≤ timeEnd then pushBack cutMap it.1 point
      else cutMap)
    cutMap
  if ((StdMap.find cutMap it.1).getD []).length = 0 then StdMap.erase cutMap it.1
  else cutMap

/-- `MapSeries::sliceTimeRange`; the method is `const`, it returns the new
container. -/
def sliceTimeRange (s : MapSeries) (timeBegin timeEnd : ℚ) : Except Fault MapSeries :=
  if timeBegin > timeEnd then .error (Fault.logic_error "MapSeries invalid time range")
  else .ok ⟨s._data.foldl (sliceSeries timeBegin timeEnd) []⟩

/-- The containers reached from the empty one by calls of `append` (whether
they succeed or throw), `clear` and `sliceTimeRange`. -/
inductive Reachable : MapSeries → Prop where
  | empty : Reachable empty
  | append (s : MapSeries) (name : String) (time value : ℚ) :
      Reachable s → Reachable (append s name time value).2
  | clear (s : MapSeries) : Reachable s → Reachable (clear s)
  | sliceTimeRange (s s' : MapSeries) (timeBegin timeEnd : ℚ) :
      Reachable s → sliceTimeRange s timeBegin timeEnd = .ok s' → Reachable s'

end MapSeries

namespace MapSeries

/-- The points of a series that `sliceTimeRange` keeps: those whose time lies
in the range, in their order. -/
def inRange (timeBegin timeEnd : ℚ) (vect : List Point) : List Point :=
  vect.filter (fun point => decide (point.time ≥ timeBegin ∧ point.time ≤ timeEnd))

/-- A container holds each name once, and each of its series is non-empty with
non-decreasing times. -/
def Inv (s : MapSeries) : Prop :=
  (s._data.map Prod.fst).Nodup ∧
  ∀ it ∈ s._data, it.2 ≠ [] ∧ it.2.Pairwise (fun p q => p.time ≤ q.time)

end MapSeries

/-! ## VectorLabel accessors -/

namespace VectorLabel

/-- Modelled from the spec: `VectorLabel::getLabel(index)`, the label of a
position; an index that is not below the size is refused. -/
def getLabel (v : VectorLabel) (index : Nat) : Except Fault String :=
  match v.entries[index]? with
  | some entry => .ok entry.1
  | none => .error (Fault.logic_error "VectorLabel unbound index")

/-- Modelled from the spec: `VectorLabel::getIndex(label)`, the position of a
label; a label that is not contained is refused. -/
def getIndex (v : VectorLabel) (label : String) : Except Fault Nat :=
  if v.exist label then .ok (v.labels.indexOf label)
  else .error (Fault.logic_error ("VectorLabel invalid label: " ++ label))

/-- Modelled from the spec: the read `vect(index)`. -/
def atIndex (v : VectorLabel) (index : Nat) : Except Fault ℚ :=
  match v.entries[index]? with
  | some entry => .ok entry.2
  | none => .error (Fault.logic_error "VectorLabel unbound index")

/-- Modelled from the spec: the write `vect(index) = value`. -/
def assignIndex (v : VectorLabel) (index : Nat) (value : ℚ) : Except Fault VectorLabel :=
  match v.entries[index]? with
  | some entry => .ok ⟨v.entries.set index (entry.1, value)⟩
  | none => .error (Fault.logic_error "VectorLabel unbound index")

/-- Modelled from the spec: the read `vect(label)`, at the position of the
label. -/
def atLabel (v : VectorLabel) (label : String) : Except Fault ℚ :=
  match getIndex v label with
  | .error e => .error e
  | .ok index => atIndex v index

/-- Modelled from the spec: the write `vect(label) = value`, at the position of
the label. -/
def assignLabel (v : VectorLabel) (label : String) (value : ℚ) : Except Fault VectorLabel :=
  match getIndex v label with
  | .error e => .error e
  | .ok index => assignIndex v index value

end VectorLabel

/-! ## The impulse dynamics without its secondary computation -/

namespace Model

variable {κ : Type}

open LinearSolver

/-- The procedure of `Model::forwardImpulseDynamicsContactsCustom` with the block
between the marks `XXX TODO --->` and `XXX TODO <---` removed: no decomposition
of `H`, no invertibility test, no `Hinv`, `M1`, `d1`, `lll1`. -/
def forwardImpulseDynamicsContactsCustomWithoutInverse (api : RBDL κ) (s : Model κ) (dt : ℚ)
    {m : Nat} (constraints : ConstraintSet s._model.dof_count m)
    (position velocity torque inertiaOffset : VectorXd) (solver : LinearSolver) :
    Except Fault (Vec s._model.dof_count) × ConstraintSet s._model.dof_count m × Model κ :=
  if position.size ≠ s._model.dof_count then
    (.error (Fault.logic_error "Model invalid position vector size"), constraints, s)
  else if velocity.size ≠ s._model.dof_count then
    (.error (Fault.logic_error "Model invalid velocity vector size"), constraints, s)
  else if torque.size ≠ s._model.dof_count then
    (.error (Fault.logic_error "Model invalid torque vector size"), constraints, s)
  else if inertiaOffset.size ≠ s._model.dof_count then
    (.error (Fault.logic_error "Model invalid inertia vector size"), constraints, s)
  else
    let sizeDOF := s._model.dof_count
    let r := api.CalcContactSystemVariables s._model position velocity torque constraints
    let s1 := withKinematics s r.2
    let constraints := { constraints with
      H := addInertiaOffset r.1.H inertiaOffset
      C := r.1.C
      G := r.1.G
      gamma := r.1.gamma }
    let A : Mat (sizeDOF + m) (sizeDOF + m) := 0
    let b : Vec (sizeDOF + m) := 0
    let A := setBlock A 0 0 constraints.H
    let A := setBlock A sizeDOF 0 constraints.G
    let A := setBlock A 0 sizeDOF (-dt • constraints.G.transpose)
    let b := setSegment b 0
      (dt • (toVec torque sizeDOF - constraints.C)
        + Matrix.mulVec constraints.H (toVec velocity sizeDOF))
    let constraints := { constraints with A := A, b := b }
    let solved : Except Fault (Vec (sizeDOF + m)) :=
      match solver with
      | LinearSolverPartialPivLU => .ok (api.partialPivLu_solve constraints.A constraints.b)
      | LinearSolverColPivHouseholderQR =>
        .ok (api.colPivHouseholderQr_solve constraints.A constraints.b)
      | LinearSolverHouseholderQR => .ok (api.householderQr_solve constraints.A constraints.b)
      | LinearSolverFullPivLU => .ok (api.fullPivLu_solve constraints.A constraints.b)
      | LinearSolverFullPivHouseholderQR =>
        .ok (api.fullPivHouseholderQr_solve constraints.A constraints.b)
      | _ => .error Fault.assertion
    match solved with
    | .error e => (.error e, constraints, s1)
    | .ok x =>
      let constraints := { constraints with x := x }
      let constraints := { constraints with
        force := segment constraints.x sizeDOF m (Nat.le_refl _) }
      (.ok (segment constraints.x 0 sizeDOF (by omega)), constraints, s1)

end Model

/-! ## FittedSpline

The points are pairs `(x, y)`; `std::sort`, and the regression of
`Spline/PolyFit.hpp`, which is not among the sources, are parameters. -/

/-- Equality of two outcomes is decidable. -/
instance instDecidableEqExcept {ε α : Type} [DecidableEq ε] [DecidableEq α] :
    DecidableEq (Except ε α)
  | .ok a, .ok b =>
    if h : a = b then isTrue (by rw [h]) else isFalse (fun e => h (Except.ok.inj e))
  | .error a, .error b =>
    if h : a = b then isTrue (by rw [h]) else isFalse (fun e => h (Except.error.inj e))
  | .ok _, .error _ => isFalse (fun e => Except.noConfusion e)
  | .error _, .ok _ => isFalse (fun e => Except.noConfusion e)

namespace FittedSpline

/-- The state of the loops that cut the points into parts: the parts found,
`beginIndex` and `isIncreasing`. -/
structure Cut where
  parts : List (Nat × Nat)
  beginIndex : Nat
  isIncreasing : Bool
deriving DecidableEq

/-- A `for` loop over the indices of a list, in order, which ends at the first
fault. -/
def forEach {σ : Type} (body : σ → Nat → Except Fault σ) : List Nat → σ → Except Fault σ
  | [], st => .ok st
  | i :: rest, st =>
    match body st i with
    | .error e => .error e
    | .ok st => forEach body rest st

/-- The body of the loop of `fittingPieces` that cuts the points at the extrema
(lines 38 to 54), for the index `i`; a read outside the points is undefined. -/
def piecesStep (points : List (ℚ × ℚ)) (st : Cut) (i : Nat) : Except Fault Cut :=
  match points[i]?, points[usub i 1]? with
  | some p, some q =>
    if st.isIncreasing = true ∧ p.2 < q.2 - 1 / 1000000 then
      .ok ⟨st.parts ++ [(st.beginIndex, usub i 1)], usub i 1, false⟩
    else if st.isIncreasing = false ∧ p.2 > q.2 + 1 / 1000000 then
      .ok ⟨st.parts ++ [(st.beginIndex, usub i 1)], usub i 1, true⟩
    else .ok st
  | _, _ => .error Fault.undefined

/-- The parts `fittingPieces` builds from the sorted points (lines 29 to 55):
initial trend, loop over the indices from 1, last part. -/
def piecesParts (points : List (ℚ × ℚ)) : Except Fault (List (Nat × Nat)) :=
  match points[1]?, points[0]? with
  | some p1, some p0 =>
    let isIncreasing : Bool := decide (p1.2 > p0.2 + 1 / 1000000)
    match forEach (piecesStep points) (List.range' 1 (points.length - 1))
        ⟨[], 0, isIncreasing⟩ with
    | .error e => .error e
    | .ok st => .ok (st.parts ++ [(st.beginIndex, usub points.length 1)])
  | _, _ => .error Fault.undefined

/-- The loop `while (true)` of `fittingPieces` that raises the degree for one
part (lines 69 to 112), where `fitError degree` is the maximum error of the
regression of that degree on the part and `gap` is `second - first`; `degree`
is an `unsigned int`. It returns the degree of the polynom saved and whether
the fit is successful. The loop is bounded by `fuel`; a loop that does not end
within it is undefined. -/
def degreeLoop (fitError : Nat → ℚ) (maxError : ℚ) (throwsError : Bool) (gap : Nat) :
    Nat → Nat → Nat → ℚ → Except Fault (Nat × Bool)
  | 0, _, _, _ => .error Fault.undefined
  | fuel + 1, degree, bestDegree, bestError =>
    let error := fitError degree
    let best : Nat × ℚ :=
      if bestDegree = 0 ∨ bestError > error then (degree, error) else (bestDegree, bestError)
    if degree ≥ gap ∨ best.2 ≤ maxError then
      if best.2 > maxError then
        if throwsError then
          .error (Fault.runtime_error "FittedSpline unable to fit data point")
        else .ok (degree, false)
      else .ok (degree, true)
    else degreeLoop fitError maxError throwsError gap fuel ((degree + 1) % 2 ^ 32) best.1 best.2

/-- The data `fittingPieces` hands to the regression for the part
`(first, second)`: the points of index `first` to `second`, shifted to start
at `x = 0`. -/
def partData (points : List (ℚ × ℚ)) (part : Nat × Nat) : List (ℚ × ℚ) :=
  ((points.take (part.2 + 1)).drop part.1).map
    (fun p => (p.1 - (points.getD part.1 (0, 0)).1, p.2))

/-- The loop of `fittingPieces` over the parts (lines 62 to 113): the splines
saved, each as the degree of its polynom and its two bounds, and
`isFitSuccessful`. The loop that raises the degree is given `gap + 1` turns. -/
def piecesFit (fitError : Nat → List (ℚ × ℚ) → ℚ) (points : List (ℚ × ℚ)) (maxError : ℚ)
    (throwsError : Bool) :
    List (Nat × Nat) → List (Nat × ℚ × ℚ) × Bool → Except Fault (List (Nat × ℚ × ℚ) × Bool)
  | [], acc => .ok acc
  | part :: rest, acc =>
    match degreeLoop (fun degree => fitError degree (partData points part)) maxError throwsError
        (usub part.2 part.1) (usub part.2 part.1 + 1) 1 0 0 with
    | .error e => .error e
    | .ok (degree, ok) =>
      match points[part.1]?, points[part.2]? with
      | some pFirst, some pSecond =>
        piecesFit fitError points maxError throwsError rest
          (acc.1 ++ [(degree, pFirst.1, pSecond.1)], acc.2 && ok)
      | _, _ => .error Fault.undefined

/-- `FittedSpline::fittingPieces`, on the points added so far: the splines
saved and the value returned. -/
def fittingPieces (sort : List (ℚ × ℚ) → List (ℚ × ℚ)) (fitError : Nat → List (ℚ × ℚ) → ℚ)
    (_points : List (ℚ × ℚ)) (maxError : ℚ) (throwsError : Bool) :
    Except Fault (List (Nat × ℚ × ℚ) × Bool) :=
  if _points.length < 3 then .error (Fault.logic_error "FittedSpline not enough points")
  else
    let _points := sort _points
    match piecesParts _points with
    | .error e => .error e
    | .ok parts => piecesFit fitError _points maxError throwsError parts ([], true)

/-- The body of the loop of `fittingPolynomPieces` that cuts the points (lines
276 to 309), for the index `i`. -/
def polynomPiecesStep (minTimeLength maxTimeLength : ℚ) (points : List (ℚ × ℚ)) (st : Cut)
    (i : Nat) : Except Fault Cut :=
  match points[i]?, points[usub i 1]?, points[st.beginIndex]? with
  | some p, some q, some pBegin =>
    let trend : Bool × Bool :=
      if st.isIncreasing = true ∧ p.2 < q.2 - 1 / 1000000 then (true, false)
      else if st.isIncreasing = false ∧ p.2 > q.2 + 1 / 1000000 then (true, true)
      else (false, st.isIncreasing)
    let doAdd := trend.1
    let isIncreasing := trend.2
    let currentLength := p.1 - pBegin.1
    let doAdd : Bool :=
      if maxTimeLength > 0 ∧ currentLength ≥ maxTimeLength then true else doAdd
    let doAdd : Bool :=
      if doAdd = true ∧ minTimeLength > 0 ∧ currentLength < currentLength then false
      else doAdd
    if doAdd = true then
      .ok ⟨st.parts ++ [(st.beginIndex, usub i 1)], usub i 1, isIncreasing⟩
    else .ok ⟨st.parts, st.beginIndex, isIncreasing⟩
  | _, _, _ => .error Fault.undefined

/-- The parts `fittingPolynomPieces` builds (lines 255 to 310): data check,
`prepareData`, initial trend, loop over the indices from 1, last part. -/
def polynomPiecesParts (sort : List (ℚ × ℚ) → List (ℚ × ℚ)) (_points : List (ℚ × ℚ))
    (minTimeLength maxTimeLength : ℚ) : Except Fault (List (Nat × Nat)) :=
  if _points.length < 3 then .error (Fault.logic_error "FittedSpline not enough points")
  else
    let _points := sort _points
    match _points[1]?, _points[0]? with
    | some p1, some p0 =>
      let isIncreasing : Bool := decide (p1.2 > p0.2 + 1 / 1000000)
      match forEach (polynomPiecesStep minTimeLength maxTimeLength _points)
          (List.range' 1 (_points.length - 1)) ⟨[], 0, isIncreasing⟩ with
      | .error e => .error e
      | .ok st => .ok (st.parts ++ [(st.beginIndex, usub _points.length 1)])
    | _, _ => .error Fault.undefined

/-- The loop of `fittingCubic` that adds a point every `sequenceLength` (lines
227 to 238), from the index `i` on, up to `bound`; it collects the points
added to the cubic spline with their velocity. A remainder by zero and a read
outside the points are undefined. The loop is bounded by `fuel`; a loop that
does not end within it is undefined. -/
def cubicLoop (points : List (ℚ × ℚ)) (sequenceLength bound : Nat) :
    Nat → Nat → List (ℚ × ℚ × ℚ) → Except Fault (List (ℚ × ℚ × ℚ))
  | 0, _, _ => .error Fault.undefined
  | fuel + 1, i, cubic =>
    if i < bound then
      if sequenceLength = 0 then .error Fault.undefined
      else if i % sequenceLength = 0 then
        match points[(i + 1) % 2 ^ 64]?, points[usub i 1]?, points[i]? with
        | some pNext, some pPrev, some p =>
          let dY := pNext.2 - pPrev.2
          let dT := pNext.1 - pPrev.1
          if dT ≤ 0 then .error (Fault.logic_error "FittedSpline differentiation error")
          else
            cubicLoop points sequenceLength bound fuel ((i + 1) % 2 ^ 64)
              (cubic ++ [(p.1, p.2, dY / dT)])
        | _, _, _ => .error Fault.undefined
      else cubicLoop points sequenceLength bound fuel ((i + 1) % 2 ^ 64) cubic
    else .ok cubic

/-- `FittedSpline::fittingCubic`: the points added to the cubic spline, with
their velocity. `sequenceLength` is an `unsigned int`, the bound of the loop
`_points.size() - sequenceLength/2` a `size_t`; the loop, whose index starts
at 1 and goes up by one, is given one turn more than its bound. -/
def fittingCubic (sort : List (ℚ × ℚ) → List (ℚ × ℚ)) (_points : List (ℚ × ℚ))
    (sequenceLength : Nat) : Except Fault (List (ℚ × ℚ × ℚ)) :=
  if _points.length < 3 then .error (Fault.logic_error "FittedSpline not enough points")
  else
    let _points := sort _points
    match _points[1]?, _points[0]? with
    | some p1, some p0 =>
      let dYFirst := p1.2 - p0.2
      let dTFirst := p1.1 - p0.1
      let velFirst := dYFirst / dTFirst
      let cubic := [(p0.1, p0.2, velFirst)]
      let bound := usub _points.length (sequenceLength % 2 ^ 32 / 2)
      match cubicLoop _points (sequenceLength % 2 ^ 32) bound (bound + 1) 1 cubic with
      | .error e => .error e
      | .ok cubic =>
        let size := _points.length
        match _points[usub size 1]?, _points[usub size 2]? with
        | some pLast, some pBefore =>
          let dYEnd := pLast.2 - pBefore.2
          let dTEnd := pLast.1 - pBefore.1
          let velEnd := dYEnd / dTEnd
          .ok (cubic ++ [(pLast.1, pLast.2, velEnd)])
        | _, _ => .error Fault.undefined
    | _, _ => .error Fault.undefined

end FittedSpline

namespace FittedSpline

/-- A list of parts is a chain from the index `first` to the index `last`: each
part starts where the one before it ends (the first one at `first`), ends
after it starts, and the last one ends at `last`. -/
def chainFrom : Nat → List (Nat × Nat) → Nat → Prop
  | first, [], last => first = last
  | first, part :: rest, last => part.1 = first ∧ part.1 < part.2 ∧ chainFrom part.2 rest last

end FittedSpline

/-! ## Registry invariant and data for examples -/

namespace Model

variable {κ : Type}

/-- Consistency of the DOF registry: the labelled vector holds exactly the
registered names, a name is mapped to an index if and only if it is the name
registered at that index, and the state vector has one coefficient per name. -/
structure DOFInv (s : Model κ) : Prop where
  labels : s._vectorDOF.labels = s._dofIndexToName
  map : ∀ name i,
    StdMap.find s._dofNameToIndex name = some i ↔ s._dofIndexToName[i]? = some name
  size : s._dofs.size = s._dofIndexToName.length

/-- The names the second loop of `initializeModel` registers, in its order: the
filtered names of the entries of the body name map whose identifier is not 0. -/
def frameNames (l : List (String × Nat)) : List String :=
  (l.filter (fun e => e.2 ≠ 0)).map (fun e => filterFrameName e.1)

/-- Consistency of the frame registry with the list `names` of the registered
frame names: index `i` is mapped to the `i`-th name and to a body identifier,
a name is mapped to an index at which it is registered, and to the index at
which it is registered when the names are pairwise distinct. -/
structure FrameInv (s : Model κ) (names : List String) : Prop where
  size : s._frameIndexToName.length = names.length
  name : ∀ i, StdMap.find s._frameIndexToName i = names[i]?
  id : ∀ i, i < names.length ↔ ∃ id, StdMap.find s._frameIndexToId i = some id
  index : ∀ n i, StdMap.find s._frameNameToIndex n = some i → names[i]? = some n
  distinct : names.Nodup →
    ∀ i n, names[i]? = some n → StdMap.find s._frameNameToIndex n = some i

/-- The state in which the six registrations of a floating joint named `N`
leave the model, when none of the six names was registered before. -/
def sixDOF (s : Model κ) (N : String) : Model κ :=
  { s with
    _vectorDOF := ⟨s._vectorDOF.entries ++ [(N ++ "_x", 0), (N ++ "_y", 0), (N ++ "_z", 0),
      (N ++ "_yaw", 0), (N ++ "_pitch", 0), (N ++ "_roll", 0)]⟩
    _dofNameToIndex :=
      StdMap.assign (StdMap.assign (StdMap.assign (StdMap.assign (StdMap.assign (StdMap.assign
        s._dofNameToIndex
        (N ++ "_x") s._dofIndexToName.length)
        (N ++ "_y") (s._dofIndexToName.length + 1))
        (N ++ "_z") (s._dofIndexToName.length + 2))
        (N ++ "_yaw") (s._dofIndexToName.length + 3))
        (N ++ "_pitch") (s._dofIndexToName.length + 4))
        (N ++ "_roll") (s._dofIndexToName.length + 5)
    _dofIndexToName := s._dofIndexToName ++ [N ++ "_x", N ++ "_y", N ++ "_z",
      N ++ "_yaw", N ++ "_pitch", N ++ "_roll"]
    _dofs := VectorXd.Zero (s._vectorDOF.entries.length + 6) }

end Model

namespace Demo

/-- An empty parameter table. -/
def noData : MatrixXd := ⟨0, 0, fun _ _ => 0⟩

/-- A planar arm: the root body and two bodies `j1_link`, `j2`. -/
def planarArm : RBDLModel Unit :=
  { mBodies := [⟨false⟩, ⟨false⟩, ⟨false⟩]
    mu := [[1], [2], []]
    mBodyNameMap := [("ROOT", 0), ("j1_link", 1), ("j2", 2)]
    GetBodyName := fun i => if i = 1 then "j1_link" else if i = 2 then "j2" else "ROOT"
    GetModelHierarchy := ""
    GetModelDOFOverview := ""
    dof_count := 2
    qdot_size := 2
    gravity := fun _ => 0
    kinematics := () }

/-- The model the constructor builds for the planar arm. -/
def planarArmModel : Model Unit :=
  { _model := planarArm
    _isAutoUpdate := true
    _dofIndexToName := ["j1", "j2"]
    _dofNameToIndex := [("j1", 0), ("j2", 1)]
    _dofs := VectorXd.Zero 2
    _vectorDOF := ⟨[("j1", 0), ("j2", 0)]⟩
    _frameIndexToName := [(0, "j1"), (1, "j2"), (2, "origin")]
    _frameNameToIndex := [("j1", 0), ("j2", 1), ("origin", 2)]
    _frameIndexToId := [(0, 1), (1, 2), (2, 0)]
    _inertiaData := noData
    _inertiaName := []
    _geometryData := noData
    _geometryName := [] }

/-- A robot with a floating base: five virtual bodies 1..5, the body
`base_link` (6) and a leg (7). -/
def floatingRobot : RBDLModel Unit :=
  { mBodies := [⟨false⟩, ⟨true⟩, ⟨true⟩, ⟨true⟩, ⟨true⟩, ⟨true⟩, ⟨false⟩, ⟨false⟩]
    mu := [[1], [2], [3], [4], [5], [6], [7], []]
    mBodyNameMap := [("ROOT", 0), ("base_link", 6), ("leg_link", 7)]
    GetBodyName := fun i => if i = 6 then "base_link" else if i = 7 then "leg_link" else "ROOT"
    GetModelHierarchy := ""
    GetModelDOFOverview := ""
    dof_count := 7
    qdot_size := 7
    gravity := fun _ => 0
    kinematics := () }

/-- A model whose body 1 is virtual and has no child. -/
def danglingVirtual : RBDLModel Unit :=
  { mBodies := [⟨false⟩, ⟨true⟩]
    mu := [[1], []]
    mBodyNameMap := [("ROOT", 0)]
    GetBodyName := fun i => if i = 0 then "ROOT" else ""
    GetModelHierarchy := ""
    GetModelDOFOverview := ""
    dof_count := 1
    qdot_size := 1
    gravity := fun _ => 0
    kinematics := () }

/-- A model whose body 1 is virtual with the single child 2, itself virtual
and without child. -/
def danglingChain : RBDLModel Unit :=
  { mBodies := [⟨false⟩, ⟨true⟩, ⟨true⟩]
    mu := [[1], [2], []]
    mBodyNameMap := [("ROOT", 0)]
    GetBodyName := fun i => if i = 0 then "ROOT" else ""
    GetModelHierarchy := ""
    GetModelDOFOverview := ""
    dof_count := 2
    qdot_size := 2
    gravity := fun _ => 0
    kinematics := () }

/-- A model with one body, named `origin_link`. -/
def originLink : RBDLModel Unit :=
  { mBodies := [⟨false⟩, ⟨false⟩]
    mu := [[1], []]
    mBodyNameMap := [("ROOT", 0), ("origin_link", 1)]
    GetBodyName := fun i => if i = 1 then "origin_link" else "ROOT"
    GetModelHierarchy := ""
    GetModelDOFOverview := ""
    dof_count := 1
    qdot_size := 1
    gravity := fun _ => 0
    kinematics := () }

/-- The floating robot at the start of the first loop of `initializeModel`. -/
def floatingStart : Model Unit :=
  { _model := floatingRobot
    _isAutoUpdate := true
    _dofIndexToName := []
    _dofNameToIndex := []
    _dofs := VectorXd.Zero 0
    _vectorDOF := ⟨[]⟩
    _frameIndexToName := []
    _frameNameToIndex := []
    _frameIndexToId := []
    _inertiaData := noData
    _inertiaName := []
    _geometryData := noData
    _geometryName := [] }

/-- A pendulum: the root body and one body `j1_link`. -/
def pendulum : RBDLModel Unit :=
  { mBodies := [⟨false⟩, ⟨false⟩]
    mu := [[1], []]
    mBodyNameMap := [("ROOT", 0), ("j1_link", 1)]
    GetBodyName := fun i => if i = 1 then "j1_link" else "ROOT"
    GetModelHierarchy := ""
    GetModelDOFOverview := ""
    dof_count := 1
    qdot_size := 1
    gravity := fun _ => 0
    kinematics := () }

/-- The model the constructor builds for the pendulum. -/
def pendulumModel : Model Unit :=
  { _model := pendulum
    _isAutoUpdate := true
    _dofIndexToName := ["j1"]
    _dofNameToIndex := [("j1", 0)]
    _dofs := VectorXd.Zero 1
    _vectorDOF := ⟨[("j1", 0)]⟩
    _frameIndexToName := [(0, "j1"), (1, "origin")]
    _frameNameToIndex := [("j1", 0), ("origin", 1)]
    _frameIndexToId := [(0, 1), (1, 0)]
    _inertiaData := noData
    _inertiaName := []
    _geometryData := noData
    _geometryName := [] }

/-- An exact solver for the systems of the examples: those with one unknown,
and those with two unknowns whose matrix has a zero in its lower right corner. -/
def demoSolve {k : Nat} (A : Mat k k) (b : Vec k) : Vec k :=
  fun i =>
    if h1 : k = 1 then b ⟨0, by omega⟩ / A ⟨0, by omega⟩ ⟨0, by omega⟩
    else if h2 : k = 2 then
      if i.val = 0 then b ⟨1, by omega⟩ / A ⟨1, by omega⟩ ⟨0, by omega⟩
      else (b ⟨0, by omega⟩ - A ⟨0, by omega⟩ ⟨0, by omega⟩ *
        (b ⟨1, by omega⟩ / A ⟨1, by omega⟩ ⟨0, by omega⟩)) / A ⟨0, by omega⟩ ⟨1, by omega⟩
    else b i

/-- The pendulum with a cache that counts the recomputations of the cached
transforms. -/
def countedPendulum : RBDLModel Nat :=
  { mBodies := [⟨false⟩, ⟨false⟩]
    mu := [[1], []]
    mBodyNameMap := [("ROOT", 0), ("j1_link", 1)]
    GetBodyName := fun i => if i = 1 then "j1_link" else "ROOT"
    GetModelHierarchy := ""
    GetModelDOFOverview := ""
    dof_count := 1
    qdot_size := 1
    gravity := fun _ => 0
    kinematics := 0 }

/-- The model of the counted pendulum after `setAutoUpdate(false)`. -/
def frozenPendulumModel : Model Nat :=
  { _model := countedPendulum
    _isAutoUpdate := false
    _dofIndexToName := ["j1"]
    _dofNameToIndex := [("j1", 0)]
    _dofs := VectorXd.Zero 1
    _vectorDOF := ⟨[("j1", 0)]⟩
    _frameIndexToName := [(0, "j1"), (1, "origin")]
    _frameNameToIndex := [("j1", 0), ("origin", 1)]
    _frameIndexToId := [(0, 1), (1, 0)]
    _inertiaData := noData
    _inertiaName := []
    _geometryData := noData
    _geometryName := [] }

/-- The count a routine leaves in the cache: one more when it is called with
the update flag on. -/
def recount (m : RBDLModel Nat) (update : Bool) : Nat :=
  if update then m.kinematics + 1 else m.kinematics

/-- Library routines that count the recomputations of the cached transforms in
the cache of the model; a routine without update flag recomputes. -/
def countingApi : RBDL Nat :=
  { UpdateKinematicsCustom := fun m _ _ _ => m.kinematics + 1
    CalcBodyToBaseCoordinates := fun m _ _ p u => (p, recount m u)
    CalcBaseToBodyCoordinates := fun m _ _ p u => (p, recount m u)
    CalcBodyWorldOrientation := fun m _ _ u => (1, recount m u)
    InverseDynamics := fun m _ _ _ _ => (fun _ => 1, m.kinematics + 1)
    CompositeRigidBodyAlgorithm := fun m _ _ u => (1, recount m u)
    CalcContactSystemVariables := fun m _ _ _ _ =>
      (⟨1, fun _ => 1, fun _ _ => 1, fun _ => 0⟩, m.kinematics + 1)
    CalcContactJacobian := fun m _ _ _ u => (fun _ _ => 1, recount m u)
    partialPivLu_solve := demoSolve
    colPivHouseholderQr_solve := demoSolve
    householderQr_solve := demoSolve
    llt_solve := demoSolve
    fullPivLu_solve := demoSolve
    fullPivHouseholderQr_solve := demoSolve
    colPivHouseholderQr_isInvertible := fun _ => true
    colPivHouseholderQr_inverse := fun A => A
    ForwardDynamics := fun m _ _ _ => (fun _ => 0, m.kinematics + 1)
    ForwardDynamicsContactsDirect := fun m _ _ _ cs => ((fun _ => 0, cs), m.kinematics + 1)
    ComputeContactImpulsesDirect := fun m _ _ cs _ => ((fun _ => 0, cs), m.kinematics + 1)
    RBDLClosedLoopInverseDynamics := fun m _ _ _ _ f _ =>
      ((.ok (fun _ => 0), f), m.kinematics + 1)
    RBDLContactLCP := fun m _ _ _ _ cs _ => ((.ok (), cs), m.kinematics + 1)
    CalcPointJacobian6D := fun m _ _ _ G u => (G, recount m u)
    CalcPointVelocity6D := fun m _ _ _ _ u => (0, recount m u)
    CalcPointAcceleration6D := fun m _ _ _ _ _ u => (0, recount m u)
    CalcCenterOfMass := fun m _ _ u => ((1, 0), recount m u)
    atan2 := fun y _ => y }

/-- A model underneath for the examples of the foot state machine: the
generalized state is the pose of each foot, laying a foot flat zeroes its roll
and pitch, pinning a foot sets its planar position and yaw. -/
def feet : FloatingBase (SupportFoot → FootPose) :=
  { footPose := fun q foot => q foot
    layFlat := fun q foot => fun f => if f = foot then { q f with roll := 0, pitch := 0 } else q f
    pin := fun q foot x y yaw => fun f =>
      if f = foot then { q f with x := x, y := y, yaw := yaw } else q f }

/-- A robot standing on its left foot at the origin, the right foot at
`(1, 2)` with yaw 3, roll 4 and pitch 5. -/
def standing : SigmabanFloatingModel (SupportFoot → FootPose) :=
  { _dofs := fun f =>
      if f = SupportFoot.LeftSupportFoot then ⟨0, 0, 0, 0, 0⟩ else ⟨1, 2, 3, 4, 5⟩
    _supportFoot := SupportFoot.LeftSupportFoot
    _statePosX := 0
    _statePosY := 0
    _stateRotYaw := 0 }

/-- Library routines for the examples: body 1 is turned a quarter turn about
the vertical axis, the mass matrix is twice the identity, the bias is 1, the
contact Jacobian has all its entries equal to 1 and `gamma` is zero. -/
def demoApi : RBDL Unit :=
  { UpdateKinematicsCustom := fun _ _ _ _ => ()
    CalcBodyToBaseCoordinates := fun _ _ _ p _ => (p, ())
    CalcBaseToBodyCoordinates := fun _ _ _ p _ => (p, ())
    CalcBodyWorldOrientation := fun _ _ id _ =>
      (if id = 1 then !![0, -1, 0; 1, 0, 0; 0, 0, 1] else 1, ())
    InverseDynamics := fun _ _ _ _ _ => (fun _ => 1, ())
    CompositeRigidBodyAlgorithm := fun _ _ _ _ => (fun i j => if i = j then 2 else 0, ())
    CalcContactSystemVariables := fun _ _ _ _ _ =>
      (⟨fun i j => if i = j then 2 else 0, fun _ => 1, fun _ _ => 1, fun _ => 0⟩, ())
    CalcContactJacobian := fun _ _ _ _ _ => (fun _ _ => 1, ())
    partialPivLu_solve := demoSolve
    colPivHouseholderQr_solve := demoSolve
    householderQr_solve := demoSolve
    llt_solve := demoSolve
    fullPivLu_solve := demoSolve
    fullPivHouseholderQr_solve := demoSolve
    colPivHouseholderQr_isInvertible := fun _ => true
    colPivHouseholderQr_inverse := fun H => H
    ForwardDynamics := fun _ _ _ _ => (fun _ => 0, ())
    ForwardDynamicsContactsDirect := fun _ _ _ _ cs => ((fun _ => 0, cs), ())
    ComputeContactImpulsesDirect := fun _ _ _ cs v => ((v, cs), ())
    RBDLClosedLoopInverseDynamics := fun _ _ _ _ _ f _ => ((.ok (fun _ => 0), f), ())
    RBDLContactLCP := fun _ _ _ _ _ cs _ => ((.ok (), cs), ())
    CalcPointJacobian6D := fun _ _ _ _ G _ => (G, ())
    CalcPointVelocity6D := fun _ _ _ _ _ _ => (fun _ => 0, ())
    CalcPointAcceleration6D := fun _ _ _ _ _ _ _ => (fun _ => 0, ())
    CalcCenterOfMass := fun _ _ _ _ => ((1, fun _ => 0), ())
    atan2 := fun y _ => y }

/-- The mass matrix the example routines give for the pendulum. -/
def mass : Mat pendulumModel._model.dof_count pendulumModel._model.dof_count :=
  fun i j => if i = j then 2 else 0

/-- The bias torque the example routines give for the pendulum. -/
def bias : Vec pendulumModel._model.dof_count := fun _ => 1

/-- Library routines for the examples whose invertibility test always fails. -/
def singularApi : RBDL Unit :=
  { demoApi with colPivHouseholderQr_isInvertible := fun _ => false }

/-- A set of one constraint bound to the pendulum, holding a contact force 5
and a target velocity 7. -/
def contact : ConstraintSet pendulumModel._model.dof_count 1 :=
  { H := 0, C := 0, G := 0, gamma := 0, A := 0, b := 0, x := 0,
    force := fun _ => 5, impulse := 0, v_plus := fun _ => 7 }

end Demo

/-! # Theorems -/

/-! ## std::map and strings -/

namespace StdMap

variable {κ ν : Type} [DecidableEq κ]

/-- Lookup after an assignment. -/
theorem find_assign (m : StdMap κ ν) (k : κ) (v : ν) (k' : κ) :
    find (assign m k v) k' = if k = k' then some v else find m k' := by
  induction m with
  | nil => simp [assign, find]
  | cons e rest ih =>
    obtain ⟨k0, v0⟩ := e
    by_cases h0 : k0 = k
    · subst h0
      by_cases h1 : k0 = k' <;> simp [assign, find, h1]
    · by_cases h1 : k0 = k'
      · subst h1
        have : ¬ k = k0 := fun h => h0 h.symm
        simp [assign, find, h0, this]
      · simp [assign, find, h0, h1, ih]

end StdMap

/-- Appending to the same string is injective. -/
theorem string_append_inj (N a b : String) : N ++ a = N ++ b ↔ a = b := by
  constructor
  · intro h
    have h1 := congrArg String.data h
    simp only [String.data_append] at h1
    exact String.ext (List.append_cancel_left h1)
  · intro h
    rw [h]

/-- A successful bind has a successful first step. -/
theorem bind_ok {ε α β : Type} {x : Except ε α} {f : α → Except ε β} {b : β}
    (h : x >>= f = .ok b) : ∃ a, x = .ok a ∧ f a = .ok b := by
  cases x with
  | error e => cases h
  | ok a => exact ⟨a, rfl, h⟩

namespace Model

variable {κ : Type}

/-! ## The DOF registry -/

/-- What a successful `addDOF` does. -/
theorem addDOF_ok {s s' : Model κ} {name : String} (h : addDOF s name = .ok s') :
    name ∉ s._vectorDOF.labels ∧
    s'._vectorDOF = ⟨s._vectorDOF.entries ++ [(name, 0)]⟩ ∧
    s'._dofNameToIndex = StdMap.assign s._dofNameToIndex name s._dofIndexToName.length ∧
    s'._dofIndexToName = s._dofIndexToName ++ [name] ∧
    s'._dofs = VectorXd.Zero (s._vectorDOF.size + 1) ∧
    s'._model = s._model := by
  unfold addDOF VectorLabel.append at h
  by_cases hx : s._vectorDOF.exist name = true
  · simp [hx] at h
  · simp [hx] at h
    subst h
    simp [VectorLabel.exist] at hx
    simp [hx, VectorLabel.size]

/-- The registration `addDOF` keeps the registry consistent. -/
theorem addDOF_inv {s s' : Model κ} {name : String} (hs : DOFInv s)
    (h : addDOF s name = .ok s') : DOFInv s' := by
  obtain ⟨hfresh, hv, hm, hl, hd, _⟩ := addDOF_ok h
  have hnot : name ∉ s._dofIndexToName := hs.labels ▸ hfresh
  refine ⟨?_, ?_, ?_⟩
  · rw [hv, hl, ← hs.labels]; simp [VectorLabel.labels]
  · intro n i
    rw [hm, hl, StdMap.find_assign]
    by_cases hn : name = n
    · subst hn
      simp only [if_true]
      constructor
      · intro hi
        cases hi
        simp
      · intro hi
        rcases Nat.lt_trichotomy i s._dofIndexToName.length with hlt | heq | hgt
        · rw [List.getElem?_append_left hlt] at hi
          exact absurd (List.getElem?_mem hi) hnot
        · rw [heq]
        · have hlen : (s._dofIndexToName ++ [name]).length ≤ i := by simp; omega
          rw [List.getElem?_eq_none hlen] at hi
          cases hi
    · simp only [hn, if_false]
      rw [hs.map]
      rcases Nat.lt_trichotomy i s._dofIndexToName.length with hlt | heq | hgt
      · rw [List.getElem?_append_left hlt]
      · subst heq
        simp [hn]
      · have hlen : (s._dofIndexToName ++ [name]).length ≤ i := by simp; omega
        rw [List.getElem?_eq_none hlen, List.getElem?_eq_none (Nat.le_of_lt hgt)]
  · rw [hd, hl]
    simp [VectorXd.Zero, VectorLabel.size]
    have := congrArg List.length hs.labels
    simpa [VectorLabel.labels] using this

/-- A property kept by `addDOF` is kept by the six registrations of a floating
joint. -/
theorem addFloatingDOF_preserves (P : Model κ → Prop)
    (hP : ∀ s name s', P s → addDOF s name = .ok s' → P s')
    {s s' : Model κ} {filteredName : String} (hs : P s)
    (h : addFloatingDOF s filteredName = .ok s') : P s' := by
  unfold addFloatingDOF at h
  obtain ⟨s1, h1, h⟩ := bind_ok h
  obtain ⟨s2, h2, h⟩ := bind_ok h
  obtain ⟨s3, h3, h⟩ := bind_ok h
  obtain ⟨s4, h4, h⟩ := bind_ok h
  obtain ⟨s5, h5, h⟩ := bind_ok h
  exact hP _ _ _ (hP _ _ _ (hP _ _ _ (hP _ _ _ (hP _ _ _ (hP _ _ _ hs h1) h2) h3) h4) h5) h

/-- A property kept by `addDOF` is kept by the first loop of `initializeModel`. -/
theorem dofLoop_preserves (P : Model κ → Prop)
    (hP : ∀ s name s', P s → addDOF s name = .ok s' → P s') :
    ∀ (fuel i : Nat) (s s' : Model κ), P s → dofLoop fuel i s = .ok s' → P s' := by
  intro fuel
  induction fuel with
  | zero =>
    intro i s s' hs h
    simp only [dofLoop] at h
    cases h
    exact hs
  | succ fuel ih =>
    intro i s s' hs h
    rw [dofLoop] at h
    split at h
    · split at h
      · cases h
      · dsimp only at h
        split at h
        · split at h
          · cases h
          · rename_i s1 h1
            exact ih _ _ _ (addFloatingDOF_preserves P hP hs h1) h
        · split at h
          · cases h
          · split at h
            · cases h
            · rename_i s1 h1
              exact ih _ _ _ (hP _ _ _ hs h1) h
    · cases h
      exact hs

/-- The registration `addDOF` does not touch the library model. -/
theorem addDOF_model {s s' : Model κ} {name : String} (h : addDOF s name = .ok s') :
    s'._model = s._model :=
  (addDOF_ok h).2.2.2.2.2

/-- Turns of the first loop of `initializeModel` beyond `mBodies.size() - i` are
never used: the loop gives the same result with any larger bound. -/
theorem dofLoop_fuel : ∀ (fuel i : Nat) (s : Model κ),
    s._model.mBodies.length - i ≤ fuel →
      dofLoop fuel i s = dofLoop (s._model.mBodies.length - i) i s := by
  intro fuel
  induction fuel using Nat.strong_induction_on with
  | _ fuel ih =>
    intro i s hle
    by_cases hi : i < s._model.mBodies.length
    · obtain ⟨f, rfl⟩ : ∃ f, fuel = f + 1 := ⟨fuel - 1, by omega⟩
      obtain ⟨k, hk⟩ : ∃ k, s._model.mBodies.length - i = k + 1 :=
        ⟨s._model.mBodies.length - i - 1, by omega⟩
      rw [hk, dofLoop, dofLoop]
      simp only [hi, if_true]
      cases hg : getRBDLBodyName s._model s._model.mBodies.length i 0 with
      | none => rfl
      | some r =>
        obtain ⟨name, depth⟩ := r
        dsimp only
        by_cases h5 : depth = 5
        · simp only [h5, if_true]
          cases ha : addFloatingDOF s (filterJointName name) with
          | error e => rfl
          | ok s1 =>
            have hm : s1._model = s._model :=
              addFloatingDOF_preserves (fun t => t._model = s._model)
                (fun _ _ _ ht hadd => (addDOF_model hadd).trans ht) rfl ha
            dsimp only
            rw [ih f (by omega) (i + 5 + 1) s1 (by rw [hm]; omega),
              ih k (by omega) (i + 5 + 1) s1 (by rw [hm]; omega)]
        · simp only [h5, if_false]
          by_cases h0 : depth > 0
          · simp only [h0, if_true]
          · simp only [h0, if_false]
            cases ha : addDOF s (filterJointName name) with
            | error e => rfl
            | ok s1 =>
              have hm : s1._model = s._model := addDOF_model ha
              dsimp only
              rw [ih f (by omega) (i + 1) s1 (by rw [hm]; omega),
                ih k (by omega) (i + 1) s1 (by rw [hm]; omega)]
    · have h0 : s._model.mBodies.length - i = 0 := by omega
      rw [h0]
      cases fuel with
      | zero => rfl
      | succ f => rw [dofLoop]; simp [hi, dofLoop]

/-- The second loop of `initializeModel` leaves the DOF registry alone. -/
theorem frameLoop_dof (l : List (String × Nat)) :
    ∀ (index : Nat) (s : Model κ),
      (frameLoop l index s).1._dofIndexToName = s._dofIndexToName ∧
      (frameLoop l index s).1._dofNameToIndex = s._dofNameToIndex ∧
      (frameLoop l index s).1._dofs = s._dofs ∧
      (frameLoop l index s).1._vectorDOF = s._vectorDOF := by
  induction l with
  | nil => intro index s; simp [frameLoop]
  | cons e rest ih =>
    intro index s
    obtain ⟨name, id⟩ := e
    by_cases h0 : id = 0
    · simp only [frameLoop, h0, if_true]
      exact ih index s
    · simp only [frameLoop, h0, if_false]
      exact ih _ _

/-- The registry of a constructed model is consistent. -/
theorem create_inv {model : RBDLModel κ} {iD gD : MatrixXd}
    {iN gN : StdMap String Nat} {s : Model κ}
    (h : create model iD iN gD gN = .ok s) : DOFInv s := by
  unfold create initializeModel at h
  simp only at h
  split at h
  · cases h
  · rename_i s1 h1
    have inv1 : DOFInv s1 := by
      refine dofLoop_preserves DOFInv (fun _ _ _ => addDOF_inv) _ _ _ _ ?_ h1
      exact ⟨rfl, by intro n i; simp [StdMap.find], rfl⟩
    obtain ⟨e1, e2, e3, e4⟩ := frameLoop_dof s1._model.mBodyNameMap 0 s1
    cases h
    exact ⟨by simpa [e1, e4] using inv1.labels, by simpa [e1, e2] using inv1.map,
      by simpa [e1, e3] using inv1.size⟩

/-- The call `getDOFIndex` read on the map. -/
theorem getDOFIndex_iff (s : Model κ) (n : String) (i : Nat) :
    getDOFIndex s n = .ok i ↔ StdMap.find s._dofNameToIndex n = some i := by
  unfold getDOFIndex StdMap.atKey
  cases hf : StdMap.find s._dofNameToIndex n with
  | none => simp
  | some j => simp

/-- The call `getDOFName` read on the vector of names. -/
theorem getDOFName_iff (s : Model κ) (n : String) (i : Nat) :
    getDOFName s i = .ok n ↔ s._dofIndexToName[i]? = some n := by
  unfold getDOFName
  by_cases hi : i ≥ s._dofIndexToName.length
  · simp [hi, List.getElem?_eq_none hi]
  · have hlt : i < s._dofIndexToName.length := Nat.lt_of_not_le hi
    simp [hi, List.getElem?_eq_getElem hlt]

/-- C1. DOF registry bijection: in a model built by the constructor, every index
below the number of registered DOFs has a name whose index is that index, every
name that has an index is the name registered at that index, and the names
that have an index are exactly the registered ones. -/
theorem dof_registry_bijection (model : RBDLModel κ) (inertiaData geometryData : MatrixXd)
    (inertiaName geometryName : StdMap String Nat) (s : Model κ)
    (h : create model inertiaData inertiaName geometryData geometryName = .ok s) :
    (∀ i, i < s._dofIndexToName.length →
      ∃ n, getDOFName s i = .ok n ∧ getDOFIndex s n = .ok i) ∧
    (∀ n i, getDOFIndex s n = .ok i → getDOFName s i = .ok n) ∧
    (∀ n, n ∈ s._dofIndexToName ↔ ∃ i, getDOFIndex s n = .ok i) := by
  have inv := create_inv h
  refine ⟨?_, ?_, ?_⟩
  · intro i hi
    refine ⟨s._dofIndexToName[i], ?_, ?_⟩
    · rw [getDOFName_iff]; exact List.getElem?_eq_getElem hi
    · rw [getDOFIndex_iff, inv.map]; exact List.getElem?_eq_getElem hi
  · intro n i hn
    rw [getDOFName_iff, ← inv.map, ← getDOFIndex_iff]
    exact hn
  · intro n
    constructor
    · intro hn
      obtain ⟨i, hi, hin⟩ := List.getElem_of_mem hn
      refine ⟨i, ?_⟩
      rw [getDOFIndex_iff, inv.map, List.getElem?_eq_getElem hi, hin]
    · rintro ⟨i, hi⟩
      rw [getDOFIndex_iff, inv.map] at hi
      exact List.getElem?_mem hi

/-- Witness of C1: the constructor builds the planar arm model, in which the
name found for `j2` is the name of its index. -/
theorem dof_registry_bijection_witness :
    create Demo.planarArm Demo.noData [] Demo.noData [] = .ok Demo.planarArmModel ∧
    getDOFName Demo.planarArmModel 1 = .ok "j2" :=
  ⟨rfl, (dof_registry_bijection Demo.planarArm Demo.noData Demo.noData [] []
    Demo.planarArmModel rfl).2.1 "j2" 1 rfl⟩

/-! ## The floating base -/

/-- The six registrations of a floating joint succeed when the six names are
new. -/
theorem addFloatingDOF_fresh (s : Model κ) (N : String)
    (hfresh : ∀ n, n ∈ [N ++ "_x", N ++ "_y", N ++ "_z", N ++ "_yaw", N ++ "_pitch",
      N ++ "_roll"] → n ∉ s._vectorDOF.labels) :
    addFloatingDOF s N = .ok (sixDOF s N) := by
  have f1 := hfresh (N ++ "_x") (by simp)
  have f2 := hfresh (N ++ "_y") (by simp)
  have f3 := hfresh (N ++ "_z") (by simp)
  have f4 := hfresh (N ++ "_yaw") (by simp)
  have f5 := hfresh (N ++ "_pitch") (by simp)
  have f6 := hfresh (N ++ "_roll") (by simp)
  simp only [VectorLabel.labels] at f1 f2 f3 f4 f5 f6
  simp [addFloatingDOF, bind, Except.bind, addDOF, VectorLabel.append, VectorLabel.exist,
    VectorLabel.labels, VectorLabel.size, sixDOF, string_append_inj, f1, f2, f3, f4, f5, f6,
    Nat.add_assoc]

section chain

variable (m : RBDLModel κ) (c : Nat → Nat)

/-- Two bodies of a chain that coincide have coinciding successors. -/
theorem chain_shift
    (hvirt : ∀ j, j < 5 → m.mBodies[c j]? = some ⟨true⟩ ∧ m.mu[c j]? = some [c (j + 1)]) :
    ∀ t j k, j + t ≤ 5 → k + t ≤ 5 → c j = c k → c (j + t) = c (k + t) := by
  intro t
  induction t with
  | zero => intro j k _ _ h; simpa using h
  | succ t ih =>
    intro j k hj hk h
    have e := ih j k (by omega) (by omega) h
    have h1 := (hvirt (j + t) (by omega)).2
    have h2 := (hvirt (k + t) (by omega)).2
    rw [e, h2] at h1
    simpa [Nat.add_assoc] using (h1.symm)

/-- The six bodies of a chain are pairwise distinct. -/
theorem chain_injective
    (hvirt : ∀ j, j < 5 → m.mBodies[c j]? = some ⟨true⟩ ∧ m.mu[c j]? = some [c (j + 1)])
    (hlast : m.mBodies[c 5]? = some ⟨false⟩) :
    ∀ j k, j < k → k ≤ 5 → c j ≠ c k := by
  intro j k hjk hk h
  have e := chain_shift m c hvirt (5 - k) j k (by omega) (by omega) h
  have hk5 : k + (5 - k) = 5 := by omega
  rw [hk5] at e
  have h1 := (hvirt (j + (5 - k)) (by omega)).1
  rw [e, hlast] at h1
  simp at h1

/-- A model with a chain has at least six bodies, so that the recursion bound
of `getRBDLBodyName` is enough to walk the chain. -/
theorem chain_length
    (hvirt : ∀ j, j < 5 → m.mBodies[c j]? = some ⟨true⟩ ∧ m.mu[c j]? = some [c (j + 1)])
    (hlast : m.mBodies[c 5]? = some ⟨false⟩) :
    6 ≤ m.mBodies.length := by
  have hlt : ∀ j, j ≤ 5 → c j < m.mBodies.length := by
    intro j hj
    rcases Nat.lt_or_ge j 5 with h | h
    · exact (List.getElem?_eq_some_iff.1 (hvirt j h).1).1
    · have : j = 5 := by omega
      subst this
      exact (List.getElem?_eq_some_iff.1 hlast).1
  let f : Fin 6 → Fin m.mBodies.length := fun j => ⟨c j.val, hlt j.val (by omega)⟩
  have hf : Function.Injective f := by
    intro a b hab
    have hab2 : c a.val = c b.val := congrArg Fin.val hab
    rcases Nat.lt_trichotomy a.val b.val with h | h | h
    · exact absurd hab2 (chain_injective m c hvirt hlast _ _ h (by omega))
    · exact Fin.ext h
    · exact absurd hab2.symm (chain_injective m c hvirt hlast _ _ h (by omega))
  simpa using Fintype.card_le_of_injective f hf

/-- On a chain, `getRBDLBodyName` returns the name of the last body and the
depth 5. -/
theorem getRBDLBodyName_chain
    (hvirt : ∀ j, j < 5 → m.mBodies[c j]? = some ⟨true⟩ ∧ m.mu[c j]? = some [c (j + 1)])
    (hlast : m.mBodies[c 5]? = some ⟨false⟩) (fuel : Nat) (hfuel : 6 ≤ fuel) :
    getRBDLBodyName m fuel (c 0) 0 = some (m.GetBodyName (c 5), 5) := by
  obtain ⟨f, rfl⟩ : ∃ f, fuel = f + 6 := ⟨fuel - 6, by omega⟩
  have h0 := hvirt 0 (by omega)
  have h1 := hvirt 1 (by omega)
  have h2 := hvirt 2 (by omega)
  have h3 := hvirt 3 (by omega)
  have h4 := hvirt 4 (by omega)
  simp only [Nat.zero_add, Nat.reduceAdd] at h0 h1 h2 h3 h4
  simp [getRBDLBodyName, h0.1, h0.2, h1.1, h1.2, h2.1, h2.2, h3.1, h3.2, h4.1, h4.2, hlast]

end chain

/-- C2. Floating-base expansion: when the walk of `initializeModel` is at a body
`i` that heads a chain of five virtual single-child bodies `c 0 = i, …, c 4`
ending at a body `c 5` that is not virtual and whose filtered name is `N`, and
the six names `N_x … N_roll` are not registered yet, the six registrations
succeed, the registered names become the former ones followed by `N_x, N_y, N_z,
N_yaw, N_pitch, N_roll`, which get the consecutive indices `k … k+5` with `k` the
number of DOFs registered before, and the walk goes on at body index `i + 6`
(whatever fuel is left beyond the `mBodies.size() - i` turns that are enough). -/
theorem floating_base_expansion (s : Model κ) (i : Nat) (c : Nat → Nat) (N : String)
    (hi : i < s._model.mBodies.length) (hc : c 0 = i)
    (hvirt : ∀ j, j < 5 →
      s._model.mBodies[c j]? = some ⟨true⟩ ∧ s._model.mu[c j]? = some [c (j + 1)])
    (hlast : s._model.mBodies[c 5]? = some ⟨false⟩)
    (hname : filterJointName (s._model.GetBodyName (c 5)) = N)
    (hlabels : s._vectorDOF.labels = s._dofIndexToName)
    (hfresh : ∀ n, n ∈ [N ++ "_x", N ++ "_y", N ++ "_z", N ++ "_yaw", N ++ "_pitch",
      N ++ "_roll"] → n ∉ s._dofIndexToName) :
    ∃ s6, addFloatingDOF s N = .ok s6 ∧
      s6._dofIndexToName = s._dofIndexToName ++
        [N ++ "_x", N ++ "_y", N ++ "_z", N ++ "_yaw", N ++ "_pitch", N ++ "_roll"] ∧
      getDOFIndex s6 (N ++ "_x") = .ok s._dofIndexToName.length ∧
      getDOFIndex s6 (N ++ "_y") = .ok (s._dofIndexToName.length + 1) ∧
      getDOFIndex s6 (N ++ "_z") = .ok (s._dofIndexToName.length + 2) ∧
      getDOFIndex s6 (N ++ "_yaw") = .ok (s._dofIndexToName.length + 3) ∧
      getDOFIndex s6 (N ++ "_pitch") = .ok (s._dofIndexToName.length + 4) ∧
      getDOFIndex s6 (N ++ "_roll") = .ok (s._dofIndexToName.length + 5) ∧
      ∀ extra, dofLoop (s._model.mBodies.length - i + extra) i s =
        dofLoop (s._model.mBodies.length - i + extra - 1) (i + 6) s6 := by
  have hadd : addFloatingDOF s N = .ok (sixDOF s N) :=
    addFloatingDOF_fresh s N (by rw [hlabels]; exact hfresh)
  refine ⟨sixDOF s N, hadd, rfl, ?_, ?_, ?_, ?_, ?_, ?_, ?_⟩
  · simp [getDOFIndex_iff, sixDOF, StdMap.find_assign, string_append_inj]
  · simp [getDOFIndex_iff, sixDOF, StdMap.find_assign, string_append_inj]
  · simp [getDOFIndex_iff, sixDOF, StdMap.find_assign, string_append_inj]
  · simp [getDOFIndex_iff, sixDOF, StdMap.find_assign, string_append_inj]
  · simp [getDOFIndex_iff, sixDOF, StdMap.find_assign, string_append_inj]
  · simp [getDOFIndex_iff, sixDOF, StdMap.find_assign, string_append_inj]
  · intro extra
    obtain ⟨f, hf⟩ : ∃ f, s._model.mBodies.length - i + extra = f + 1 :=
      ⟨s._model.mBodies.length - i + extra - 1, by omega⟩
    have hname2 := getRBDLBodyName_chain s._model c hvirt hlast s._model.mBodies.length
      (chain_length s._model c hvirt hlast)
    rw [hc] at hname2
    rw [hf, dofLoop]
    simp [hi, hname2, hname, hadd]

/-- Witness of C2: the floating robot, whose bodies 1 to 5 are virtual and whose
body 6 is `base_link`; from the empty registry the six DOFs `base_x … base_roll`
get the indices 0 to 5 and the walk goes on at body 7. -/
theorem floating_base_expansion_witness :
    ∃ s6, addFloatingDOF Demo.floatingStart "base" = .ok s6 ∧
      s6._dofIndexToName =
        ["base_x", "base_y", "base_z", "base_yaw", "base_pitch", "base_roll"] ∧
      getDOFIndex s6 "base_x" = .ok 0 ∧
      getDOFIndex s6 "base_roll" = .ok 5 ∧
      dofLoop 7 1 Demo.floatingStart = dofLoop 6 7 s6 := by
  obtain ⟨s6, h1, h2, h3, _, _, _, _, h8, h9⟩ :=
    floating_base_expansion Demo.floatingStart 1 (fun j => j + 1) "base"
      (by decide) rfl (by decide) (by decide) (by decide) rfl
      (by intro n _ h; cases h)
  exact ⟨s6, h1, h2, h3, h8, h9 0⟩

/-! ## The generalized state -/

/-- C3. Write and read of the generalized state by name: in a model built by
the constructor, for every registered name `n` (one `getDOFIndex` finds) and
every value `v`, `setDOF(n, v)` succeeds and `getDOF(n)` then returns `v`; for a
name that is not registered, `getDOF` and `setDOF` fail with a logic error and
`setDOF` leaves the model, hence its state vector, unchanged. -/
theorem setDOF_getDOF_by_name (model : RBDLModel κ) (inertiaData geometryData : MatrixXd)
    (inertiaName geometryName : StdMap String Nat) (s : Model κ)
    (h : create model inertiaData inertiaName geometryData geometryName = .ok s) :
    (∀ n i v, getDOFIndex s n = .ok i →
      (setDOF s n v).1 = .ok () ∧ getDOF (setDOF s n v).2 n = .ok v) ∧
    (∀ n v, (∀ i, getDOFIndex s n ≠ .ok i) →
      getDOF s n = .error (Fault.logic_error ("Model unknown getDOF(): " ++ n)) ∧
      (setDOF s n v).1 = .error (Fault.logic_error ("Model unknown setDOF(): " ++ n)) ∧
      (setDOF s n v).2 = s) := by
  have inv := create_inv h
  constructor
  · intro n i v hn
    have hf := (getDOFIndex_iff s n i).1 hn
    have hlt : i < s._dofs.size := by
      rw [inv.size]
      have := (inv.map n i).1 hf
      exact (List.getElem?_eq_some_iff.1 this).1
    unfold getDOFIndex at hn
    simp [setDOF, getDOF, readDOF, hn, hlt, VectorXd.set]
  · intro n v hn
    have hnone : StdMap.atKey s._dofNameToIndex n = .error Fault.out_of_range := by
      unfold getDOFIndex StdMap.atKey at *
      cases hf : StdMap.find s._dofNameToIndex n with
      | none => rfl
      | some j => exact absurd (by simp [hf]) (hn j)
    simp [setDOF, getDOF, hnone]

/-- Witness of C3: on the 2-DOF planar arm with DOF names `j1`, `j2`,
`setDOF("j1", 0.5)` then `getDOF("j1")` gives `0.5`, and `getDOF("unknown")`
fails. -/
theorem setDOF_getDOF_by_name_witness :
    getDOF (setDOF Demo.planarArmModel "j1" (1 / 2)).2 "j1" = .ok (1 / 2) ∧
    getDOF Demo.planarArmModel "unknown"
      = .error (Fault.logic_error ("Model unknown getDOF(): " ++ "unknown")) :=
  ⟨((setDOF_getDOF_by_name Demo.planarArm Demo.noData Demo.noData [] []
      Demo.planarArmModel rfl).1 "j1" 0 (1 / 2) rfl).2,
   ((setDOF_getDOF_by_name Demo.planarArm Demo.noData Demo.noData [] []
      Demo.planarArmModel rfl).2 "unknown" 0 (by intro i h; cases h)).1⟩

end Model

/-! ## Kinematic queries -/

namespace Model

variable {κ : Type}

/-- C4. Identity case of `position`: for every model state (whatever its
generalized state and auto-update flag), every frame index `f` and every point
`p`, `position(f, f, p)` returns `p` and leaves the model as it was; the overload
that takes frame names does the same for every registered frame name. -/
theorem position_same_frame (api : RBDL κ) (s : Model κ) (p : Vec 3) :
    (∀ f, position api s f f p = .ok (p, s)) ∧
    (∀ name f, getFrameIndex s name = .ok f → positionByName api s name name p = .ok (p, s)) := by
  constructor
  · intro f
    simp [position]
  · intro name f hf
    simp [positionByName, hf, position]

/-- Witness of C4: in the pendulum model the point (1, 2, 3) of the frame `j1`
has the coordinates (1, 2, 3) in the frame `j1`. -/
theorem position_same_frame_witness :
    positionByName Demo.demoApi Demo.pendulumModel "j1" "j1" ![1, 2, 3]
      = .ok (![1, 2, 3], Demo.pendulumModel) :=
  (position_same_frame Demo.demoApi Demo.pendulumModel ![1, 2, 3]).2 "j1" 0 rfl

/-- C5. Orientation antisymmetry: for two registered frame indices `a`, `b` (with
body identifiers `ida`, `idb`) and a model state in which a world-orientation
query does not change what the next one returns, `orientation(a, b)` and
`orientation(b, a)` both return, `orientation(a, b)` is the world orientation of
`a` multiplied by the transpose of the world orientation of `b`, and it is the
transpose of `orientation(b, a)`. -/
theorem orientation_antisymmetry (api : RBDL κ) (s : Model κ) (a b ida idb : Nat)
    (ha : StdMap.atKey s._frameIndexToId a = .ok ida)
    (hb : StdMap.atKey s._frameIndexToId b = .ok idb)
    (hstable : ∀ i j,
      (api.CalcBodyWorldOrientation
        (withKinematics s
          (api.CalcBodyWorldOrientation s._model s._dofs j s._isAutoUpdate).2)._model
        s._dofs i s._isAutoUpdate).1
      = (api.CalcBodyWorldOrientation s._model s._dofs i s._isAutoUpdate).1) :
    ∃ Rab Rba s1 s2,
      orientation api s a b = .ok (Rab, s1) ∧
      orientation api s b a = .ok (Rba, s2) ∧
      Rab = (api.CalcBodyWorldOrientation s._model s._dofs ida s._isAutoUpdate).1
        * ((api.CalcBodyWorldOrientation s._model s._dofs idb s._isAutoUpdate).1).transpose ∧
      Rab = Rba.transpose := by
  refine ⟨_, _, _, _, by simp only [orientation, ha, hb]; rfl,
    by simp only [orientation, ha, hb]; rfl, ?_, ?_⟩
  · have h1 := hstable idb ida
    simp only [withKinematics] at h1 ⊢
    rw [h1]
  · have h1 := hstable idb ida
    have h2 := hstable ida idb
    simp only [withKinematics] at h1 h2 ⊢
    rw [h1, h2, Matrix.transpose_mul, Matrix.transpose_transpose]

/-- Witness of C5: in the pendulum model the orientation of the frame `j1`
(body 1, a quarter turn) with respect to `origin` is the transpose of the
orientation of `origin` with respect to `j1`. -/
theorem orientation_antisymmetry_witness :
    ∃ Rab Rba s1 s2,
      orientation Demo.demoApi Demo.pendulumModel 0 1 = .ok (Rab, s1) ∧
      orientation Demo.demoApi Demo.pendulumModel 1 0 = .ok (Rba, s2) ∧
      Rab = Rba.transpose := by
  obtain ⟨Rab, Rba, s1, s2, h1, h2, _, h4⟩ :=
    orientation_antisymmetry Demo.demoApi Demo.pendulumModel 0 1 1 0 rfl rfl
      (fun _ _ => rfl)
  exact ⟨Rab, Rba, s1, s2, h1, h2, h4⟩

end Model

/-! ## Block systems -/

section blocks

variable {n m : Nat}

/-- The three block writes on a zero matrix build the block matrix with the
blocks `H`, `B`, `G` and a zero lower right block. -/
theorem setBlock_assemble_apply (H : Mat n n) (B : Mat n m) (G : Mat m n) :
    setBlock (setBlock (setBlock (0 : Mat (n + m) (n + m)) 0 0 H) n 0 G) 0 n B =
      Matrix.reindex finSumFinEquiv finSumFinEquiv (Matrix.fromBlocks H B G 0) := by
  ext i j
  induction i using Fin.addCases with
  | left i =>
    induction j using Fin.addCases with
    | left j =>
      have hj : ¬ (n ≤ j.val) := by omega
      simp [setBlock, hj]
    | right k =>
      simp [setBlock]
  | right l =>
    induction j using Fin.addCases with
    | left j =>
      have hj : ¬ (n ≤ j.val) := by omega
      have hl : ¬ (n + l.val < n) := by omega
      simp [setBlock, hj, hl]
    | right k =>
      have hl : ¬ (n + l.val < n) := by omega
      have hk : ¬ (n + k.val < n) := by omega
      simp [setBlock, hl, hk]

/-- The two segment writes on a zero vector build the stacked vector. -/
theorem setSegment_assemble (b1 : Vec n) (b2 : Vec m) :
    setSegment (setSegment (0 : Vec (n + m)) 0 b1) n b2 = Fin.append b1 b2 := by
  ext i
  induction i using Fin.addCases with
  | left i =>
    have hi : ¬ (n ≤ i.val) := by omega
    simp [setSegment, hi]
  | right k =>
    simp [setSegment]

/-- A write of the first segment of a zero vector leaves zeros below. -/
theorem setSegment_top (b1 : Vec n) :
    setSegment (0 : Vec (n + m)) 0 b1 = Fin.append b1 (0 : Vec m) := by
  ext i
  induction i using Fin.addCases with
  | left i => simp [setSegment]
  | right k =>
    have hk : ¬ (n + k.val < n) := by omega
    simp [setSegment, hk]

/-- The first segment of a stacked vector. -/
theorem segment_top (x : Vec (n + m)) (h : 0 + n ≤ n + m) :
    segment x 0 n h = fun i => x (Fin.castAdd m i) := by
  funext i
  simp only [segment]
  congr 1
  exact Fin.ext (by simp)

/-- The last segment of a stacked vector. -/
theorem segment_bottom (x : Vec (n + m)) (h : n + m ≤ n + m) :
    segment x n m h = fun k => x (Fin.natAdd n k) := by
  funext k
  rfl

/-- Product of a block matrix and a stacked vector, block by block. -/
theorem blocks_mulVec (H : Mat n n) (B : Mat n m) (G : Mat m n) (D : Mat m m) (x : Vec (n + m)) :
    Matrix.mulVec (Matrix.reindex finSumFinEquiv finSumFinEquiv (Matrix.fromBlocks H B G D)) x =
      Fin.append
        (Matrix.mulVec H (fun i => x (Fin.castAdd m i)) + Matrix.mulVec B (fun k => x (Fin.natAdd n k)))
        (Matrix.mulVec G (fun i => x (Fin.castAdd m i)) + Matrix.mulVec D (fun k => x (Fin.natAdd n k))) := by
  ext i
  induction i using Fin.addCases with
  | left i =>
    simp [Matrix.mulVec, Matrix.dotProduct, Fin.sum_univ_add]
  | right k =>
    simp [Matrix.mulVec, Matrix.dotProduct, Fin.sum_univ_add]

/-- Stacked vectors are equal when their parts are. -/
theorem append_eq_iff (a1 b1 : Vec n) (a2 b2 : Vec m) :
    Fin.append a1 a2 = Fin.append b1 b2 ↔ a1 = b1 ∧ a2 = b2 := by
  constructor
  · intro h
    constructor
    · funext i
      have := congrFun h (Fin.castAdd m i)
      simpa using this
    · funext k
      have := congrFun h (Fin.natAdd n k)
      simpa using this
  · rintro ⟨h1, h2⟩
    rw [h1, h2]

/-- The offset loop adds the diagonal matrix of the offsets. -/
theorem addInertiaOffset_eq (H : Mat n n) (inertiaOffset : VectorXd) (h : inertiaOffset.size = n) :
    addInertiaOffset H inertiaOffset = H + Matrix.diagonal (toVec inertiaOffset n) := by
  ext i j
  by_cases hij : i = j
  · subst hij
    have hi : i.val < inertiaOffset.size := by rw [h]; exact i.isLt
    simp [addInertiaOffset, hi, toVec]
  · simp [addInertiaOffset, hij, Matrix.diagonal_apply_ne _ hij]

end blocks

/-! ## Constrained and unconstrained dynamics -/

namespace Model

open LinearSolver

variable {κ : Type}

/-- The two block rows of an exactly solved saddle-point system, the second
unknown being stored with its sign changed. -/
theorem saddle_point_rows {n m : Nat} (H : Mat n n) (G : Mat m n) (x : Vec (n + m))
    (b1 : Vec n) (b2 : Vec m)
    (hex : Matrix.mulVec (Matrix.reindex finSumFinEquiv finSumFinEquiv
      (Matrix.fromBlocks H G.transpose G 0)) x = Fin.append b1 b2) :
    Matrix.mulVec H (fun i => x (Fin.castAdd m i))
        - Matrix.mulVec G.transpose (-(fun k => x (Fin.natAdd n k))) = b1 ∧
      Matrix.mulVec G (fun i => x (Fin.castAdd m i)) = b2 := by
  rw [blocks_mulVec, append_eq_iff] at hex
  obtain ⟨h1, h2⟩ := hex
  constructor
  · rw [Matrix.mulVec_neg, sub_neg_eq_add]
    exact h1
  · simpa using h2

/-- C6. Constrained forward dynamics: for arguments of DOF length and a solver the
function recognises, `forwardDynamicsContactsCustom` returns; with `H' = H +
diag(inertiaOffset)` and `H`, `C`, `G`, `gamma` computed by
`CalcContactSystemVariables`, it leaves in the constraint set the system
`A = [[H', Gᵀ], [G, 0]]`, `b = [torque - C; gamma]`, returns `acc = x[0..n)` and
stores `force = -x[n..n+m)`; when `x` solves `A x = b` exactly,
`H' acc - Gᵀ force = torque - C` and `G acc = gamma`. -/
theorem forwardDynamicsContactsCustom_saddle_point (api : RBDL κ) (s : Model κ) {m : Nat}
    (constraints : ConstraintSet s._model.dof_count m)
    (position velocity torque inertiaOffset : VectorXd) (solver : LinearSolver)
    (hp : position.size = s._model.dof_count) (hv : velocity.size = s._model.dof_count)
    (ht : torque.size = s._model.dof_count) (ho : inertiaOffset.size = s._model.dof_count)
    (hsolver : solver = LinearSolverPartialPivLU ∨ solver = LinearSolverColPivHouseholderQR ∨
      solver = LinearSolverHouseholderQR ∨ solver = LinearSolverFullPivLU ∨
      solver = LinearSolverFullPivHouseholderQR) :
    ∃ acc cs s',
      forwardDynamicsContactsCustom api s constraints position velocity torque inertiaOffset
        solver = (.ok acc, cs, s') ∧
      cs.H = (api.CalcContactSystemVariables s._model position velocity torque constraints).1.H
        + Matrix.diagonal (toVec inertiaOffset s._model.dof_count) ∧
      cs.C = (api.CalcContactSystemVariables s._model position velocity torque constraints).1.C ∧
      cs.G = (api.CalcContactSystemVariables s._model position velocity torque constraints).1.G ∧
      cs.gamma =
        (api.CalcContactSystemVariables s._model position velocity torque constraints).1.gamma ∧
      cs.A = Matrix.reindex finSumFinEquiv finSumFinEquiv
        (Matrix.fromBlocks cs.H cs.G.transpose cs.G 0) ∧
      cs.b = Fin.append (toVec torque s._model.dof_count - cs.C) cs.gamma ∧
      acc = (fun i => cs.x (Fin.castAdd m i)) ∧
      cs.force = -(fun k => cs.x (Fin.natAdd s._model.dof_count k)) ∧
      (Matrix.mulVec cs.A cs.x = cs.b →
        Matrix.mulVec cs.H acc - Matrix.mulVec cs.G.transpose cs.force
            = toVec torque s._model.dof_count - cs.C ∧
          Matrix.mulVec cs.G acc = cs.gamma) := by
  have hH := addInertiaOffset_eq
    (api.CalcContactSystemVariables s._model position velocity torque constraints).1.H
    inertiaOffset ho
  rcases hsolver with rfl | rfl | rfl | rfl | rfl <;>
  · simp only [forwardDynamicsContactsCustom, hp, hv, ht, ho, ne_eq, not_true_eq_false,
      if_false, setBlock_assemble_apply, setSegment_assemble, segment_top, segment_bottom]
    refine ⟨_, _, _, rfl, hH, rfl, rfl, rfl, rfl, rfl, rfl, rfl, ?_⟩
    intro hex
    exact saddle_point_rows _ _ _ _ _ hex

/-- The solver of the examples is exact on systems with two unknowns whose
matrix has a zero lower right corner and non-zero off-diagonal entries. -/
theorem demoSolve_exact {k : Nat} (hk : k = 2) (A : Mat k k) (b : Vec k)
    (h11 : A ⟨1, by omega⟩ ⟨1, by omega⟩ = 0)
    (h10 : A ⟨1, by omega⟩ ⟨0, by omega⟩ ≠ 0)
    (h01 : A ⟨0, by omega⟩ ⟨1, by omega⟩ ≠ 0) :
    Matrix.mulVec A (Demo.demoSolve A b) = b := by
  subst hk
  ext i
  fin_cases i
  · simp [Matrix.mulVec, Matrix.dotProduct, Fin.sum_univ_succ, Demo.demoSolve]
    simp at h01 h10
    field_simp
    ring
  · simp [Matrix.mulVec, Matrix.dotProduct, Fin.sum_univ_succ, Demo.demoSolve]
    simp at h01 h10 h11
    rw [h11]
    field_simp

/-- Witness of C6: the pendulum with one contact, torque 4 and inertia offset 1;
the system is solved exactly and the two equations hold. -/
theorem forwardDynamicsContactsCustom_saddle_point_witness :
    ∃ acc cs s',
      forwardDynamicsContactsCustom Demo.demoApi Demo.pendulumModel Demo.contact
        (VectorXd.ofList [0]) (VectorXd.ofList [0]) (VectorXd.ofList [4]) (VectorXd.ofList [1])
        LinearSolverPartialPivLU = (.ok acc, cs, s') ∧
      Matrix.mulVec cs.A cs.x = cs.b ∧
      Matrix.mulVec cs.H acc - Matrix.mulVec cs.G.transpose cs.force
          = toVec (VectorXd.ofList [4]) Demo.pendulumModel._model.dof_count - cs.C ∧
      Matrix.mulVec cs.G acc = cs.gamma := by
  obtain ⟨acc, cs, s', hcall, hH, hC, hG, hg, hA, hb, hacc, hf, himp⟩ :=
    forwardDynamicsContactsCustom_saddle_point Demo.demoApi Demo.pendulumModel Demo.contact
      (VectorXd.ofList [0]) (VectorXd.ofList [0]) (VectorXd.ofList [4]) (VectorXd.ofList [1])
      LinearSolverPartialPivLU rfl rfl rfl rfl (Or.inl rfl)
  have hx : cs.x = Demo.demoApi.partialPivLu_solve cs.A cs.b := by
    simp only [forwardDynamicsContactsCustom] at hcall
    simp [VectorXd.ofList, Demo.pendulumModel, Demo.pendulum] at hcall
    obtain ⟨-, rfl, -⟩ := hcall
    rfl
  have hex : Matrix.mulVec cs.A cs.x = cs.b := by
    rw [hx]
    have e0 : ∀ h, (⟨0, h⟩ : Fin (Demo.pendulumModel._model.dof_count + 1)) =
        Fin.castAdd 1 ⟨0, by decide⟩ := fun _ => Fin.ext rfl
    have e1 : ∀ h, (⟨1, h⟩ : Fin (Demo.pendulumModel._model.dof_count + 1)) =
        Fin.natAdd Demo.pendulumModel._model.dof_count ⟨0, by decide⟩ := fun _ => Fin.ext rfl
    refine demoSolve_exact rfl cs.A cs.b ?_ ?_ ?_
    · rw [hA, e1]; simp
    · rw [hA, e1, e0, hG]; simp [Demo.demoApi]
    · rw [hA, e1, e0, hG]; simp [Demo.demoApi]
  exact ⟨acc, cs, s', hcall, hex, himp hex⟩

/-- The two block rows of an exactly solved impulse-dynamics system. -/
theorem impulse_rows {n m : Nat} (H : Mat n n) (G : Mat m n) (dt : ℚ) (x : Vec (n + m))
    (b1 : Vec n)
    (hex : Matrix.mulVec (Matrix.reindex finSumFinEquiv finSumFinEquiv
      (Matrix.fromBlocks H (-dt • G.transpose) G 0)) x = Fin.append b1 (0 : Vec m)) :
    Matrix.mulVec H (fun i => x (Fin.castAdd m i))
        - dt • Matrix.mulVec G.transpose (fun k => x (Fin.natAdd n k)) = b1 ∧
      Matrix.mulVec G (fun i => x (Fin.castAdd m i)) = 0 := by
  rw [blocks_mulVec, append_eq_iff] at hex
  obtain ⟨h1, h2⟩ := hex
  constructor
  · rw [← h1, Matrix.smul_mulVec_assoc, neg_smul, sub_eq_add_neg]
  · simpa using h2

/-- C7. Constrained forward impulse dynamics: for arguments of DOF length, a
solver the function recognises and an offset mass matrix `H' = H +
diag(inertiaOffset)` that passes the invertibility test of the function,
`forwardImpulseDynamicsContactsCustom` returns; it leaves in the constraint set
the system `A = [[H', -dt Gᵀ], [G, 0]]`, `b = [dt (torque - C) + H' oldVelocity;
0]`, returns the next velocity `x[0..n)` and stores the impulse `x[n..n+m)` in
the field `force`; when `x` solves `A x = b` exactly,
`H' v⁺ - dt Gᵀ λ = dt (torque - C) + H' oldVelocity` and `G v⁺ = 0`. -/
theorem forwardImpulseDynamicsContactsCustom_saddle_point (api : RBDL κ) (s : Model κ)
    (dt : ℚ) {m : Nat} (constraints : ConstraintSet s._model.dof_count m)
    (position velocity torque inertiaOffset : VectorXd) (solver : LinearSolver)
    (hp : position.size = s._model.dof_count) (hv : velocity.size = s._model.dof_count)
    (ht : torque.size = s._model.dof_count) (ho : inertiaOffset.size = s._model.dof_count)
    (hinv : api.colPivHouseholderQr_isInvertible
      ((api.CalcContactSystemVariables s._model position velocity torque constraints).1.H
        + Matrix.diagonal (toVec inertiaOffset s._model.dof_count)) = true)
    (hsolver : solver = LinearSolverPartialPivLU ∨ solver = LinearSolverColPivHouseholderQR ∨
      solver = LinearSolverHouseholderQR ∨ solver = LinearSolverFullPivLU ∨
      solver = LinearSolverFullPivHouseholderQR) :
    ∃ vel cs s',
      forwardImpulseDynamicsContactsCustom api s dt constraints position velocity torque
        inertiaOffset solver = (.ok vel, cs, s') ∧
      cs.H = (api.CalcContactSystemVariables s._model position velocity torque constraints).1.H
        + Matrix.diagonal (toVec inertiaOffset s._model.dof_count) ∧
      cs.C = (api.CalcContactSystemVariables s._model position velocity torque constraints).1.C ∧
      cs.G = (api.CalcContactSystemVariables s._model position velocity torque constraints).1.G ∧
      cs.A = Matrix.reindex finSumFinEquiv finSumFinEquiv
        (Matrix.fromBlocks cs.H (-dt • cs.G.transpose) cs.G 0) ∧
      cs.b = Fin.append
        (dt • (toVec torque s._model.dof_count - cs.C)
          + Matrix.mulVec cs.H (toVec velocity s._model.dof_count)) 0 ∧
      vel = (fun i => cs.x (Fin.castAdd m i)) ∧
      cs.force = (fun k => cs.x (Fin.natAdd s._model.dof_count k)) ∧
      (Matrix.mulVec cs.A cs.x = cs.b →
        Matrix.mulVec cs.H vel - dt • Matrix.mulVec cs.G.transpose cs.force
            = dt • (toVec torque s._model.dof_count - cs.C)
              + Matrix.mulVec cs.H (toVec velocity s._model.dof_count) ∧
          Matrix.mulVec cs.G vel = 0) := by
  have hH := addInertiaOffset_eq
    (api.CalcContactSystemVariables s._model position velocity torque constraints).1.H
    inertiaOffset ho
  rw [← hH] at hinv
  rcases hsolver with rfl | rfl | rfl | rfl | rfl <;>
  · simp only [forwardImpulseDynamicsContactsCustom, hp, hv, ht, ho, ne_eq, not_true_eq_false,
      if_false, hinv, Bool.not_true, Bool.false_eq_true,
      setBlock_assemble_apply, setSegment_top, segment_top, segment_bottom]
    refine ⟨_, _, _, rfl, hH, rfl, rfl, rfl, rfl, rfl, rfl, ?_⟩
    intro hex
    exact impulse_rows _ _ _ _ _ hex

/-- C8. Constrained inverse dynamics: for arguments of DOF length,
`inverseDynamicsContacts` returns; with `H' = H + diag(inertiaOffset)` it
assembles `A = [[H', Gᵀ], [G, 0]]`, multiplies it by `[acc; -force]` and returns
the first `n` entries of the product plus `C`, that is
`H' acc + Gᵀ (-force) + C`; the field `force` of the constraint set is the one
it held before the call. -/
theorem inverseDynamicsContacts_torque (api : RBDL κ) (s : Model κ) {m : Nat}
    (constraints : ConstraintSet s._model.dof_count m)
    (position velocity acceleration inertiaOffset : VectorXd)
    (hp : position.size = s._model.dof_count) (hv : velocity.size = s._model.dof_count)
    (ha : acceleration.size = s._model.dof_count)
    (ho : inertiaOffset.size = s._model.dof_count) :
    ∃ tau cs s',
      inverseDynamicsContacts api s constraints position velocity acceleration inertiaOffset
        = (.ok tau, cs, s') ∧
      cs.H = (api.CalcContactSystemVariables s._model position velocity
          (VectorXd.Zero position.size) constraints).1.H
        + Matrix.diagonal (toVec inertiaOffset s._model.dof_count) ∧
      cs.C = (api.CalcContactSystemVariables s._model position velocity
          (VectorXd.Zero position.size) constraints).1.C ∧
      cs.G = (api.CalcContactSystemVariables s._model position velocity
          (VectorXd.Zero position.size) constraints).1.G ∧
      cs.A = Matrix.reindex finSumFinEquiv finSumFinEquiv
        (Matrix.fromBlocks cs.H cs.G.transpose cs.G 0) ∧
      cs.b = Fin.append (toVec acceleration s._model.dof_count) (-constraints.force) ∧
      cs.x = Matrix.mulVec cs.A cs.b ∧
      tau = (fun i => cs.x (Fin.castAdd m i)) + cs.C ∧
      tau = Matrix.mulVec cs.H (toVec acceleration s._model.dof_count)
        + Matrix.mulVec cs.G.transpose (-constraints.force) + cs.C ∧
      cs.force = constraints.force := by
  have hH := addInertiaOffset_eq
    (api.CalcContactSystemVariables s._model position velocity
      (VectorXd.Zero s._model.dof_count) constraints).1.H inertiaOffset ho
  simp only [inverseDynamicsContacts, hp, hv, ha, ho, ne_eq, not_true_eq_false,
    if_false, setBlock_assemble_apply, setSegment_assemble, segment_top]
  refine ⟨_, _, _, rfl, ?_, rfl, rfl, rfl, rfl, rfl, rfl, ?_, rfl⟩
  · exact hH
  · rw [blocks_mulVec]
    funext i
    simp
    rfl

/-- The two block rows of an exactly solved impulse system. -/
theorem contact_impulse_rows {n m : Nat} (H : Mat n n) (G : Mat m n) (x : Vec (n + m))
    (v : Vec n) (b2 : Vec m)
    (hex : Matrix.mulVec (Matrix.reindex finSumFinEquiv finSumFinEquiv
      (Matrix.fromBlocks H G.transpose G 0)) x = Fin.append (Matrix.mulVec H v) b2) :
    Matrix.mulVec G (fun i => x (Fin.castAdd m i)) = b2 ∧
      Matrix.mulVec H ((fun i => x (Fin.castAdd m i)) - v)
        + Matrix.mulVec G.transpose (fun k => x (Fin.natAdd n k)) = 0 := by
  rw [blocks_mulVec, append_eq_iff] at hex
  obtain ⟨h1, h2⟩ := hex
  constructor
  · simpa using h2
  · rw [Matrix.mulVec_sub, ← h1]
    abel

/-- C9. Impulse contact resolution: for arguments of DOF length and a solver the
function recognises, `impulseContactsCustom` returns; with `H' = H +
diag(inertiaOffset)`, `H` the matrix of `CompositeRigidBodyAlgorithm` and `G` the
one of `CalcContactJacobian`, it leaves in the constraint set the system
`A = [[H', Gᵀ], [G, 0]]`, `b = [H' oldVelocity; v_plus]`, returns `v⁺ = x[0..n)`
and stores `impulse = x[n..n+m)`; when `x` solves `A x = b` exactly,
`G v⁺ = v_plus` and `H' (v⁺ - oldVelocity) + Gᵀ impulse = 0`. -/
theorem impulseContactsCustom_saddle_point (api : RBDL κ) (s : Model κ) {m : Nat}
    (constraints : ConstraintSet s._model.dof_count m)
    (position velocity inertiaOffset : VectorXd) (solver : LinearSolver)
    (hp : position.size = s._model.dof_count) (hv : velocity.size = s._model.dof_count)
    (ho : inertiaOffset.size = s._model.dof_count)
    (hsolver : solver = LinearSolverPartialPivLU ∨ solver = LinearSolverColPivHouseholderQR ∨
      solver = LinearSolverHouseholderQR ∨ solver = LinearSolverFullPivLU ∨
      solver = LinearSolverFullPivHouseholderQR) :
    ∃ vel cs s',
      impulseContactsCustom api s constraints position velocity inertiaOffset solver
        = (.ok vel, cs, s') ∧
      cs.H = (api.CompositeRigidBodyAlgorithm
          (withKinematics s (api.UpdateKinematicsCustom s._model (some position) none none))._model
          position constraints.H false).1
        + Matrix.diagonal (toVec inertiaOffset s._model.dof_count) ∧
      (∃ model, cs.G =
        (api.CalcContactJacobian model position { constraints with H := cs.H }
          constraints.G false).1) ∧
      cs.v_plus = constraints.v_plus ∧
      cs.A = Matrix.reindex finSumFinEquiv finSumFinEquiv
        (Matrix.fromBlocks cs.H cs.G.transpose cs.G 0) ∧
      cs.b = Fin.append (Matrix.mulVec cs.H (toVec velocity s._model.dof_count)) cs.v_plus ∧
      vel = (fun i => cs.x (Fin.castAdd m i)) ∧
      cs.impulse = (fun k => cs.x (Fin.natAdd s._model.dof_count k)) ∧
      (Matrix.mulVec cs.A cs.x = cs.b →
        Matrix.mulVec cs.G vel = cs.v_plus ∧
          Matrix.mulVec cs.H (vel - toVec velocity s._model.dof_count)
            + Matrix.mulVec cs.G.transpose cs.impulse = 0) := by
  have hH := addInertiaOffset_eq
    (api.CompositeRigidBodyAlgorithm
      (withKinematics s (api.UpdateKinematicsCustom s._model (some position) none none))._model
      position constraints.H false).1 inertiaOffset ho
  rcases hsolver with rfl | rfl | rfl | rfl | rfl <;>
  · simp only [impulseContactsCustom, hp, hv, ho, ne_eq, not_true_eq_false,
      if_false, setBlock_assemble_apply, setSegment_assemble, segment_top, segment_bottom]
    refine ⟨_, _, _, rfl, hH, ⟨_, rfl⟩, rfl, rfl, rfl, rfl, rfl, ?_⟩
    intro hex
    exact contact_impulse_rows _ _ _ _ _ hex

/-- C10. Unconstrained custom forward dynamics: let `C` be the torque
`InverseDynamics` computes at the given position and velocity with zero
acceleration, `H` the mass matrix `CompositeRigidBodyAlgorithm` computes at the
given position, and `x` the vector the selected Eigen decomposition (one of the
six) returns for the matrix `H + diag(inertiaOffset)` and the right-hand side
`-C + torque`. For arguments of DOF length `forwardDynamicsCustom` returns `x`;
when `x` solves that system exactly, `(H + diag(inertiaOffset)) x = torque - C`,
and `H x = torque - C` when the inertia offsets are zero. -/
theorem forwardDynamicsCustom_solves (api : RBDL κ) (s : Model κ)
    (position velocity torque inertiaOffset : VectorXd) (solver : LinearSolver)
    (C : Vec s._model.dof_count) (H : Mat s._model.dof_count s._model.dof_count)
    (x : Vec s._model.dof_count)
    (hp : position.size = s._model.dof_count) (hv : velocity.size = s._model.dof_count)
    (ht : torque.size = s._model.dof_count) (ho : inertiaOffset.size = s._model.dof_count)
    (hC : C = (api.InverseDynamics s._model position velocity
      (VectorXd.Zero position.size) 0).1)
    (hH : H = (api.CompositeRigidBodyAlgorithm
      (withKinematics s (api.InverseDynamics s._model position velocity
        (VectorXd.Zero position.size) (0 : Vec s._model.dof_count)).2)._model
      position 0 false).1)
    (hsel : (solver, x) ∈
      [(LinearSolverPartialPivLU, api.partialPivLu_solve
          (H + Matrix.diagonal (toVec inertiaOffset _)) (-C + toVec torque _)),
       (LinearSolverColPivHouseholderQR, api.colPivHouseholderQr_solve
          (H + Matrix.diagonal (toVec inertiaOffset _)) (-C + toVec torque _)),
       (LinearSolverHouseholderQR, api.householderQr_solve
          (H + Matrix.diagonal (toVec inertiaOffset _)) (-C + toVec torque _)),
       (LinearSolverLLT, api.llt_solve
          (H + Matrix.diagonal (toVec inertiaOffset _)) (-C + toVec torque _)),
       (LinearSolverFullPivLU, api.fullPivLu_solve
          (H + Matrix.diagonal (toVec inertiaOffset _)) (-C + toVec torque _)),
       (LinearSolverFullPivHouseholderQR, api.fullPivHouseholderQr_solve
          (H + Matrix.diagonal (toVec inertiaOffset _)) (-C + toVec torque _))])
    (hexact : Matrix.mulVec (H + Matrix.diagonal (toVec inertiaOffset _)) x
      = -C + toVec torque _) :
    ∃ s',
      forwardDynamicsCustom api s position velocity torque inertiaOffset solver = (.ok x, s') ∧
      Matrix.mulVec (H + Matrix.diagonal (toVec inertiaOffset _)) x = toVec torque _ - C ∧
      (toVec inertiaOffset s._model.dof_count = 0 → Matrix.mulVec H x = toVec torque _ - C) := by
  have hrhs : -C + toVec torque s._model.dof_count = toVec torque s._model.dof_count - C := by
    abel
  subst hC hH
  simp only [List.mem_cons, Prod.mk.injEq, List.mem_singleton, List.not_mem_nil, or_false]
    at hsel
  refine ⟨withKinematics
      (withKinematics s (api.InverseDynamics s._model position velocity
        (VectorXd.Zero position.size) (0 : Vec s._model.dof_count)).2)
      (api.CompositeRigidBodyAlgorithm
        (withKinematics s (api.InverseDynamics s._model position velocity
          (VectorXd.Zero position.size) (0 : Vec s._model.dof_count)).2)._model
        position (0 : Mat s._model.dof_count s._model.dof_count) false).2, ?_, hrhs ▸ hexact, ?_⟩
  · rcases hsel with ⟨rfl, rfl⟩ | ⟨rfl, rfl⟩ | ⟨rfl, rfl⟩ | ⟨rfl, rfl⟩ | ⟨rfl, rfl⟩ | ⟨rfl, rfl⟩ <;>
    · simp only [forwardDynamicsCustom, hp, hv, ht, ho, ne_eq, not_true_eq_false, if_false,
        addInertiaOffset_eq _ _ ho]
  · intro hzero
    have hd : Matrix.diagonal (0 : Vec s._model.dof_count) = 0 := by
      ext i j
      by_cases hij : i = j <;> simp [Matrix.diagonal, hij]
    rw [hzero, hd, add_zero, hrhs] at hexact
    exact hexact

/-- The solver of the examples is exact on systems with one unknown and a
non-zero coefficient. -/
theorem demoSolve_exact_one {k : Nat} (hk : k = 1) (A : Mat k k) (b : Vec k)
    (h00 : A ⟨0, by omega⟩ ⟨0, by omega⟩ ≠ 0) :
    Matrix.mulVec A (Demo.demoSolve A b) = b := by
  subst hk
  ext i
  fin_cases i
  simp [Matrix.mulVec, Matrix.dotProduct, Demo.demoSolve]
  simp at h00
  field_simp

/-- Witness of C7: the pendulum with one contact, time step 1/2, torque 4 and
inertia offset 1; the system is solved exactly and the two equations hold. -/
theorem forwardImpulseDynamicsContactsCustom_saddle_point_witness :
    ∃ vel cs s',
      forwardImpulseDynamicsContactsCustom Demo.demoApi Demo.pendulumModel (1 / 2) Demo.contact
        (VectorXd.ofList [0]) (VectorXd.ofList [3]) (VectorXd.ofList [4]) (VectorXd.ofList [1])
        LinearSolverFullPivLU = (.ok vel, cs, s') ∧
      Matrix.mulVec cs.A cs.x = cs.b ∧
      Matrix.mulVec cs.G vel = 0 := by
  obtain ⟨vel, cs, s', hcall, hH, hC, hG, hA, hb, hvel, hf, himp⟩ :=
    forwardImpulseDynamicsContactsCustom_saddle_point Demo.demoApi Demo.pendulumModel (1 / 2)
      Demo.contact
      (VectorXd.ofList [0]) (VectorXd.ofList [3]) (VectorXd.ofList [4]) (VectorXd.ofList [1])
      LinearSolverFullPivLU rfl rfl rfl rfl rfl (Or.inr (Or.inr (Or.inr (Or.inl rfl))))
  have hx : cs.x = Demo.demoSolve cs.A cs.b := by
    simp only [forwardImpulseDynamicsContactsCustom] at hcall
    simp [VectorXd.ofList, Demo.pendulumModel, Demo.pendulum, Demo.demoApi] at hcall
    obtain ⟨-, rfl, -⟩ := hcall
    rfl
  have hex : Matrix.mulVec cs.A cs.x = cs.b := by
    rw [hx]
    have e0 : ∀ h, (⟨0, h⟩ : Fin (Demo.pendulumModel._model.dof_count + 1)) =
        Fin.castAdd 1 ⟨0, by decide⟩ := fun _ => Fin.ext rfl
    have e1 : ∀ h, (⟨1, h⟩ : Fin (Demo.pendulumModel._model.dof_count + 1)) =
        Fin.natAdd Demo.pendulumModel._model.dof_count ⟨0, by decide⟩ := fun _ => Fin.ext rfl
    refine demoSolve_exact rfl cs.A cs.b ?_ ?_ ?_
    · rw [hA, e1]; simp
    · rw [hA, e1, e0, hG]; simp [Demo.demoApi]
    · rw [hA, e1, e0, hG]; simp [Demo.demoApi]
  exact ⟨vel, cs, s', hcall, hex, (himp hex).2⟩

/-- Witness of C8: the pendulum with one contact holding the force 5; the call
returns `H' acc + Gᵀ (-force) + C` and the force is still 5. -/
theorem inverseDynamicsContacts_torque_witness :
    ∃ tau cs s',
      inverseDynamicsContacts Demo.demoApi Demo.pendulumModel Demo.contact
        (VectorXd.ofList [0]) (VectorXd.ofList [0]) (VectorXd.ofList [2]) (VectorXd.ofList [1])
        = (.ok tau, cs, s') ∧
      tau = Matrix.mulVec cs.H (toVec (VectorXd.ofList [2]) Demo.pendulumModel._model.dof_count)
        + Matrix.mulVec cs.G.transpose (-Demo.contact.force) + cs.C ∧
      cs.force = Demo.contact.force := by
  obtain ⟨tau, cs, s', hcall, _, _, _, _, _, _, _, htau, hforce⟩ :=
    inverseDynamicsContacts_torque Demo.demoApi Demo.pendulumModel Demo.contact
      (VectorXd.ofList [0]) (VectorXd.ofList [0]) (VectorXd.ofList [2]) (VectorXd.ofList [1])
      rfl rfl rfl rfl
  exact ⟨tau, cs, s', hcall, htau, hforce⟩

/-- Witness of C9: the pendulum with one contact and target velocity 7; the
system is solved exactly and the velocity at the contact is the target. -/
theorem impulseContactsCustom_saddle_point_witness :
    ∃ vel cs s',
      impulseContactsCustom Demo.demoApi Demo.pendulumModel Demo.contact
        (VectorXd.ofList [0]) (VectorXd.ofList [3]) (VectorXd.ofList [1])
        LinearSolverHouseholderQR = (.ok vel, cs, s') ∧
      Matrix.mulVec cs.A cs.x = cs.b ∧
      Matrix.mulVec cs.G vel = Demo.contact.v_plus := by
  obtain ⟨vel, cs, s', hcall, hH, ⟨model, hG⟩, hv, hA, hb, hvel, hi, himp⟩ :=
    impulseContactsCustom_saddle_point Demo.demoApi Demo.pendulumModel Demo.contact
      (VectorXd.ofList [0]) (VectorXd.ofList [3]) (VectorXd.ofList [1])
      LinearSolverHouseholderQR rfl rfl rfl (Or.inr (Or.inr (Or.inl rfl)))
  have hx : cs.x = Demo.demoSolve cs.A cs.b := by
    simp only [impulseContactsCustom] at hcall
    simp [VectorXd.ofList, Demo.pendulumModel, Demo.pendulum, Demo.demoApi] at hcall
    obtain ⟨-, rfl, -⟩ := hcall
    rfl
  have hex : Matrix.mulVec cs.A cs.x = cs.b := by
    rw [hx]
    have e0 : ∀ h, (⟨0, h⟩ : Fin (Demo.pendulumModel._model.dof_count + 1)) =
        Fin.castAdd 1 ⟨0, by decide⟩ := fun _ => Fin.ext rfl
    have e1 : ∀ h, (⟨1, h⟩ : Fin (Demo.pendulumModel._model.dof_count + 1)) =
        Fin.natAdd Demo.pendulumModel._model.dof_count ⟨0, by decide⟩ := fun _ => Fin.ext rfl
    refine demoSolve_exact rfl cs.A cs.b ?_ ?_ ?_
    · rw [hA, e1]; simp
    · rw [hA, e1, e0, hG]; simp [Demo.demoApi]
    · rw [hA, e1, e0, hG]; simp [Demo.demoApi]
  exact ⟨vel, cs, s', hcall, hex, hv ▸ (himp hex).1⟩

/-- Witness of C10: the pendulum with torque 4 and inertia offset 1, solved by
the Cholesky decomposition: `(2 + 1) x = 4 - 1`. -/
theorem forwardDynamicsCustom_solves_witness :
    ∃ x s',
      forwardDynamicsCustom Demo.demoApi Demo.pendulumModel
        (VectorXd.ofList [0]) (VectorXd.ofList [0]) (VectorXd.ofList [4]) (VectorXd.ofList [1])
        LinearSolverLLT = (.ok x, s') ∧
      Matrix.mulVec
        (Demo.mass
          + Matrix.diagonal (toVec (VectorXd.ofList [1]) Demo.pendulumModel._model.dof_count)) x
        = toVec (VectorXd.ofList [4]) Demo.pendulumModel._model.dof_count - Demo.bias := by
  obtain ⟨s', h1, h2, _⟩ :=
    forwardDynamicsCustom_solves Demo.demoApi Demo.pendulumModel
      (VectorXd.ofList [0]) (VectorXd.ofList [0]) (VectorXd.ofList [4]) (VectorXd.ofList [1])
      LinearSolverLLT Demo.bias Demo.mass
      (Demo.demoSolve
        (Demo.mass
          + Matrix.diagonal (toVec (VectorXd.ofList [1]) Demo.pendulumModel._model.dof_count))
        (-Demo.bias + toVec (VectorXd.ofList [4]) Demo.pendulumModel._model.dof_count))
      rfl rfl rfl rfl rfl rfl
      (by simp [Demo.demoApi])
      (demoSolve_exact_one rfl _ _
        (by simp [Demo.mass, toVec, VectorXd.ofList]; norm_num))
  exact ⟨_, s', h1, h2⟩

end Model

/-! ## Argument sizes of the dynamics calls -/

namespace Model

open LinearSolver

variable {κ : Type}

/-- The size faults are invalid-vector-size faults. -/
theorem isInvalidVectorSize_of {α : Type} (what : String)
    (h : what ∈ ["position", "velocity", "acceleration", "torque", "inertia"]) :
    IsInvalidVectorSize
      (.error (Fault.logic_error ("Model invalid " ++ what ++ " vector size")) : Except Fault α) :=
  ⟨what, h, rfl⟩

/-- The position size fault is an invalid-vector-size fault. -/
theorem invalid_position {α : Type} : IsInvalidVectorSize
    (.error (Fault.logic_error "Model invalid position vector size") : Except Fault α) :=
  isInvalidVectorSize_of "position" (by simp)

/-- The velocity size fault is an invalid-vector-size fault. -/
theorem invalid_velocity {α : Type} : IsInvalidVectorSize
    (.error (Fault.logic_error "Model invalid velocity vector size") : Except Fault α) :=
  isInvalidVectorSize_of "velocity" (by simp)

/-- The acceleration size fault is an invalid-vector-size fault. -/
theorem invalid_acceleration {α : Type} : IsInvalidVectorSize
    (.error (Fault.logic_error "Model invalid acceleration vector size") : Except Fault α) :=
  isInvalidVectorSize_of "acceleration" (by simp)

/-- C11, amended. A velocity vector whose length differs from the DOF count makes
`forwardDynamics`, `forwardDynamicsCustom`, `forwardDynamicsContacts`,
`forwardDynamicsContactsCustom`, `forwardImpulseDynamicsContactsCustom`,
`impulseContacts` and `impulseContactsCustom` fail with an invalid-vector-size
logic error; a velocity or acceleration vector of another length than the DOF
count does so for `inverseDynamicsContacts`; a non-empty velocity or
acceleration vector of another length does so for `inverseDynamics` and
`inverseDynamicsClosedLoop`. In each of these cases the model, the constraint
set and the contact-force output are left as they were.
`resolveContactConstraintLCP` checks nothing itself: its outcome is the one of
the routine `RBDLContactLCP` it hands its arguments to. -/
theorem size_faults (api : RBDL κ) (s : Model κ) {m : Nat}
    (constraints : ConstraintSet s._model.dof_count m)
    (position velocity acceleration torque inertiaOffset : VectorXd)
    (solver : LinearSolver) (dt : ℚ) (fixedFrameIndex : Nat)
    (contactForce : Option VectorXd) (useInfinityNorm : Bool)
    (isBilateralConstraint : VectorXi) :
    (velocity.size ≠ s._model.dof_count →
      (IsInvalidVectorSize (forwardDynamics api s position velocity torque).1 ∧
        (forwardDynamics api s position velocity torque).2 = s) ∧
      (IsInvalidVectorSize
          (forwardDynamicsCustom api s position velocity torque inertiaOffset solver).1 ∧
        (forwardDynamicsCustom api s position velocity torque inertiaOffset solver).2 = s) ∧
      (IsInvalidVectorSize (forwardDynamicsContacts api s constraints position velocity torque).1 ∧
        (forwardDynamicsContacts api s constraints position velocity torque).2
          = (constraints, s)) ∧
      (IsInvalidVectorSize (forwardDynamicsContactsCustom api s constraints position velocity
          torque inertiaOffset solver).1 ∧
        (forwardDynamicsContactsCustom api s constraints position velocity torque
          inertiaOffset solver).2 = (constraints, s)) ∧
      (IsInvalidVectorSize (forwardImpulseDynamicsContactsCustom api s dt constraints position
          velocity torque inertiaOffset solver).1 ∧
        (forwardImpulseDynamicsContactsCustom api s dt constraints position velocity torque
          inertiaOffset solver).2 = (constraints, s)) ∧
      (IsInvalidVectorSize (impulseContacts api s constraints position velocity).1 ∧
        (impulseContacts api s constraints position velocity).2 = (constraints, s)) ∧
      (IsInvalidVectorSize
          (impulseContactsCustom api s constraints position velocity inertiaOffset solver).1 ∧
        (impulseContactsCustom api s constraints position velocity inertiaOffset solver).2
          = (constraints, s))) ∧
    (velocity.size ≠ s._model.dof_count ∨ acceleration.size ≠ s._model.dof_count →
      IsInvalidVectorSize (inverseDynamicsContacts api s constraints position velocity
          acceleration inertiaOffset).1 ∧
        (inverseDynamicsContacts api s constraints position velocity acceleration
          inertiaOffset).2 = (constraints, s)) ∧
    ((velocity.size ≠ 0 ∧ velocity.size ≠ s._model.dof_count) ∨
        (acceleration.size ≠ 0 ∧ acceleration.size ≠ s._model.dof_count) →
      (IsInvalidVectorSize (inverseDynamics api s velocity acceleration).1 ∧
        (inverseDynamics api s velocity acceleration).2 = s) ∧
      (IsInvalidVectorSize (inverseDynamicsClosedLoop api s fixedFrameIndex contactForce
          useInfinityNorm velocity acceleration).1 ∧
        (inverseDynamicsClosedLoop api s fixedFrameIndex contactForce useInfinityNorm
          velocity acceleration).2 = (contactForce, s))) ∧
    (resolveContactConstraintLCP api s constraints isBilateralConstraint position velocity
        torque inertiaOffset).1
      = (api.RBDLContactLCP s._model position velocity torque inertiaOffset constraints
          isBilateralConstraint).1.1 := by
  refine ⟨?_, ?_, ?_, rfl⟩
  · intro hv
    refine ⟨?_, ?_, ?_, ?_, ?_, ?_, ?_⟩
    · unfold forwardDynamics
      by_cases hp : position.size = s._model.dof_count
      · simp only [hp, hv, ne_eq, not_true_eq_false, not_false_eq_true, if_true, if_false]
        exact ⟨invalid_velocity, by first | rfl | trivial⟩
      · simp only [hp, ne_eq, not_false_eq_true, if_true]
        exact ⟨invalid_position, by first | rfl | trivial⟩
    · unfold forwardDynamicsCustom
      by_cases hp : position.size = s._model.dof_count
      · simp only [hp, hv, ne_eq, not_true_eq_false, not_false_eq_true, if_true, if_false]
        exact ⟨invalid_velocity, by first | rfl | trivial⟩
      · simp only [hp, ne_eq, not_false_eq_true, if_true]
        exact ⟨invalid_position, by first | rfl | trivial⟩
    · unfold forwardDynamicsContacts
      by_cases hp : position.size = s._model.dof_count
      · simp only [hp, hv, ne_eq, not_true_eq_false, not_false_eq_true, if_true, if_false]
        exact ⟨invalid_velocity, by first | rfl | trivial⟩
      · simp only [hp, ne_eq, not_false_eq_true, if_true]
        exact ⟨invalid_position, by first | rfl | trivial⟩
    · unfold forwardDynamicsContactsCustom
      by_cases hp : position.size = s._model.dof_count
      · simp only [hp, hv, ne_eq, not_true_eq_false, not_false_eq_true, if_true, if_false]
        exact ⟨invalid_velocity, by first | rfl | trivial⟩
      · simp only [hp, ne_eq, not_false_eq_true, if_true]
        exact ⟨invalid_position, by first | rfl | trivial⟩
    · unfold forwardImpulseDynamicsContactsCustom
      by_cases hp : position.size = s._model.dof_count
      · simp only [hp, hv, ne_eq, not_true_eq_false, not_false_eq_true, if_true, if_false]
        exact ⟨invalid_velocity, by first | rfl | trivial⟩
      · simp only [hp, ne_eq, not_false_eq_true, if_true]
        exact ⟨invalid_position, by first | rfl | trivial⟩
    · unfold impulseContacts
      by_cases hp : position.size = s._model.dof_count
      · simp only [hp, hv, ne_eq, not_true_eq_false, not_false_eq_true, if_true, if_false]
        exact ⟨invalid_velocity, by first | rfl | trivial⟩
      · simp only [hp, ne_eq, not_false_eq_true, if_true]
        exact ⟨invalid_position, by first | rfl | trivial⟩
    · unfold impulseContactsCustom
      by_cases hp : position.size = s._model.dof_count
      · simp only [hp, hv, ne_eq, not_true_eq_false, not_false_eq_true, if_true, if_false]
        exact ⟨invalid_velocity, by first | rfl | trivial⟩
      · simp only [hp, ne_eq, not_false_eq_true, if_true]
        exact ⟨invalid_position, by first | rfl | trivial⟩
  · intro h
    unfold inverseDynamicsContacts
    by_cases hp : position.size = s._model.dof_count
    · by_cases hv : velocity.size = s._model.dof_count
      · have ha : acceleration.size ≠ s._model.dof_count := by
          rcases h with h | h
          · exact absurd hv h
          · exact h
        simp only [hp, hv, ha, ne_eq, not_true_eq_false, not_false_eq_true, if_true, if_false]
        exact ⟨invalid_acceleration, by first | rfl | trivial⟩
      · simp only [hp, hv, ne_eq, not_true_eq_false, not_false_eq_true, if_true, if_false]
        exact ⟨invalid_velocity, by first | rfl | trivial⟩
    · simp only [hp, ne_eq, not_false_eq_true, if_true]
      exact ⟨invalid_position, by first | rfl | trivial⟩
  · intro h
    constructor
    · unfold inverseDynamics
      by_cases hv0 : velocity.size = 0
      · have ha : acceleration.size ≠ 0 ∧ acceleration.size ≠ s._model.dof_count := by
          rcases h with h | h
          · exact absurd hv0 h.1
          · exact h
        simp only [hv0, ha.1, ha.2, ne_eq, not_false_eq_true, if_true, if_false]
        exact ⟨invalid_acceleration, by first | rfl | trivial⟩
      · by_cases hv : velocity.size = s._model.dof_count
        · have ha : acceleration.size ≠ 0 ∧ acceleration.size ≠ s._model.dof_count := by
            rcases h with h | h
            · exact absurd hv h.2
            · exact h
          have hn0 : ¬ s._model.dof_count = 0 := hv ▸ hv0
          simp only [hv0, hv, hn0, ha.1, ha.2, ne_eq, not_true_eq_false, not_false_eq_true,
            if_true, if_false]
          exact ⟨invalid_acceleration, by first | rfl | trivial⟩
        · simp only [hv0, hv, ne_eq, not_false_eq_true, if_true, if_false]
          exact ⟨invalid_velocity, by first | rfl | trivial⟩
    · unfold inverseDynamicsClosedLoop
      by_cases hv0 : velocity.size = 0
      · have ha : acceleration.size ≠ 0 ∧ acceleration.size ≠ s._model.dof_count := by
          rcases h with h | h
          · exact absurd hv0 h.1
          · exact h
        simp only [hv0, ha.1, ha.2, ne_eq, not_false_eq_true, if_true, if_false]
        exact ⟨invalid_acceleration, by first | rfl | trivial⟩
      · by_cases hv : velocity.size = s._model.dof_count
        · have ha : acceleration.size ≠ 0 ∧ acceleration.size ≠ s._model.dof_count := by
            rcases h with h | h
            · exact absurd hv h.2
            · exact h
          have hn0 : ¬ s._model.dof_count = 0 := hv ▸ hv0
          simp only [hv0, hv, hn0, ha.1, ha.2, ne_eq, not_true_eq_false, not_false_eq_true,
            if_true, if_false]
          exact ⟨invalid_acceleration, by first | rfl | trivial⟩
        · simp only [hv0, hv, ne_eq, not_false_eq_true, if_true, if_false]
          exact ⟨invalid_velocity, by first | rfl | trivial⟩

/-- Witness of C11: on the pendulum (one DOF) a velocity `[1, 2]` is refused by
`forwardDynamics`, an acceleration `[1, 2]` is refused by
`inverseDynamicsContacts` with model and constraint set unchanged, and by
`inverseDynamics` with an empty velocity. -/
theorem size_faults_witness :
    IsInvalidVectorSize (forwardDynamics Demo.demoApi Demo.pendulumModel
      (VectorXd.ofList [0]) (VectorXd.ofList [1, 2]) (VectorXd.ofList [0])).1 ∧
    (inverseDynamicsContacts Demo.demoApi Demo.pendulumModel Demo.contact
      (VectorXd.ofList [0]) (VectorXd.ofList [0]) (VectorXd.ofList [1, 2])
      (VectorXd.ofList [0])).2 = (Demo.contact, Demo.pendulumModel) ∧
    IsInvalidVectorSize (inverseDynamics Demo.demoApi Demo.pendulumModel
      (VectorXd.ofList []) (VectorXd.ofList [1, 2])).1 :=
  ⟨((size_faults Demo.demoApi Demo.pendulumModel Demo.contact
      (VectorXd.ofList [0]) (VectorXd.ofList [1, 2]) (VectorXd.ofList [1, 2])
      (VectorXd.ofList [0]) (VectorXd.ofList [0]) LinearSolverLLT 0 0 none false
      ⟨0, fun _ => 0⟩).1 (by decide)).1.1,
   ((size_faults Demo.demoApi Demo.pendulumModel Demo.contact
      (VectorXd.ofList [0]) (VectorXd.ofList [0]) (VectorXd.ofList [1, 2])
      (VectorXd.ofList [0]) (VectorXd.ofList [0]) LinearSolverLLT 0 0 none false
      ⟨0, fun _ => 0⟩).2.1 (Or.inr (by decide))).2,
   ((size_faults Demo.demoApi Demo.pendulumModel Demo.contact
      (VectorXd.ofList [0]) (VectorXd.ofList []) (VectorXd.ofList [1, 2])
      (VectorXd.ofList [0]) (VectorXd.ofList [0]) LinearSolverLLT 0 0 none false
      ⟨0, fun _ => 0⟩).2.2.1 (Or.inr ⟨by decide, by decide⟩)).1.1⟩

/-- Counterexample of C11: on the pendulum (one DOF) the empty velocity vector
has a length different from the DOF count, and `inverseDynamics` does not fail
with an invalid-vector-size fault. -/
theorem inverseDynamics_accepts_empty_velocity :
    (VectorXd.ofList []).size ≠ Demo.pendulumModel._model.dof_count ∧
    ¬ IsInvalidVectorSize (inverseDynamics Demo.demoApi Demo.pendulumModel
      (VectorXd.ofList []) (VectorXd.ofList [0])).1 :=
  ⟨by decide, by rintro ⟨what, -, h⟩; cases h⟩

/-- C12, the code at the failing input: on the pendulum (one DOF) with position
`[0]`, velocity `[0]` and torque `[1, 2]`, the functions `forwardDynamics`,
`forwardDynamicsCustom` and `forwardDynamicsContacts` raise the logic error
whose message names the acceleration, while `forwardDynamicsContactsCustom`
raises the one naming the torque. -/
theorem torque_size_fault_message :
    (forwardDynamics Demo.demoApi Demo.pendulumModel
      (VectorXd.ofList [0]) (VectorXd.ofList [0]) (VectorXd.ofList [1, 2])).1
      = .error (Fault.logic_error "Model invalid acceleration vector size") ∧
    (forwardDynamicsCustom Demo.demoApi Demo.pendulumModel
      (VectorXd.ofList [0]) (VectorXd.ofList [0]) (VectorXd.ofList [1, 2])
      (VectorXd.ofList [0]) LinearSolverLLT).1
      = .error (Fault.logic_error "Model invalid acceleration vector size") ∧
    (forwardDynamicsContacts Demo.demoApi Demo.pendulumModel Demo.contact
      (VectorXd.ofList [0]) (VectorXd.ofList [0]) (VectorXd.ofList [1, 2])).1
      = .error (Fault.logic_error "Model invalid acceleration vector size") ∧
    (forwardDynamicsContactsCustom Demo.demoApi Demo.pendulumModel Demo.contact
      (VectorXd.ofList [0]) (VectorXd.ofList [0]) (VectorXd.ofList [1, 2])
      (VectorXd.ofList [0]) LinearSolverPartialPivLU).1
      = .error (Fault.logic_error "Model invalid torque vector size") :=
  ⟨rfl, rfl, rfl, rfl⟩

/-- C13. In `inverseDynamics` an empty velocity (resp. acceleration) stands for
the zero vector of DOF length, so the call with two empty vectors equals the
call with two zero vectors; the call fails if and only if the velocity or the
acceleration is non-empty with a length different from the DOF count, and the
fault is then the invalid velocity or acceleration size logic error. -/
theorem inverseDynamics_empty_defaults (api : RBDL κ) (s : Model κ)
    (velocity acceleration : VectorXd) (f g : Nat → ℚ) :
    inverseDynamics api s ⟨0, f⟩ ⟨0, g⟩
      = inverseDynamics api s (VectorXd.Zero s._model.dof_count)
          (VectorXd.Zero s._model.dof_count) ∧
    inverseDynamics api s ⟨0, f⟩ acceleration
      = inverseDynamics api s (VectorXd.Zero s._model.dof_count) acceleration ∧
    inverseDynamics api s velocity ⟨0, g⟩
      = inverseDynamics api s velocity (VectorXd.Zero s._model.dof_count) ∧
    ((∃ e, (inverseDynamics api s velocity acceleration).1 = .error e) ↔
      (velocity.size ≠ 0 ∧ velocity.size ≠ s._model.dof_count) ∨
      (acceleration.size ≠ 0 ∧ acceleration.size ≠ s._model.dof_count)) ∧
    (∀ e, (inverseDynamics api s velocity acceleration).1 = .error e →
      e = Fault.logic_error "Model invalid velocity vector size" ∨
      e = Fault.logic_error "Model invalid acceleration vector size") := by
  refine ⟨?_, ?_, ?_, ?_, ?_⟩
  · by_cases h0 : s._model.dof_count = 0 <;> simp [inverseDynamics, VectorXd.Zero, h0]
  · by_cases h0 : s._model.dof_count = 0 <;> simp [inverseDynamics, VectorXd.Zero, h0]
  · by_cases h0 : s._model.dof_count = 0 <;> simp [inverseDynamics, VectorXd.Zero, h0]
  · unfold inverseDynamics
    by_cases hv0 : velocity.size = 0 <;> by_cases hv : velocity.size = s._model.dof_count <;>
      by_cases ha0 : acceleration.size = 0 <;>
      by_cases ha : acceleration.size = s._model.dof_count <;>
      simp_all
  · intro e
    unfold inverseDynamics
    by_cases hv0 : velocity.size = 0 <;> by_cases hv : velocity.size = s._model.dof_count <;>
      by_cases ha0 : acceleration.size = 0 <;>
      by_cases ha : acceleration.size = s._model.dof_count <;>
      simp_all

/-- Witness of C13: on the pendulum the call with two empty vectors equals the
call with two zero vectors, and a velocity `[1, 2]` makes the call fail. -/
theorem inverseDynamics_empty_defaults_witness :
    inverseDynamics Demo.demoApi Demo.pendulumModel ⟨0, fun _ => 0⟩ ⟨0, fun _ => 0⟩
      = inverseDynamics Demo.demoApi Demo.pendulumModel
          (VectorXd.Zero Demo.pendulumModel._model.dof_count)
          (VectorXd.Zero Demo.pendulumModel._model.dof_count) ∧
    ∃ e, (inverseDynamics Demo.demoApi Demo.pendulumModel (VectorXd.ofList [1, 2])
      (VectorXd.ofList [])).1 = .error e :=
  ⟨(inverseDynamics_empty_defaults Demo.demoApi Demo.pendulumModel (VectorXd.ofList [1, 2])
      (VectorXd.ofList []) (fun _ => 0) (fun _ => 0)).1,
   (inverseDynamics_empty_defaults Demo.demoApi Demo.pendulumModel (VectorXd.ofList [1, 2])
      (VectorXd.ofList []) (fun _ => 0) (fun _ => 0)).2.2.2.1.2
      (Or.inl ⟨by decide, by decide⟩)⟩

end Model

/-! ## Virtual chains at load time -/

namespace Model

/-- C14, the code at the failing input: for a model whose body 1 is virtual and
has no child, `create` succeeds and registers one DOF with the empty name;
when the childless virtual body is reached through one virtual body, `create`
fails with a logic error. -/
theorem dangling_virtual_body_registered :
    (∃ s, create Demo.danglingVirtual Demo.noData [] Demo.noData [] = .ok s ∧
      s._dofIndexToName = [""]) ∧
    (∃ msg, create Demo.danglingChain Demo.noData [] Demo.noData []
      = .error (Fault.logic_error msg)) :=
  ⟨⟨_, rfl, rfl⟩, ⟨_, rfl⟩⟩

end Model

/-! ## Fault category of the non-invertible mass matrix -/

namespace Model

open LinearSolver

variable {κ : Type}

/-- C16, amended. When the arguments have DOF length and the offset mass matrix
`H + diag(inertiaOffset)` is not invertible,
`forwardImpulseDynamicsContactsCustom` returns no velocity and fails with the
logic error "RBDLContactLCP non invertible H matrix"; this is no runtime error,
and the fitness function, which catches runtime errors only, lets it through. -/
theorem non_invertible_mass_fault (api : RBDL κ) (s : Model κ) (dt : ℚ) {m : Nat}
    (constraints : ConstraintSet s._model.dof_count m)
    (position velocity torque inertiaOffset : VectorXd) (solver : LinearSolver)
    (hp : position.size = s._model.dof_count) (hv : velocity.size = s._model.dof_count)
    (ht : torque.size = s._model.dof_count) (ho : inertiaOffset.size = s._model.dof_count)
    (hsing : api.colPivHouseholderQr_isInvertible
      ((api.CalcContactSystemVariables s._model position velocity torque constraints).1.H
        + Matrix.diagonal (toVec inertiaOffset s._model.dof_count)) = false) :
    (forwardImpulseDynamicsContactsCustom api s dt constraints position velocity torque
        inertiaOffset solver).1
      = .error (Fault.logic_error "RBDLContactLCP non invertible H matrix") ∧
    (∀ what, (forwardImpulseDynamicsContactsCustom api s dt constraints position velocity
        torque inertiaOffset solver).1 ≠ .error (Fault.runtime_error what)) ∧
    fitness (.error (Fault.logic_error "RBDLContactLCP non invertible H matrix"))
      = .error (Fault.logic_error "RBDLContactLCP non invertible H matrix") := by
  have hH := addInertiaOffset_eq
    (api.CalcContactSystemVariables s._model position velocity torque constraints).1.H
    inertiaOffset ho
  rw [← hH] at hsing
  have h1 : (forwardImpulseDynamicsContactsCustom api s dt constraints position velocity torque
        inertiaOffset solver).1
      = .error (Fault.logic_error "RBDLContactLCP non invertible H matrix") := by
    simp only [forwardImpulseDynamicsContactsCustom, hp, hv, ht, ho, ne_eq, not_true_eq_false,
      if_false, hsing, Bool.not_false, if_true]
  refine ⟨h1, ?_, rfl⟩
  intro what h
  rw [h1] at h
  cases h

/-- Witness of C16: the pendulum with a library whose invertibility test
fails. -/
theorem non_invertible_mass_fault_witness :
    (forwardImpulseDynamicsContactsCustom Demo.singularApi Demo.pendulumModel (1 / 2)
      Demo.contact (VectorXd.ofList [0]) (VectorXd.ofList [3]) (VectorXd.ofList [4])
      (VectorXd.ofList [1]) LinearSolverFullPivLU).1
      = .error (Fault.logic_error "RBDLContactLCP non invertible H matrix") :=
  (non_invertible_mass_fault Demo.singularApi Demo.pendulumModel (1 / 2) Demo.contact
    (VectorXd.ofList [0]) (VectorXd.ofList [3]) (VectorXd.ofList [4]) (VectorXd.ofList [1])
    LinearSolverFullPivLU rfl rfl rfl rfl rfl).1

/-- Counterexample of C16: on the pendulum with a library whose invertibility
test fails, the fault of `forwardImpulseDynamicsContactsCustom` is not of the
runtime category. -/
theorem non_invertible_mass_not_runtime :
    ¬ ∃ what, (forwardImpulseDynamicsContactsCustom Demo.singularApi Demo.pendulumModel 1
      Demo.contact (VectorXd.ofList [0]) (VectorXd.ofList [0]) (VectorXd.ofList [0])
      (VectorXd.ofList [0]) LinearSolverPartialPivLU).1 = .error (Fault.runtime_error what) := by
  rintro ⟨what, h⟩
  have h1 : (forwardImpulseDynamicsContactsCustom Demo.singularApi Demo.pendulumModel 1
      Demo.contact (VectorXd.ofList [0]) (VectorXd.ofList [0]) (VectorXd.ofList [0])
      (VectorXd.ofList [0]) LinearSolverPartialPivLU).1
      = .error (Fault.logic_error "RBDLContactLCP non invertible H matrix") := rfl
  rw [h1] at h
  cases h

end Model

/-! ## Solver selectors -/

namespace Model

open LinearSolver

variable {κ : Type}

/-- C17, amended. With arguments of DOF length (and an invertible offset mass
matrix for the impulse dynamics), `forwardDynamicsCustom` accepts exactly the
six solvers PartialPivLU, ColPivHouseholderQR, HouseholderQR, LLT, FullPivLU and
FullPivHouseholderQR, while `forwardDynamicsContactsCustom`,
`forwardImpulseDynamicsContactsCustom` and `impulseContactsCustom` accept
exactly the five of them other than LLT; every other selector reaches the
fatal default branch. -/
theorem solver_policy (api : RBDL κ) (s : Model κ) (dt : ℚ) {m : Nat}
    (constraints : ConstraintSet s._model.dof_count m)
    (position velocity torque inertiaOffset : VectorXd) (solver : LinearSolver)
    (hp : position.size = s._model.dof_count) (hv : velocity.size = s._model.dof_count)
    (ht : torque.size = s._model.dof_count) (ho : inertiaOffset.size = s._model.dof_count)
    (hinv : api.colPivHouseholderQr_isInvertible
      ((api.CalcContactSystemVariables s._model position velocity torque constraints).1.H
        + Matrix.diagonal (toVec inertiaOffset s._model.dof_count)) = true) :
    ((forwardDynamicsCustom api s position velocity torque inertiaOffset solver).1
        ≠ .error Fault.assertion ↔
      solver ∈ [LinearSolverPartialPivLU, LinearSolverColPivHouseholderQR,
        LinearSolverHouseholderQR, LinearSolverLLT, LinearSolverFullPivLU,
        LinearSolverFullPivHouseholderQR]) ∧
    ((forwardDynamicsContactsCustom api s constraints position velocity torque inertiaOffset
        solver).1 ≠ .error Fault.assertion ↔
      solver ∈ [LinearSolverPartialPivLU, LinearSolverColPivHouseholderQR,
        LinearSolverHouseholderQR, LinearSolverFullPivLU, LinearSolverFullPivHouseholderQR]) ∧
    ((forwardImpulseDynamicsContactsCustom api s dt constraints position velocity torque
        inertiaOffset solver).1 ≠ .error Fault.assertion ↔
      solver ∈ [LinearSolverPartialPivLU, LinearSolverColPivHouseholderQR,
        LinearSolverHouseholderQR, LinearSolverFullPivLU, LinearSolverFullPivHouseholderQR]) ∧
    ((impulseContactsCustom api s constraints position velocity inertiaOffset solver).1
        ≠ .error Fault.assertion ↔
      solver ∈ [LinearSolverPartialPivLU, LinearSolverColPivHouseholderQR,
        LinearSolverHouseholderQR, LinearSolverFullPivLU, LinearSolverFullPivHouseholderQR]) := by
  have hH := addInertiaOffset_eq
    (api.CalcContactSystemVariables s._model position velocity torque constraints).1.H
    inertiaOffset ho
  rw [← hH] at hinv
  refine ⟨?_, ?_, ?_, ?_⟩
  · cases solver <;>
      simp [forwardDynamicsCustom, hp, hv, ht, ho]
  · cases solver <;>
      simp [forwardDynamicsContactsCustom, hp, hv, ht, ho]
  · cases solver <;>
      simp [forwardImpulseDynamicsContactsCustom, hp, hv, ht, ho, hinv]
  · cases solver <;>
      simp [impulseContactsCustom, hp, hv, ho]

/-- Witness of C17: the pendulum with contact, solved with FullPivLU. -/
theorem solver_policy_witness :
    (forwardDynamicsContactsCustom Demo.demoApi Demo.pendulumModel Demo.contact
      (VectorXd.ofList [0]) (VectorXd.ofList [0]) (VectorXd.ofList [4]) (VectorXd.ofList [1])
      LinearSolverFullPivLU).1 ≠ .error Fault.assertion :=
  (solver_policy Demo.demoApi Demo.pendulumModel 1 Demo.contact
    (VectorXd.ofList [0]) (VectorXd.ofList [0]) (VectorXd.ofList [4]) (VectorXd.ofList [1])
    LinearSolverFullPivLU rfl rfl rfl rfl rfl).2.1.2 (by decide)

/-- Counterexample of C17: on the pendulum the selector LLT is accepted by
`forwardDynamicsCustom` and reaches the fatal default branch of the three
contact variants. -/
theorem llt_refused_by_contact_dynamics :
    (∃ acc, (forwardDynamicsCustom Demo.demoApi Demo.pendulumModel
      (VectorXd.ofList [0]) (VectorXd.ofList [0]) (VectorXd.ofList [4]) (VectorXd.ofList [1])
      LinearSolverLLT).1 = .ok acc) ∧
    (forwardDynamicsContactsCustom Demo.demoApi Demo.pendulumModel Demo.contact
      (VectorXd.ofList [0]) (VectorXd.ofList [0]) (VectorXd.ofList [4]) (VectorXd.ofList [1])
      LinearSolverLLT).1 = .error Fault.assertion ∧
    (forwardImpulseDynamicsContactsCustom Demo.demoApi Demo.pendulumModel 1 Demo.contact
      (VectorXd.ofList [0]) (VectorXd.ofList [0]) (VectorXd.ofList [4]) (VectorXd.ofList [1])
      LinearSolverLLT).1 = .error Fault.assertion ∧
    (impulseContactsCustom Demo.demoApi Demo.pendulumModel Demo.contact
      (VectorXd.ofList [0]) (VectorXd.ofList [0]) (VectorXd.ofList [1])
      LinearSolverLLT).1 = .error Fault.assertion :=
  ⟨⟨_, rfl⟩, rfl, rfl, rfl⟩

end Model

/-! ## Joint names -/

/-- Search from the top of a range: the highest position that satisfies the
test is found. -/
theorem find_reverse_range (p : Nat → Bool) (j : Nat) (hj : p j = true) :
    ∀ k, j ≤ k → (∀ i, j < i → i ≤ k → p i = false) →
      ((List.range (k + 1)).reverse).find? p = some j := by
  intro k
  induction k with
  | zero =>
    intro hle _
    have : j = 0 := by omega
    subst this
    have h1 : (List.range 1).reverse = [0] := by decide
    rw [h1, List.find?_cons_of_pos _ hj]
  | succ k ih =>
    intro hle hnone
    rw [List.range_succ, List.reverse_append]
    by_cases hjk : j = k + 1
    · subst hjk
      simp [hj]
    · have hk : p (k + 1) = false := hnone (k + 1) (by omega) (Nat.le_refl _)
      simp only [List.reverse_cons, List.reverse_nil, List.nil_append, List.singleton_append]
      rw [List.find?_cons_of_neg _ (by simp [hk])]
      exact ih (by omega) (fun i h1 h2 => hnone i h1 (by omega))

/-- The position `rfind` returns for a string that ends with the pattern after
which the pattern does not start again. -/
theorem rfind_last (pre pat post : List Char)
    (hlast : ∀ i, 0 < i → i ≤ (pat ++ post).length →
      pat.isPrefixOf ((pat ++ post).drop i) = false) :
    rfind (pre ++ pat ++ post) pat = some pre.length := by
  unfold rfind
  apply find_reverse_range
  · simp [List.append_assoc, List.drop_left]
  · simp [List.append_assoc]
  · intro i h1 h2
    have hi : i = pre.length + (i - pre.length) := by omega
    rw [hi, List.append_assoc, List.drop_append]
    apply hlast
    · omega
    · simp only [List.length_append] at h2 ⊢
      omega

/-- No position is returned by `rfind` when the pattern does not occur. -/
theorem rfind_none (s pat : List Char) (h : ¬ pat <:+: s) : rfind s pat = none := by
  unfold rfind
  rw [List.find?_eq_none]
  intro pos _ hp
  rw [List.isPrefixOf_iff_prefix] at hp
  apply h
  obtain ⟨t, ht⟩ := hp
  refine ⟨s.take pos, t, ?_⟩
  rw [List.append_assoc, ht, List.take_append_drop]

namespace Model

/-- C19, amended. For every string `s`, `filterJointName (s ++ "_link")` is `s`;
a name in which "_link" does not occur is returned unchanged; and
`filterFrameName` is the same function. -/
theorem filterJointName_strips (s name : String) :
    filterJointName (s ++ "_link") = s ∧
    (¬ "_link".data <:+: name.data → filterJointName name = name) ∧
    filterFrameName name = filterJointName name := by
  refine ⟨?_, ?_, rfl⟩
  · unfold filterJointName
    have h := rfind_last s.data "_link".data [] (by
      intro i h1 h2
      simp only [List.append_nil] at h2 ⊢
      have h5 : "_link".data.length = 5 := by decide
      rw [h5] at h2
      have : i = 1 ∨ i = 2 ∨ i = 3 ∨ i = 4 ∨ i = 5 := by omega
      rcases this with rfl | rfl | rfl | rfl | rfl <;> decide)
    simp only [List.append_nil] at h
    rw [String.data_append, h]
    simp
  · intro h
    unfold filterJointName
    rw [rfind_none _ _ h]

/-- Witness of C19: the name "knee_link" and the name "trunk". -/
theorem filterJointName_strips_witness :
    filterJointName ("knee" ++ "_link") = "knee" ∧ filterJointName "trunk" = "trunk" :=
  ⟨(filterJointName_strips "knee" "trunk").1,
   (filterJointName_strips "knee" "trunk").2.1 (by decide)⟩

/-- Counterexample of C19: the name "a_link_b" does not end with "_link" and is
cut to "a". -/
theorem filterJointName_cuts_inner_link :
    ¬ "_link".data <:+ "a_link_b".data ∧ filterJointName "a_link_b" = "a" ∧
      filterJointName "a_link_b" ≠ "a_link_b" := by
  refine ⟨by decide, by decide, by decide⟩

end Model

/-! ## The frame registry -/

namespace StdMap

variable {κ ν : Type} [DecidableEq κ]

/-- An assignment to a key that is not present adds one entry. -/
theorem length_assign (m : StdMap κ ν) (k : κ) (v : ν) (h : find m k = none) :
    (assign m k v).length = m.length + 1 := by
  induction m with
  | nil => simp [assign]
  | cons e rest ih =>
    obtain ⟨k0, v0⟩ := e
    by_cases h0 : k0 = k
    · simp [find, h0] at h
    · simp only [find, h0, if_false] at h
      simp [assign, h0, ih h]

end StdMap

namespace Model

variable {κ : Type}

/-- One registration of a frame keeps the frame registry consistent. -/
theorem frame_step {s s' : Model κ} {names : List String} (n : String) (id : Nat)
    (inv : FrameInv s names)
    (h1 : s'._frameIndexToName = StdMap.assign s._frameIndexToName names.length n)
    (h2 : s'._frameNameToIndex = StdMap.assign s._frameNameToIndex n names.length)
    (h3 : s'._frameIndexToId = StdMap.assign s._frameIndexToId names.length id) :
    FrameInv s' (names ++ [n]) := by
  have hnone : StdMap.find s._frameIndexToName names.length = none := by
    rw [inv.name]; simp
  refine ⟨?_, ?_, ?_, ?_, ?_⟩
  · rw [h1, StdMap.length_assign _ _ _ hnone, inv.size]; simp
  · intro i
    rw [h1, StdMap.find_assign]
    by_cases hi : names.length = i
    · subst hi; simp
    · rw [if_neg hi, inv.name]
      by_cases hlt : i < names.length
      · rw [List.getElem?_append_left hlt]
      · rw [List.getElem?_eq_none (by omega), List.getElem?_eq_none (by simp; omega)]
  · intro i
    rw [h3, StdMap.find_assign]
    by_cases hi : names.length = i
    · subst hi; simp
    · rw [if_neg hi, ← inv.id]
      simp only [List.length_append, List.length_singleton]
      omega
  · intro n' i h
    rw [h2, StdMap.find_assign] at h
    by_cases hn : n = n'
    · subst hn
      simp only [if_true, Option.some.injEq] at h
      subst h
      simp
    · rw [if_neg hn] at h
      have := inv.index n' i h
      have hlt : i < names.length := by
        by_contra hge
        rw [List.getElem?_eq_none (by omega)] at this
        cases this
      rw [List.getElem?_append_left hlt]
      exact this
  · intro hnd i n' h
    rw [List.nodup_append] at hnd
    obtain ⟨hnd1, -, hdisj⟩ := hnd
    rw [h2, StdMap.find_assign]
    by_cases hlt : i < names.length
    · rw [List.getElem?_append_left hlt] at h
      have hmem : n' ∈ names := List.getElem?_mem h
      have hn : ¬ n = n' := by
        intro e
        subst e
        exact hdisj hmem (by simp)
      rw [if_neg hn]
      exact inv.distinct hnd1 i n' h
    · by_cases hi : i = names.length
      · subst hi
        simp at h
        subst h
        simp
      · rw [List.getElem?_eq_none (by simp; omega)] at h
        cases h

/-- The second loop of `initializeModel` keeps the frame registry consistent,
registers the filtered names in order, and maps no index to the body
identifier 0. -/
theorem frameLoop_inv (l : List (String × Nat)) :
    ∀ (index : Nat) (s : Model κ) (names : List String),
      FrameInv s names → index = names.length →
      (∀ i id, StdMap.find s._frameIndexToId i = some id → id ≠ 0) →
      FrameInv (frameLoop l index s).1 (names ++ frameNames l) ∧
      (frameLoop l index s).2 = (names ++ frameNames l).length ∧
      (∀ i id, StdMap.find (frameLoop l index s).1._frameIndexToId i = some id → id ≠ 0) := by
  induction l with
  | nil =>
    intro index s names inv hi hz
    simpa [frameLoop, frameNames] using ⟨inv, hi, hz⟩
  | cons e rest ih =>
    intro index s names inv hi hz
    obtain ⟨name, id⟩ := e
    by_cases h0 : id = 0
    · subst h0
      have hn : frameNames ((name, 0) :: rest) = frameNames rest := by
        simp [frameNames]
      simp only [frameLoop, if_true]
      rw [hn]
      exact ih index s names inv hi hz
    · have hn : names ++ frameNames ((name, id) :: rest)
          = (names ++ [filterFrameName name]) ++ frameNames rest := by
        simp [frameNames, h0]
      simp only [frameLoop, h0, if_false]
      rw [hn]
      subst hi
      refine ih _ _ _ (frame_step (filterFrameName name) id inv rfl rfl rfl) (by simp) ?_
      intro i id' h
      simp only at h
      rw [StdMap.find_assign] at h
      by_cases hi : names.length = i
      · simp only [hi, if_true, Option.some.injEq] at h
        rw [← h]; exact h0
      · rw [if_neg hi] at h
        exact hz i id' h

/-- The first loop of `initializeModel` leaves the frame registry empty and
the library model in place. -/
theorem dofLoop_frames (fuel i : Nat) (s s' : Model κ)
    (h : dofLoop fuel i s = .ok s')
    (h0 : s._frameIndexToName = [] ∧ s._frameNameToIndex = [] ∧ s._frameIndexToId = []) :
    (s'._frameIndexToName = [] ∧ s'._frameNameToIndex = [] ∧ s'._frameIndexToId = []) ∧
      s'._model = s._model := by
  have := dofLoop_preserves
    (fun t : Model κ => (t._frameIndexToName = [] ∧ t._frameNameToIndex = [] ∧
      t._frameIndexToId = []) ∧ t._model = s._model)
    (by
      intro t name t' ht h
      unfold addDOF at h
      split at h
      · cases h
      · cases h
        exact ht)
    fuel i s s' ⟨h0, rfl⟩ h
  exact this

/-- The frame registry of a constructed model: consistent with the registered
names followed by `origin`, and only the last index is mapped to the body
identifier 0. -/
theorem create_frames {model : RBDLModel κ} {iD gD : MatrixXd}
    {iN gN : StdMap String Nat} {s : Model κ}
    (h : create model iD iN gD gN = .ok s) :
    FrameInv s (frameNames model.mBodyNameMap ++ ["origin"]) ∧
    StdMap.find s._frameNameToIndex "origin" = some (frameNames model.mBodyNameMap).length ∧
    (∀ i, StdMap.find s._frameIndexToId i = some 0 ↔
      i = (frameNames model.mBodyNameMap).length) := by
  unfold create initializeModel at h
  simp only at h
  split at h
  · cases h
  · rename_i s1 h1
    obtain ⟨hf, hm⟩ := dofLoop_frames _ _ _ _ h1 ⟨rfl, rfl, rfl⟩
    simp only at hm
    have inv0 : FrameInv s1 [] := by
      refine ⟨by simp [hf.1], by simp [hf.1, StdMap.find], by simp [hf.2.2, StdMap.find],
        by simp [hf.2.1, StdMap.find], by simp⟩
    obtain ⟨inv, hidx, hz⟩ := frameLoop_inv s1._model.mBodyNameMap 0 s1 [] inv0 rfl
      (by simp [hf.2.2, StdMap.find])
    rw [hm] at inv hidx hz
    simp only [List.nil_append] at inv hidx hz
    cases h
    simp only
    rw [hm, hidx]
    refine ⟨frame_step "origin" 0 inv rfl rfl rfl, ?_, ?_⟩
    · rw [StdMap.find_assign]; simp
    · intro i
      rw [StdMap.find_assign]
      by_cases hi : (frameNames model.mBodyNameMap).length = i
      · simp [hi]
      · rw [if_neg hi]
        constructor
        · intro h0
          exact absurd rfl (hz i 0 h0)
        · intro e
          exact absurd e.symm hi

/-- The call `getFrameIndex` read on the map. -/
theorem getFrameIndex_iff (s : Model κ) (n : String) (i : Nat) :
    getFrameIndex s n = .ok i ↔ StdMap.find s._frameNameToIndex n = some i := by
  unfold getFrameIndex StdMap.atKey
  cases hf : StdMap.find s._frameNameToIndex n with
  | none => simp
  | some j => simp

/-- The call `getFrameName` read on the map. -/
theorem getFrameName_iff (s : Model κ) (n : String) (i : Nat) :
    getFrameName s i = .ok n ↔ StdMap.find s._frameIndexToName i = some n := by
  unfold getFrameName StdMap.atKey
  cases hf : StdMap.find s._frameIndexToName i with
  | none => simp
  | some j => simp

/-- The call `frameIndexToBodyId` read on the map. -/
theorem frameIndexToBodyId_iff (s : Model κ) (i id : Nat) :
    frameIndexToBodyId s i = .ok id ↔ StdMap.find s._frameIndexToId i = some id := by
  unfold frameIndexToBodyId StdMap.atKey
  cases hf : StdMap.find s._frameIndexToId i with
  | none => simp
  | some j => simp

/-- C15, amended. In a model built by the constructor the frames are the
filtered names of the named bodies with a non-zero identifier, followed by the
synthetic frame `origin`: every index below `sizeFrame` has a name and a body
identifier, every name that has an index is the name registered at that index,
`origin` has the last index, and an index is mapped to the body identifier 0 if
and only if it is the last one. When the registered names are pairwise distinct
and differ from `origin`, the index of the name of every index below
`sizeFrame` is that index. -/
theorem frame_registry (model : RBDLModel κ) (inertiaData geometryData : MatrixXd)
    (inertiaName geometryName : StdMap String Nat) (s : Model κ)
    (h : create model inertiaData inertiaName geometryData geometryName = .ok s) :
    sizeFrame s = (frameNames model.mBodyNameMap).length + 1 ∧
    (∀ i, i < sizeFrame s →
      ∃ n id, getFrameName s i = .ok n ∧ frameIndexToBodyId s i = .ok id) ∧
    (∀ n i, getFrameIndex s n = .ok i → i < sizeFrame s ∧ getFrameName s i = .ok n) ∧
    (getFrameIndex s "origin" = .ok (sizeFrame s - 1) ∧
      getFrameName s (sizeFrame s - 1) = .ok "origin" ∧
      frameIndexToBodyId s (sizeFrame s - 1) = .ok 0) ∧
    (∀ i, frameIndexToBodyId s i = .ok 0 ↔ i = sizeFrame s - 1) ∧
    ((frameNames model.mBodyNameMap ++ ["origin"]).Nodup →
      ∀ i, i < sizeFrame s → ∃ n, getFrameName s i = .ok n ∧ getFrameIndex s n = .ok i) := by
  obtain ⟨inv, horigin, hzero⟩ := create_frames h
  have hsize : sizeFrame s = (frameNames model.mBodyNameMap).length + 1 := by
    unfold sizeFrame; rw [inv.size]; simp
  have hlast : sizeFrame s - 1 = (frameNames model.mBodyNameMap).length := by omega
  have hlen : (frameNames model.mBodyNameMap ++ ["origin"]).length = sizeFrame s := by
    rw [hsize]; simp
  refine ⟨hsize, ?_, ?_, ⟨?_, ?_, ?_⟩, ?_, ?_⟩
  · intro i hi
    obtain ⟨id, hid⟩ := (inv.id i).1 (by omega)
    refine ⟨(frameNames model.mBodyNameMap ++ ["origin"])[i], id, ?_, ?_⟩
    · rw [getFrameName_iff, inv.name]; exact List.getElem?_eq_getElem (by omega)
    · rw [frameIndexToBodyId_iff]; exact hid
  · intro n i hn
    rw [getFrameIndex_iff] at hn
    have := inv.index n i hn
    refine ⟨?_, ?_⟩
    · by_contra hge
      rw [List.getElem?_eq_none (by omega)] at this
      cases this
    · rw [getFrameName_iff, inv.name]; exact this
  · rw [getFrameIndex_iff, hlast]; exact horigin
  · rw [getFrameName_iff, inv.name, hlast]; simp
  · rw [frameIndexToBodyId_iff, hlast]; exact (hzero _).2 rfl
  · intro i
    rw [frameIndexToBodyId_iff, hlast]; exact hzero i
  · intro hnd i hi
    refine ⟨(frameNames model.mBodyNameMap ++ ["origin"])[i], ?_, ?_⟩
    · rw [getFrameName_iff, inv.name]; exact List.getElem?_eq_getElem (by omega)
    · rw [getFrameIndex_iff]
      exact inv.distinct hnd i _ (List.getElem?_eq_getElem (by omega))

/-- Witness of C15: the planar arm, whose frames `j1`, `j2`, `origin` are
pairwise distinct; the index of the name of index 1 is 1. -/
theorem frame_registry_witness :
    create Demo.planarArm Demo.noData [] Demo.noData [] = .ok Demo.planarArmModel ∧
    (frameNames Demo.planarArm.mBodyNameMap ++ ["origin"]).Nodup ∧
    ∃ n, getFrameName Demo.planarArmModel 1 = .ok n ∧
      getFrameIndex Demo.planarArmModel n = .ok 1 :=
  ⟨rfl, by decide,
    (frame_registry Demo.planarArm Demo.noData Demo.noData [] [] Demo.planarArmModel rfl).2.2.2.2.2
      (by decide) 1 (by decide)⟩

/-- Counterexample of C15: the constructor builds a model for the body named
`origin_link`; its frame of index 0 is named `origin`, and the index of that
name is 1. -/
theorem frame_registry_origin_collision :
    ∃ s, create Demo.originLink Demo.noData [] Demo.noData [] = .ok s ∧
      0 < sizeFrame s ∧ getFrameName s 0 = .ok "origin" ∧
      getFrameIndex s "origin" = .ok 1 :=
  ⟨_, rfl, by decide, rfl, rfl⟩

end Model

/-! ## The auto-update flag -/

namespace Model

variable {κ : Type}

/-- Caching what is cached changes nothing. -/
theorem withKinematics_self (s : Model κ) : withKinematics s s._model.kinematics = s := rfl

/-- With auto-update disabled, `position` leaves the model as it is. -/
theorem position_off (api : RBDL κ) (s : Model κ)
    (hoff : s._isAutoUpdate = false) (hk : KeepsCacheWhenOff api)
    (src dst srcId dstId : Nat) (point : Vec 3)
    (hsrc : frameIndexToBodyId s src = .ok srcId)
    (hdst : frameIndexToBodyId s dst = .ok dstId) :
    ∃ r, position api s src dst point = .ok (r, s) := by
  unfold frameIndexToBodyId at hsrc hdst
  unfold position
  by_cases h : src = dst
  · exact ⟨point, by simp [h]⟩
  · by_cases h1 : srcId = 0 <;> by_cases h2 : dstId = 0 <;>
      simp [h, hsrc, hdst, hoff, h1, h2, hk.1, hk.2.1, withKinematics_self]

/-- With auto-update disabled, `orientation` leaves the model as it is. -/
theorem orientation_off (api : RBDL κ) (s : Model κ)
    (hoff : s._isAutoUpdate = false) (hk : KeepsCacheWhenOff api)
    (src dst srcId dstId : Nat)
    (hsrc : frameIndexToBodyId s src = .ok srcId)
    (hdst : frameIndexToBodyId s dst = .ok dstId) :
    ∃ r, orientation api s src dst = .ok (r, s) := by
  unfold frameIndexToBodyId at hsrc hdst
  unfold orientation
  simp [hsrc, hdst, hoff, hk.2.2.1, withKinematics_self]

/-- With auto-update disabled, the name overload of `orientation` leaves the
model as it is. -/
theorem orientationByName_off (api : RBDL κ) (s : Model κ)
    (hoff : s._isAutoUpdate = false) (hk : KeepsCacheWhenOff api)
    (srcFrame dstFrame : String) (src dst srcId dstId : Nat)
    (hsrcFrame : getFrameIndex s srcFrame = .ok src)
    (hdstFrame : getFrameIndex s dstFrame = .ok dst)
    (hsrc : frameIndexToBodyId s src = .ok srcId)
    (hdst : frameIndexToBodyId s dst = .ok dstId) :
    ∃ r, orientationByName api s srcFrame dstFrame = .ok (r, s) := by
  unfold orientationByName
  simp only [hsrcFrame, hdstFrame]
  exact orientation_off api s hoff hk src dst srcId dstId hsrc hdst

/-- C18, amended. With auto-update disabled and library routines that leave the
cache as it is when called with the update flag off, the queries `position`,
`orientation`, `orientationYaw` and `centerOfMass` between registered frames
return a result and leave the model, cached transforms included, as it is: they
pass the auto-update flag of the model to the routines they call. The queries
`pointVelocity` and `pointAcceleration` return a result and leave in the model
the cache computed by their point routine called with the update flag `true`,
whatever the auto-update flag. -/
theorem queries_respect_auto_update (api : RBDL κ) (s : Model κ)
    (hoff : s._isAutoUpdate = false) (hk : KeepsCacheWhenOff api)
    (pointFrame dstFrame : String) (src dst origin point srcId dstId originId pointId : Nat)
    (p : Vec 3) (velocity acceleration : VectorXd)
    (hsrc : frameIndexToBodyId s src = .ok srcId)
    (hdst : frameIndexToBodyId s dst = .ok dstId)
    (horigin : getFrameIndex s "origin" = .ok origin)
    (horiginId : frameIndexToBodyId s origin = .ok originId)
    (hdstFrame : getFrameIndex s dstFrame = .ok dst)
    (hpointFrame : getFrameIndex s pointFrame = .ok point)
    (hpoint : frameIndexToBodyId s point = .ok pointId) :
    (∃ r, position api s src dst p = .ok (r, s)) ∧
    (∃ r, orientation api s src dst = .ok (r, s)) ∧
    (∃ r, orientationYaw api s src dst = .ok (r, s)) ∧
    (∃ r, centerOfMass api s dst = .ok (r, s)) ∧
    (∃ r, pointVelocity api s pointFrame dstFrame velocity p
      = .ok (r, withKinematics s
          (api.CalcPointVelocity6D s._model s._dofs velocity pointId p true).2)) ∧
    (∃ r, pointAcceleration api s pointFrame dstFrame velocity acceleration p
      = .ok (r, withKinematics s
          (api.CalcPointAcceleration6D s._model s._dofs velocity acceleration pointId p
            true).2)) := by
  refine ⟨position_off api s hoff hk src dst srcId dstId p hsrc hdst,
    orientation_off api s hoff hk src dst srcId dstId hsrc hdst, ?_, ?_, ?_, ?_⟩
  · obtain ⟨r, hr⟩ := orientation_off api s hoff hk src dst srcId dstId hsrc hdst
    unfold orientationYaw
    rw [hr]
    exact ⟨_, rfl⟩
  · unfold centerOfMass
    simp only [hoff, hk.2.2.2, withKinematics_self, horigin]
    exact position_off api s hoff hk origin dst originId dstId _ horiginId hdst
  · obtain ⟨r, hr⟩ := orientationByName_off api
      (withKinematics s (api.CalcPointVelocity6D s._model s._dofs velocity pointId p true).2)
      hoff hk "origin" dstFrame origin dst originId dstId horigin hdstFrame horiginId hdst
    unfold frameIndexToBodyId at hpoint
    unfold pointVelocity
    simp only [hpointFrame, hpoint, hr]
    exact ⟨_, rfl⟩
  · obtain ⟨r, hr⟩ := orientationByName_off api
      (withKinematics s
        (api.CalcPointAcceleration6D s._model s._dofs velocity acceleration pointId p true).2)
      hoff hk "origin" dstFrame origin dst originId dstId horigin hdstFrame horiginId hdst
    unfold frameIndexToBodyId at hpoint
    unfold pointAcceleration
    simp only [hpointFrame, hpoint, hr]
    exact ⟨_, rfl⟩

/-- The counting routines leave the count as it is when called with the update
flag off. -/
theorem countingApi_keeps : KeepsCacheWhenOff Demo.countingApi :=
  ⟨fun _ _ _ _ => rfl, fun _ _ _ _ => rfl, fun _ _ _ => rfl, fun _ _ _ => rfl⟩

/-- Witness of C18: the pendulum with auto-update disabled and the counting
routines; `position` from `j1` to `origin` leaves the model as it is, and
`pointVelocity` leaves the count of its point routine. -/
theorem queries_respect_auto_update_witness :
    (∃ r, position Demo.countingApi Demo.frozenPendulumModel 0 1 0
      = .ok (r, Demo.frozenPendulumModel)) ∧
    (∃ r, pointVelocity Demo.countingApi Demo.frozenPendulumModel "j1" "origin"
        (VectorXd.ofList [0]) 0
      = .ok (r, withKinematics Demo.frozenPendulumModel 1)) :=
  ⟨(queries_respect_auto_update Demo.countingApi Demo.frozenPendulumModel rfl
      countingApi_keeps "j1" "origin" 0 1 1 0 1 0 0 1 0 (VectorXd.ofList [0])
      (VectorXd.ofList [0]) rfl rfl rfl rfl rfl rfl rfl).1,
   (queries_respect_auto_update Demo.countingApi Demo.frozenPendulumModel rfl
      countingApi_keeps "j1" "origin" 0 1 1 0 1 0 0 1 0 (VectorXd.ofList [0])
      (VectorXd.ofList [0]) rfl rfl rfl rfl rfl rfl rfl).2.2.2.2.1⟩

/-- Counterexample of C18: on the pendulum with auto-update disabled and
library routines that count the recomputations of the cached transforms,
`position`, `orientation`, `orientationYaw` and `centerOfMass` leave the count
at 0, while `pointJacobian`, `pointVelocity` and `pointAcceleration` leave it
at 1: their point routine is called with the update flag `true`. -/
theorem point_queries_force_update :
    Demo.frozenPendulumModel._isAutoUpdate = false ∧
    (∃ r s', position Demo.countingApi Demo.frozenPendulumModel 0 1 0 = .ok (r, s') ∧
      s'._model.kinematics = 0) ∧
    (∃ r s', orientation Demo.countingApi Demo.frozenPendulumModel 0 1 = .ok (r, s') ∧
      s'._model.kinematics = 0) ∧
    (∃ r s', orientationYaw Demo.countingApi Demo.frozenPendulumModel 0 1 = .ok (r, s') ∧
      s'._model.kinematics = 0) ∧
    (∃ r s', centerOfMass Demo.countingApi Demo.frozenPendulumModel 0 = .ok (r, s') ∧
      s'._model.kinematics = 0) ∧
    (∃ r s', pointJacobian Demo.countingApi Demo.frozenPendulumModel "j1" "origin" 0
        = .ok (r, s') ∧ s'._model.kinematics = 1) ∧
    (∃ r s', pointVelocity Demo.countingApi Demo.frozenPendulumModel "j1" "origin"
        (VectorXd.ofList [0]) 0 = .ok (r, s') ∧ s'._model.kinematics = 1) ∧
    (∃ r s', pointAcceleration Demo.countingApi Demo.frozenPendulumModel "j1" "origin"
        (VectorXd.ofList [0]) (VectorXd.ofList [0]) 0 = .ok (r, s') ∧
      s'._model.kinematics = 1) :=
  ⟨rfl, ⟨_, _, rfl, rfl⟩, ⟨_, _, rfl, rfl⟩, ⟨_, _, rfl, rfl⟩, ⟨_, _, rfl, rfl⟩,
    ⟨_, _, rfl, rfl⟩, ⟨_, _, rfl, rfl⟩, ⟨_, _, rfl, rfl⟩⟩

end Model

/-! ## The floating-base foot state machine -/

namespace SigmabanFloatingModel

variable {σ : Type}

/-- The support foot after a tick is the decided one. -/
theorem putOnGround_supportFoot (k : FloatingBase σ) (s : SigmabanFloatingModel σ)
    (decision : SupportFoot) : (putOnGround k s decision)._supportFoot = decision := by
  unfold putOnGround putSupportFootOrigin putSupportFootFlat findSupportFoot
  by_cases h : decision = s._supportFoot <;> simp [h]

/-- The anchor after a tick is the one `findSupportFoot` records. -/
theorem putOnGround_anchor (k : FloatingBase σ) (s : SigmabanFloatingModel σ)
    (decision : SupportFoot) :
    (putOnGround k s decision).anchor = (findSupportFoot k s decision).anchor := rfl

/-- After a tick the support foot is at the anchor, flat. -/
theorem putOnGround_pose (k : FloatingBase σ) (hk : Anchoring k)
    (s : SigmabanFloatingModel σ) (decision : SupportFoot) :
    k.footPose (putOnGround k s decision)._dofs decision
      = ⟨(putOnGround k s decision)._statePosX, (putOnGround k s decision)._statePosY,
          (putOnGround k s decision)._stateRotYaw, 0, 0⟩ := by
  have hs : (findSupportFoot k s decision)._supportFoot = decision := by
    unfold findSupportFoot
    by_cases h : decision = s._supportFoot <;> simp [h]
  obtain ⟨hflat, hpin⟩ := hk
  have h1 := hpin (k.layFlat (findSupportFoot k s decision)._dofs decision) decision
    (findSupportFoot k s decision)._statePosX (findSupportFoot k s decision)._statePosY
    (findSupportFoot k s decision)._stateRotYaw
  have h2 := hflat (findSupportFoot k s decision)._dofs decision
  simp only [putOnGround, putSupportFootOrigin, putSupportFootFlat, hs]
  generalize k.footPose (k.pin (k.layFlat (findSupportFoot k s decision)._dofs decision)
    decision (findSupportFoot k s decision)._statePosX
    (findSupportFoot k s decision)._statePosY
    (findSupportFoot k s decision)._stateRotYaw) decision = pose at h1 ⊢
  obtain ⟨x, y, yaw, roll, pitch⟩ := pose
  simp only [FootPose.planar, Prod.mk.injEq] at h1
  obtain ⟨⟨hx, hy, hyaw⟩, hroll, hpitch⟩ := h1
  rw [hx, hy, hyaw, hroll, hpitch, h2.1, h2.2]

/-- Ticks that keep the support foot keep the anchor and the support foot. -/
theorem ticks_same (k : FloatingBase σ) (decisions : List SupportFoot) :
    ∀ s : SigmabanFloatingModel σ, (∀ d ∈ decisions, d = s._supportFoot) →
      (ticks k s decisions)._supportFoot = s._supportFoot ∧
      (ticks k s decisions).anchor = s.anchor ∧
      (decisions ≠ [] → ∃ s0 : SigmabanFloatingModel σ,
        ticks k s decisions = putOnGround k s0 s._supportFoot) := by
  induction decisions with
  | nil => intro s _; simp [ticks]
  | cons d rest ih =>
    intro s hd
    have hd0 : d = s._supportFoot := hd d (by simp)
    subst hd0
    have hfind : findSupportFoot k s s._supportFoot = s := by
      simp [findSupportFoot]
    have hsup : (putOnGround k s s._supportFoot)._supportFoot = s._supportFoot :=
      putOnGround_supportFoot k s _
    have hanc : (putOnGround k s s._supportFoot).anchor = s.anchor := by
      rw [putOnGround_anchor, hfind]
    obtain ⟨i1, i2, i3⟩ := ih (putOnGround k s s._supportFoot) (by
      intro d' hd'
      rw [hsup]
      exact hd d' (by simp [hd']))
    have hticks : ticks k s (s._supportFoot :: rest)
        = ticks k (putOnGround k s s._supportFoot) rest := rfl
    rw [hticks]
    refine ⟨i1.trans hsup, i2.trans hanc, ?_⟩
    intro _
    by_cases hrest : rest = []
    · subst hrest
      exact ⟨s, rfl⟩
    · obtain ⟨s0, hs0⟩ := i3 hrest
      rw [hsup] at hs0
      exact ⟨s0, hs0⟩

/-- C20. Support-foot anchor continuity, for the state machine modelled from
the spec over a model underneath whose base rewritings lay the foot flat and
pin it. A tick whose decided support foot differs from the current one records
as anchor the planar position and yaw the new support foot had before the
tick; a tick that keeps the support foot keeps the anchor; and after the tick,
and after every further tick of a sequence that keeps that support foot, the
support foot is the decided one, the anchor is the one of the first tick, and
the support foot has the planar position and yaw of the anchor with zero roll
and pitch. -/
theorem support_foot_anchor_continuity (k : FloatingBase σ) (hk : Anchoring k)
    (s : SigmabanFloatingModel σ) (decision : SupportFoot) (rest : List SupportFoot)
    (hrest : ∀ d ∈ rest, d = decision) :
    (decision ≠ s._supportFoot →
      (putOnGround k s decision).anchor = (k.footPose s._dofs decision).planar) ∧
    (decision = s._supportFoot → (putOnGround k s decision).anchor = s.anchor) ∧
    (ticks k (putOnGround k s decision) rest)._supportFoot = decision ∧
    (ticks k (putOnGround k s decision) rest).anchor = (putOnGround k s decision).anchor ∧
    k.footPose (ticks k (putOnGround k s decision) rest)._dofs decision
      = ⟨(putOnGround k s decision)._statePosX, (putOnGround k s decision)._statePosY,
          (putOnGround k s decision)._stateRotYaw, 0, 0⟩ := by
  have hsup := putOnGround_supportFoot k s decision
  obtain ⟨t1, t2, t3⟩ := ticks_same k rest (putOnGround k s decision) (by
    intro d hd
    rw [hsup]
    exact hrest d hd)
  refine ⟨?_, ?_, t1.trans hsup, t2, ?_⟩
  · intro h
    rw [putOnGround_anchor]
    simp [findSupportFoot, h, anchor, FootPose.planar]
  · intro h
    rw [putOnGround_anchor]
    simp [findSupportFoot, h]
  · by_cases hr : rest = []
    · subst hr
      exact putOnGround_pose k hk s decision
    · obtain ⟨s0, hs0⟩ := t3 hr
      rw [hsup] at hs0
      have hp := putOnGround_pose k hk s0 decision
      rw [← hs0] at hp
      rw [hp]
      have ha : (ticks k (putOnGround k s decision) rest).anchor
          = (putOnGround k s decision).anchor := t2
      simp only [anchor, Prod.mk.injEq] at ha
      rw [ha.1, ha.2.1, ha.2.2]

/-- The example model underneath lays flat and pins. -/
theorem feet_anchoring : Anchoring Demo.feet := by
  refine ⟨?_, ?_⟩
  · intro q foot
    simp [Demo.feet]
  · intro q foot x y yaw
    simp [Demo.feet, FootPose.planar]

/-- Witness of C20: the robot standing on its left foot switches to the right
foot, which is at `(1, 2)` with yaw 3, and keeps it for two more ticks: the
anchor is `(1, 2, 3)` and the right foot lies flat at it. -/
theorem support_foot_anchor_continuity_witness :
    (putOnGround Demo.feet Demo.standing SupportFoot.RightSupportFoot).anchor = (1, 2, 3) ∧
    Demo.feet.footPose
      (ticks Demo.feet (putOnGround Demo.feet Demo.standing SupportFoot.RightSupportFoot)
        [SupportFoot.RightSupportFoot, SupportFoot.RightSupportFoot])._dofs
      SupportFoot.RightSupportFoot = ⟨1, 2, 3, 0, 0⟩ :=
  ⟨(support_foot_anchor_continuity Demo.feet feet_anchoring Demo.standing
      SupportFoot.RightSupportFoot
      [SupportFoot.RightSupportFoot, SupportFoot.RightSupportFoot] (by decide)).1 (by decide),
   (support_foot_anchor_continuity Demo.feet feet_anchoring Demo.standing
      SupportFoot.RightSupportFoot
      [SupportFoot.RightSupportFoot, SupportFoot.RightSupportFoot] (by decide)).2.2.2.2⟩

end SigmabanFloatingModel

namespace StdMap

variable {κ ν : Type} [DecidableEq κ]

/-- Lookup after a removal. -/
theorem find_erase (m : StdMap κ ν) (k k' : κ) :
    find (erase m k) k' = if k = k' then none else find m k' := by
  induction m with
  | nil => simp [erase, find]
  | cons e rest ih =>
    obtain ⟨k0, v0⟩ := e
    have ih' : find (List.filter (fun e : κ × ν => !decide (e.1 = k)) rest) k'
        = if k = k' then none else find rest k' := by
      simpa [erase] using ih
    by_cases h0 : k0 = k
    · subst h0
      by_cases h1 : k0 = k'
      · simp [erase, find, h1, List.filter_cons] at ih' ⊢
        exact ih'
      · simp [erase, find, h1, List.filter_cons, ih']
    · by_cases h1 : k0 = k'
      · subst h1
        have : ¬ k = k0 := fun h => h0 h.symm
        simp [erase, find, h0, this, List.filter_cons]
      · simp [erase, find, h0, h1, List.filter_cons, ih']

/-- A key is absent exactly when no entry has it. -/
theorem find_eq_none_iff (m : StdMap κ ν) (k : κ) :
    find m k = none ↔ k ∉ m.map Prod.fst := by
  induction m with
  | nil => simp [find]
  | cons e rest ih =>
    obtain ⟨k0, v0⟩ := e
    by_cases h0 : k0 = k
    · simp [find, h0]
    · have : ¬ k = k0 := fun h => h0 h.symm
      simp [find, h0, ih, this]

/-- The value found is the value of an entry. -/
theorem mem_of_find (m : StdMap κ ν) (k : κ) (v : ν) (h : find m k = some v) :
    (k, v) ∈ m := by
  induction m with
  | nil => simp [find] at h
  | cons e rest ih =>
    obtain ⟨k0, v0⟩ := e
    by_cases h0 : k0 = k
    · simp [find, h0] at h
      simp [h0, h]
    · simp only [find, h0, if_false] at h
      exact List.mem_cons_of_mem _ (ih h)

/-- In a map each entry is found at its key. -/
theorem find_of_mem (m : StdMap κ ν) (hm : (m.map Prod.fst).Nodup) (k : κ) (v : ν)
    (h : (k, v) ∈ m) : find m k = some v := by
  induction m with
  | nil => simp at h
  | cons e rest ih =>
    obtain ⟨k0, v0⟩ := e
    simp only [List.map_cons, List.nodup_cons] at hm
    rcases List.mem_cons.1 h with h1 | h1
    · cases h1
      simp [find]
    · have : ¬ k0 = k := by
        intro e
        subst e
        exact hm.1 (List.mem_map_of_mem Prod.fst h1)
      simp only [find, this, if_false]
      exact ih hm.2 h1

/-- Assignment to an absent key appends the entry. -/
theorem assign_fresh (m : StdMap κ ν) (k : κ) (v : ν) (h : k ∉ m.map Prod.fst) :
    assign m k v = m ++ [(k, v)] := by
  induction m with
  | nil => simp [assign]
  | cons e rest ih =>
    obtain ⟨k0, v0⟩ := e
    simp only [List.map_cons, List.mem_cons, not_or] at h
    have : ¬ k0 = k := fun e => h.1 e.symm
    simp [assign, this, ih h.2]

/-- Assignment to the key of the last entry, which no earlier entry has. -/
theorem assign_last (m : StdMap κ ν) (k : κ) (v v' : ν) (h : k ∉ m.map Prod.fst) :
    assign (m ++ [(k, v)]) k v' = m ++ [(k, v')] := by
  induction m with
  | nil => simp [assign]
  | cons e rest ih =>
    obtain ⟨k0, v0⟩ := e
    simp only [List.map_cons, List.mem_cons, not_or] at h
    have : ¬ k0 = k := fun e => h.1 e.symm
    simp [assign, this, ih h.2]

/-- Lookup of the key of the last entry, which no earlier entry has. -/
theorem find_last (m : StdMap κ ν) (k : κ) (v : ν) (h : k ∉ m.map Prod.fst) :
    find (m ++ [(k, v)]) k = some v := by
  induction m with
  | nil => simp [find]
  | cons e rest ih =>
    obtain ⟨k0, v0⟩ := e
    simp only [List.map_cons, List.mem_cons, not_or] at h
    have : ¬ k0 = k := fun e => h.1 e.symm
    simp [find, this, ih h.2]

/-- Removal of the key of the last entry, which no earlier entry has. -/
theorem erase_last (m : StdMap κ ν) (k : κ) (v : ν) (h : k ∉ m.map Prod.fst) :
    erase (m ++ [(k, v)]) k = m := by
  unfold erase
  rw [List.filter_append]
  have h1 : List.filter (fun e : κ × ν => decide (¬ e.1 = k)) m = m := by
    rw [List.filter_eq_self]
    intro e he
    have : e.1 ∈ m.map Prod.fst := List.mem_map_of_mem Prod.fst he
    simp only [decide_not, Bool.not_eq_true', decide_eq_false_iff_not]
    intro e'
    exact h (e' ▸ this)
  rw [h1]
  simp

/-- Assignment to a present key keeps the keys. -/
theorem keys_assign (m : StdMap κ ν) (k : κ) (v : ν) (h : k ∈ m.map Prod.fst) :
    (assign m k v).map Prod.fst = m.map Prod.fst := by
  induction m with
  | nil => simp at h
  | cons e rest ih =>
    obtain ⟨k0, v0⟩ := e
    by_cases h0 : k0 = k
    · simp [assign, h0]
    · have h2 : k ∈ rest.map Prod.fst := by
        simp only [List.map_cons, List.mem_cons] at h
        rcases h with h | h
        · exact absurd h.symm h0
        · exact h
      simp [assign, h0, ih h2]

/-- The entries after an assignment to a present key of a map. -/
theorem mem_assign (m : StdMap κ ν) (hm : (m.map Prod.fst).Nodup) (k : κ) (v : ν)
    (e : κ × ν) (h : e ∈ assign m k v) : (e ∈ m ∧ e.1 ≠ k) ∨ e = (k, v) := by
  induction m with
  | nil =>
    simp only [assign, List.mem_singleton] at h
    exact Or.inr h
  | cons e0 rest ih =>
    obtain ⟨k0, v0⟩ := e0
    simp only [List.map_cons, List.nodup_cons] at hm
    by_cases h0 : k0 = k
    · subst h0
      simp only [assign, if_true, List.mem_cons] at h
      rcases h with h | h
      · exact Or.inr h
      · refine Or.inl ⟨List.mem_cons_of_mem _ h, ?_⟩
        intro e'
        exact hm.1 (e' ▸ List.mem_map_of_mem Prod.fst h)
    · simp only [assign, h0, if_false, List.mem_cons] at h
      rcases h with h | h
      · refine Or.inl ⟨by simp [h], ?_⟩
        rw [h]
        exact h0
      · rcases ih hm.2 h with ⟨h1, h2⟩ | h1
        · exact Or.inl ⟨List.mem_cons_of_mem _ h1, h2⟩
        · exact Or.inr h1

end StdMap

/-! ## MapSeries: append -/

namespace MapSeries

/-- Counting a key. -/
theorem count_eq_zero_iff (s : MapSeries) (name : String) :
    StdMap.count s._data name = 0 ↔ StdMap.find s._data name = none := by
  unfold StdMap.count
  cases StdMap.find s._data name <;> simp

/-- The call `append` on a series that is absent. -/
theorem append_absent (s : MapSeries) (name : String) (time value : ℚ)
    (h : StdMap.find s._data name = none) :
    append s name time value
      = (.ok (), ⟨StdMap.assign (StdMap.assign s._data name []) name [⟨time, value⟩]⟩) := by
  have hc := (count_eq_zero_iff s name).2 h
  simp [append, hc, StdMap.atKey, StdMap.find_assign]

/-- The call `append` on a series that is present. -/
theorem append_present (s : MapSeries) (name : String) (time value : ℚ) (vect : List Point)
    (h : StdMap.find s._data name = some vect) :
    append s name time value
      = if (match vect.getLast? with
            | some last => decide (last.time > time)
            | none => false) = true then
          (.error (Fault.logic_error ("MapSeries append time too low: " ++ name)), s)
        else (.ok (), ⟨StdMap.assign s._data name (vect ++ [⟨time, value⟩])⟩) := by
  have hc : ¬ StdMap.count s._data name = 0 := by
    rw [count_eq_zero_iff, h]; simp
  simp [append, hc, StdMap.atKey, h]

/-- C21. `MapSeries::append(name, time, value)` throws if and only if the
series `name` holds a last point whose time is strictly greater than `time`;
the fault is then the logic error "MapSeries append time too low" and the
container is unchanged. Otherwise the series `name` (empty if absent before)
gets the point `(time, value)` as its last point, its size grows by one and
every other series is unchanged. -/
theorem append_contract (s : MapSeries) (name : String) (time value : ℚ) :
    ((∃ e, (append s name time value).1 = .error e) ↔
      ∃ vect last, StdMap.find s._data name = some vect ∧ vect.getLast? = some last ∧
        last.time > time) ∧
    (∀ e, (append s name time value).1 = .error e →
      e = Fault.logic_error ("MapSeries append time too low: " ++ name) ∧
      (append s name time value).2 = s) ∧
    ((append s name time value).1 = .ok () →
      StdMap.find (append s name time value).2._data name
        = some ((StdMap.find s._data name).getD [] ++ [⟨time, value⟩]) ∧
      size (append s name time value).2 name
        = .ok (((StdMap.find s._data name).getD []).length + 1) ∧
      ∀ other, other ≠ name →
        StdMap.find (append s name time value).2._data other
          = StdMap.find s._data other) := by
  cases hf : StdMap.find s._data name with
  | none =>
    rw [append_absent s name time value hf]
    refine ⟨by simp, by simp, ?_⟩
    intro _
    have h1 : StdMap.find (StdMap.assign (StdMap.assign s._data name []) name
        [(⟨time, value⟩ : Point)]) name = some [⟨time, value⟩] := by
      simp [StdMap.find_assign]
    refine ⟨by simpa using h1, ?_, ?_⟩
    · simp [size, checkSeries, StdMap.count, StdMap.atKey, h1]
    · intro other ho
      have : ¬ name = other := fun e => ho e.symm
      simp [StdMap.find_assign, this]
  | some vect =>
    rw [append_present s name time value vect hf]
    cases hl : vect.getLast? with
    | none =>
      have h1 : StdMap.find (StdMap.assign s._data name (vect ++ [(⟨time, value⟩ : Point)]))
          name = some (vect ++ [⟨time, value⟩]) := by
        simp [StdMap.find_assign]
      refine ⟨by simp [hl], by simp, ?_⟩
      intro _
      refine ⟨by simpa using h1, ?_, ?_⟩
      · simp [size, checkSeries, StdMap.count, StdMap.atKey, h1]
      · intro other ho
        have : ¬ name = other := fun e => ho e.symm
        simp [StdMap.find_assign, this]
    | some last =>
      by_cases ht : last.time > time
      · simp [ht, hl]
      · have h1 : StdMap.find (StdMap.assign s._data name (vect ++ [(⟨time, value⟩ : Point)]))
            name = some (vect ++ [⟨time, value⟩]) := by
          simp [StdMap.find_assign]
        simp only [ht, decide_False, Bool.false_eq_true, if_false]
        refine ⟨by simp [hl, ht], by simp, ?_⟩
        intro _
        refine ⟨by simpa using h1, ?_, ?_⟩
        · simp [size, checkSeries, StdMap.count, StdMap.atKey, h1]
        · intro other ho
          have : ¬ name = other := fun e => ho e.symm
          simp [StdMap.find_assign, this]

/-- Witness of C21: on the series `a` holding the point `(1, 5)`, the call with
time 0 throws and the call with time 2 makes `(2, 3)` the last point. -/
theorem append_contract_witness :
    (∃ e, (append ⟨[("a", [⟨1, 5⟩])]⟩ "a" 0 3).1 = .error e) ∧
    StdMap.find (append ⟨[("a", [⟨1, 5⟩])]⟩ "a" 2 3).2._data "a"
      = some ((StdMap.find [("a", [(⟨1, 5⟩ : Point)])] "a").getD [] ++ [⟨2, 3⟩]) :=
  ⟨(append_contract ⟨[("a", [⟨1, 5⟩])]⟩ "a" 0 3).1.2 ⟨_, _, rfl, rfl, by norm_num⟩,
   ((append_contract ⟨[("a", [⟨1, 5⟩])]⟩ "a" 2 3).2.2 rfl).1⟩

end MapSeries

/-! ## MapSeries: sliceTimeRange -/

namespace MapSeries

/-- The inner loop of `sliceTimeRange` appends the points in range to the last
series of the new container. -/
theorem slice_inner (timeBegin timeEnd : ℚ) (name : String) (vect : List Point) :
    ∀ (cutMap : StdMap String (List Point)) (acc : List Point),
      name ∉ cutMap.map Prod.fst →
      vect.foldl
        (fun cutMap point =>
          if point.time ≥ timeBegin ∧ point.time ≤ timeEnd then pushBack cutMap name point
          else cutMap)
        (cutMap ++ [(name, acc)])
        = cutMap ++ [(name, acc ++ inRange timeBegin timeEnd vect)] := by
  induction vect with
  | nil => intro cutMap acc _; simp [inRange]
  | cons p rest ih =>
    intro cutMap acc h
    simp only [List.foldl_cons]
    by_cases hp : p.time ≥ timeBegin ∧ p.time ≤ timeEnd
    · have h1 : pushBack (cutMap ++ [(name, acc)]) name p = cutMap ++ [(name, acc ++ [p])] := by
        unfold pushBack
        rw [StdMap.find_last _ _ _ h, StdMap.assign_last _ _ _ _ h]
        simp
      rw [if_pos hp, h1, ih cutMap (acc ++ [p]) h]
      simp [inRange, hp]
    · rw [if_neg hp, ih cutMap acc h]
      simp [inRange, hp]

/-- One turn of the outer loop of `sliceTimeRange` on a name the new container
does not hold. -/
theorem sliceSeries_fresh (timeBegin timeEnd : ℚ) (cutMap : StdMap String (List Point))
    (it : String × List Point) (h : it.1 ∉ cutMap.map Prod.fst) :
    sliceSeries timeBegin timeEnd cutMap it
      = cutMap ++ (if inRange timeBegin timeEnd it.2 = [] then []
          else [(it.1, inRange timeBegin timeEnd it.2)]) := by
  unfold sliceSeries
  simp only
  rw [StdMap.assign_fresh _ _ _ h, slice_inner timeBegin timeEnd it.1 it.2 cutMap [] h,
    StdMap.find_last _ _ _ h]
  by_cases he : inRange timeBegin timeEnd it.2 = []
  · simp [he, StdMap.erase_last _ _ _ h]
  · simp [he]

/-- The entry `sliceTimeRange` builds from a series, if any. -/
theorem slice_fold (timeBegin timeEnd : ℚ) (l : List (String × List Point)) :
    ∀ cutMap : StdMap String (List Point),
      (l.map Prod.fst).Nodup → (∀ k ∈ l.map Prod.fst, k ∉ cutMap.map Prod.fst) →
      l.foldl (sliceSeries timeBegin timeEnd) cutMap
        = cutMap ++ l.filterMap (fun it =>
            if inRange timeBegin timeEnd it.2 = [] then none
            else some (it.1, inRange timeBegin timeEnd it.2)) := by
  induction l with
  | nil => intro cutMap _ _; simp
  | cons it rest ih =>
    intro cutMap hnd hfresh
    simp only [List.map_cons, List.nodup_cons] at hnd
    have hit : it.1 ∉ cutMap.map Prod.fst := hfresh it.1 (by simp)
    simp only [List.foldl_cons]
    rw [sliceSeries_fresh timeBegin timeEnd cutMap it hit]
    rw [ih _ hnd.2 (by
      intro k hk
      have h1 : k ∉ cutMap.map Prod.fst := hfresh k (by simp [hk])
      have h2 : k ≠ it.1 := by
        intro e
        exact hnd.1 (e ▸ hk)
      by_cases he : inRange timeBegin timeEnd it.2 = []
      · simpa [he] using h1
      · simp only [he, if_false, List.map_append, List.map_cons, List.map_nil, List.mem_append,
          List.mem_singleton, not_or]
        exact ⟨h1, h2⟩)]
    by_cases he : inRange timeBegin timeEnd it.2 = []
    · simp [he, List.filterMap_cons]
    · simp [he, List.filterMap_cons]

/-- The container `sliceTimeRange` returns for a valid range. -/
theorem sliceTimeRange_eq (s : MapSeries) (timeBegin timeEnd : ℚ)
    (hkeys : (s._data.map Prod.fst).Nodup) (h : timeBegin ≤ timeEnd) :
    sliceTimeRange s timeBegin timeEnd
      = .ok ⟨s._data.filterMap (fun it =>
          if inRange timeBegin timeEnd it.2 = [] then none
          else some (it.1, inRange timeBegin timeEnd it.2))⟩ := by
  unfold sliceTimeRange
  rw [if_neg (not_lt.2 h), slice_fold timeBegin timeEnd s._data [] hkeys (by simp)]
  simp

/-- Lookup in the container `sliceTimeRange` builds. -/
theorem find_slice (timeBegin timeEnd : ℚ) (l : List (String × List Point))
    (hnd : (l.map Prod.fst).Nodup) (name : String) :
    StdMap.find (l.filterMap (fun it =>
        if inRange timeBegin timeEnd it.2 = [] then none
        else some (it.1, inRange timeBegin timeEnd it.2))) name
      = (StdMap.find l name).bind (fun vect =>
          if inRange timeBegin timeEnd vect = [] then none
          else some (inRange timeBegin timeEnd vect)) := by
  induction l with
  | nil => simp [StdMap.find]
  | cons it rest ih =>
    obtain ⟨k, v⟩ := it
    simp only [List.map_cons, List.nodup_cons] at hnd
    by_cases hk : k = name
    · subst hk
      have hnone : StdMap.find (rest.filterMap (fun it =>
          if inRange timeBegin timeEnd it.2 = [] then none
          else some (it.1, inRange timeBegin timeEnd it.2))) k = none := by
        rw [ih hnd.2, (StdMap.find_eq_none_iff rest k).2 hnd.1]
        rfl
      by_cases he : inRange timeBegin timeEnd v = []
      · simp [List.filterMap_cons, he, hnone, StdMap.find]
      · simp [List.filterMap_cons, he, StdMap.find]
    · by_cases he : inRange timeBegin timeEnd v = []
      · simp [List.filterMap_cons, he, StdMap.find, hk, ih hnd.2]
      · simp [List.filterMap_cons, he, StdMap.find, hk, ih hnd.2]

/-- C24. `MapSeries::sliceTimeRange(timeBegin, timeEnd)` on a container that
holds each name once: it throws the logic error "MapSeries invalid time range"
when `timeBegin > timeEnd`; otherwise it returns a container in which the
series of each name is the subsequence, in the original order, of the points
of the source series of that name whose time lies in `[timeBegin, timeEnd]`, a
series without such a point being absent. The method is `const`: the source is
not written. -/
theorem sliceTimeRange_contract (s : MapSeries) (timeBegin timeEnd : ℚ)
    (hkeys : (s._data.map Prod.fst).Nodup) :
    (timeBegin > timeEnd →
      sliceTimeRange s timeBegin timeEnd
        = .error (Fault.logic_error "MapSeries invalid time range")) ∧
    (timeBegin ≤ timeEnd →
      ∃ cutMap, sliceTimeRange s timeBegin timeEnd = .ok cutMap ∧
        ∀ name, StdMap.find cutMap._data name
          = (StdMap.find s._data name).bind (fun vect =>
              if vect.filter (fun point =>
                  decide (point.time ≥ timeBegin ∧ point.time ≤ timeEnd)) = [] then none
              else some (vect.filter (fun point =>
                  decide (point.time ≥ timeBegin ∧ point.time ≤ timeEnd))))) := by
  constructor
  · intro h
    simp [sliceTimeRange, h]
  · intro h
    refine ⟨_, sliceTimeRange_eq s timeBegin timeEnd hkeys h, ?_⟩
    intro name
    exact find_slice timeBegin timeEnd s._data hkeys name

/-- Witness of C24: the series `a` cut to the range `[2, 4]`, the series `b`
dropped. -/
theorem sliceTimeRange_contract_witness :
    ∃ cutMap,
      sliceTimeRange ⟨[("a", [⟨1, 5⟩, ⟨2, 7⟩, ⟨4, 9⟩]), ("b", [⟨0, 1⟩])]⟩ 2 4 = .ok cutMap ∧
      StdMap.find cutMap._data "a" = some [⟨2, 7⟩, ⟨4, 9⟩] ∧
      StdMap.find cutMap._data "b" = none := by
  obtain ⟨cutMap, h1, h2⟩ :=
    (sliceTimeRange_contract ⟨[("a", [⟨1, 5⟩, ⟨2, 7⟩, ⟨4, 9⟩]), ("b", [⟨0, 1⟩])]⟩ 2 4
      (by decide)).2 (by norm_num)
  exact ⟨cutMap, h1, h2 "a", h2 "b"⟩

end MapSeries

/-! ## MapSeries: the invariant -/

namespace MapSeries

/-- In a series with non-decreasing times no point is later than the last. -/
theorem le_last (vect : List Point) (last : Point)
    (hs : vect.Pairwise (fun p q => p.time ≤ q.time)) (hl : vect.getLast? = some last) :
    ∀ q ∈ vect, q.time ≤ last.time := by
  induction vect with
  | nil => simp at hl
  | cons p rest ih =>
    intro q hq
    rw [List.pairwise_cons] at hs
    cases rest with
    | nil =>
      simp at hl hq
      rw [hq, hl]
    | cons r rest' =>
      have hl' : (r :: rest').getLast? = some last := by
        simpa [List.getLast?_cons_cons] using hl
      rcases List.mem_cons.1 hq with h | h
      · have hmem : last ∈ r :: rest' := List.mem_of_getLast?_eq_some hl'
        rw [h]
        exact hs.1 last hmem
      · exact ih hs.2 hl' q h

/-- The invariant holds after `append`, whether it succeeds or throws. -/
theorem inv_append (s : MapSeries) (name : String) (time value : ℚ) (h : Inv s) :
    Inv (append s name time value).2 := by
  obtain ⟨hk, he⟩ := h
  cases hf : StdMap.find s._data name with
  | none =>
    have hn := (StdMap.find_eq_none_iff s._data name).1 hf
    rw [append_absent s name time value hf, StdMap.assign_fresh _ _ _ hn,
      StdMap.assign_last _ _ _ _ hn]
    refine ⟨?_, ?_⟩
    · simp only [List.map_append, List.map_cons, List.map_nil]
      rw [List.nodup_append]
      refine ⟨hk, by simp, ?_⟩
      intro a ha hb
      simp only [List.mem_singleton] at hb
      exact hn (hb ▸ ha)
    · intro it hit
      rcases List.mem_append.1 hit with h1 | h1
      · exact he it h1
      · simp only [List.mem_singleton] at h1
        subst h1
        simp
  | some vect =>
    rw [append_present s name time value vect hf]
    have hmem := StdMap.mem_of_find _ _ _ hf
    cases hl : vect.getLast? with
    | none =>
      have := (he _ hmem).1
      simp only [List.getLast?_eq_none_iff] at hl
      exact absurd hl this
    | some last =>
      by_cases ht : last.time > time
      · simpa [ht] using ⟨hk, he⟩
      · simp only [ht, decide_False, Bool.false_eq_true, if_false]
        have hkey : name ∈ s._data.map Prod.fst := List.mem_map_of_mem Prod.fst hmem
        refine ⟨?_, ?_⟩
        · rw [StdMap.keys_assign _ _ _ hkey]
          exact hk
        · intro it hit
          rcases StdMap.mem_assign _ hk _ _ _ hit with ⟨h1, -⟩ | h1
          · exact he it h1
          · subst h1
            refine ⟨by simp, ?_⟩
            rw [List.pairwise_append]
            refine ⟨(he _ hmem).2, by simp, ?_⟩
            intro q hq p hp
            simp only [List.mem_singleton] at hp
            subst hp
            exact le_trans (le_last vect last (he _ hmem).2 hl q hq) (not_lt.1 ht)

/-- The invariant holds for the container `sliceTimeRange` returns. -/
theorem inv_slice (s s' : MapSeries) (timeBegin timeEnd : ℚ) (h : Inv s)
    (hs : sliceTimeRange s timeBegin timeEnd = .ok s') : Inv s' := by
  obtain ⟨hk, he⟩ := h
  by_cases hr : timeBegin ≤ timeEnd
  · rw [sliceTimeRange_eq s timeBegin timeEnd hk hr] at hs
    cases hs
    refine ⟨?_, ?_⟩
    · refine List.Nodup.sublist ?_ hk
      simp only
      generalize s._data = l
      induction l with
      | nil => simp
      | cons it rest ih =>
        by_cases hem : inRange timeBegin timeEnd it.2 = []
        · simp only [List.filterMap_cons, hem, if_true, List.map_cons]
          exact List.Sublist.cons _ ih
        · simp only [List.filterMap_cons, hem, if_false, List.map_cons]
          exact List.Sublist.cons₂ _ ih
    · intro it hit
      simp only [List.mem_filterMap] at hit
      obtain ⟨src, hsrc, hval⟩ := hit
      by_cases hem : inRange timeBegin timeEnd src.2 = []
      · simp [hem] at hval
      · simp only [hem, if_false, Option.some.injEq] at hval
        subst hval
        refine ⟨hem, ?_⟩
        exact List.Pairwise.sublist (List.filter_sublist _) (he src hsrc).2
  · simp [sliceTimeRange, not_le.1 hr] at hs

/-- Every reachable container satisfies the invariant. -/
theorem inv_reachable (s : MapSeries) (h : Reachable s) : Inv s := by
  induction h with
  | empty => exact ⟨by simp [empty], by simp [empty]⟩
  | append s name time value _ ih => exact inv_append s name time value ih
  | clear s _ _ => exact ⟨by simp [clear], by simp [clear]⟩
  | sliceTimeRange s s' timeBegin timeEnd _ hs ih => exact inv_slice s s' timeBegin timeEnd ih hs

/-- C28. In every container reached from the empty one by calls of `append`
(succeeding or throwing), `clear` and `sliceTimeRange`, every contained series
is non-empty and its point times are non-decreasing; so for every contained
name `front`, `back`, `timeMin` and `timeMax` return the first and the last
point and their times without reading an empty vector, and the series `get`
reads is not of size 0. -/
theorem reachable_series_nonempty_sorted (s : MapSeries) (h : Reachable s)
    (name : String) (vect : List Point) (hf : StdMap.find s._data name = some vect) :
    vect ≠ [] ∧ vect.Pairwise (fun p q => p.time ≤ q.time) ∧
    (∃ first last, vect.head? = some first ∧ vect.getLast? = some last ∧
      front s name = .ok first ∧ back s name = .ok last ∧
      timeMin s name = .ok first.time ∧ timeMax s name = .ok last.time) ∧
    vect.length ≠ 0 := by
  obtain ⟨hk, he⟩ := inv_reachable s h
  obtain ⟨hne, hsorted⟩ := he _ (StdMap.mem_of_find _ _ _ hf)
  refine ⟨hne, hsorted, ?_, by simpa using hne⟩
  obtain ⟨first, hfirst⟩ : ∃ first, vect.head? = some first := by
    cases vect with
    | nil => exact absurd rfl hne
    | cons p rest => exact ⟨p, rfl⟩
  obtain ⟨last, hlast⟩ : ∃ last, vect.getLast? = some last := by
    cases hl : vect.getLast? with
    | none =>
      simp only [List.getLast?_eq_none_iff] at hl
      exact absurd hl hne
    | some last => exact ⟨last, rfl⟩
  refine ⟨first, last, hfirst, hlast, ?_, ?_, ?_, ?_⟩ <;>
    simp [front, back, timeMin, timeMax, checkSeries, StdMap.count, StdMap.atKey, hf, hfirst,
      hlast]

/-- Witness of C28: the container reached by two calls of `append` and one
throwing call, and its series `a`. -/
theorem reachable_series_nonempty_sorted_witness :
    Reachable (append (append (append empty "a" 1 5).2 "a" 2 7).2 "a" 0 9).2 ∧
    front (append (append (append empty "a" 1 5).2 "a" 2 7).2 "a" 0 9).2 "a" = .ok ⟨1, 5⟩ ∧
    [(⟨1, 5⟩ : Point), ⟨2, 7⟩] ≠ [] :=
  ⟨Reachable.append _ _ _ _ (Reachable.append _ _ _ _ (Reachable.append _ _ _ _
      Reachable.empty)),
    rfl,
    (reachable_series_nonempty_sorted
      (append (append (append empty "a" 1 5).2 "a" 2 7).2 "a" 0 9).2
      (Reachable.append _ _ _ _ (Reachable.append _ _ _ _ (Reachable.append _ _ _ _
        Reachable.empty)))
      "a" [⟨1, 5⟩, ⟨2, 7⟩] rfl).1⟩

end MapSeries

/-! ## MapSeries: get and getIndex -/

/-- Subtraction of `size_t` without wrap. -/
theorem usub_eq (a b : Nat) (ha : a < 2 ^ 64) (hb : b ≤ a) : usub a b = a - b := by
  unfold usub
  have h1 : b % 2 ^ 64 = b := Nat.mod_eq_of_lt (by omega)
  rw [h1]
  have h2 : a + 2 ^ 64 - b = (a - b) + 2 ^ 64 := by omega
  rw [h2, Nat.add_mod_right]
  exact Nat.mod_eq_of_lt (by omega)

namespace MapSeries

/-- The bisection loop, started on two indices whose times enclose `time`, ends
within `fuel` turns on two adjacent indices whose times enclose `time`. -/
theorem bisect_spec (goesOn : Nat → Bool) (hgo : ∀ d, 1 ≤ d → (goesOn d = true ↔ 1 < d))
    (vect : List Point) (time : ℚ) (hsize : vect.length < 2 ^ 63) :
    ∀ fuel low up, low < up → up < vect.length → up - low ≤ fuel →
      (∃ pl, vect[low]? = some pl ∧ pl.time ≤ time) →
      (∃ pu, vect[up]? = some pu ∧ time < pu.time) →
      ∃ l pl pu, bisect goesOn vect time fuel low up = .ok (l, l + 1) ∧
        vect[l]? = some pl ∧ vect[l + 1]? = some pu ∧ pl.time ≤ time ∧ time < pu.time := by
  intro fuel
  induction fuel with
  | zero =>
    intro low up h1 h2 h3
    omega
  | succ fuel ih =>
    intro low up h1 h2 h3 hl hu
    have h63 : (2 : Nat) ^ 63 < 2 ^ 64 := by norm_num
    have hsub : usub up low = up - low := usub_eq up low (by omega) (by omega)
    rw [bisect, hsub]
    by_cases hgap : 1 < up - low
    · have hg : goesOn (up - low) = true := (hgo _ (by omega)).2 hgap
      have hmid : (low + up) % 2 ^ 64 / 2 = (low + up) / 2 := by
        rw [Nat.mod_eq_of_lt (by omega)]
      rw [if_pos hg]
      simp only [hmid]
      have hm1 : low < (low + up) / 2 := by omega
      have hm2 : (low + up) / 2 < up := by omega
      have hm3 : (low + up) / 2 < vect.length := by omega
      rw [List.getElem?_eq_getElem hm3]
      simp only
      by_cases hp : (vect[(low + up) / 2]).time ≤ time
      · rw [if_pos hp]
        exact ih _ _ hm2 h2 (by omega) ⟨_, List.getElem?_eq_getElem hm3, hp⟩ hu
      · rw [if_neg hp]
        exact ih _ _ hm1 hm3 (by omega) hl ⟨_, List.getElem?_eq_getElem hm3, not_le.1 hp⟩
    · have hg : ¬ goesOn (up - low) = true := by
        rw [hgo _ (by omega)]
        exact hgap
      rw [if_neg hg]
      have hup : up = low + 1 := by omega
      subst hup
      obtain ⟨pl, hpl, hpl'⟩ := hl
      obtain ⟨pu, hpu, hpu'⟩ := hu
      exact ⟨low, pl, pu, rfl, hpl, hpu, hpl', hpu'⟩

/-- A value interpolated between two points lies between their values. -/
theorem interpolation_between (tLow tUp vLow vUp time : ℚ) (h1 : tLow ≤ time)
    (h2 : time < tUp) :
    tUp - tLow ≠ 0 ∧
    min vLow vUp ≤ (tUp - time) / (tUp - tLow) * vLow + (time - tLow) / (tUp - tLow) * vUp ∧
    (tUp - time) / (tUp - tLow) * vLow + (time - tLow) / (tUp - tLow) * vUp ≤ max vLow vUp := by
  have hr : 0 < tUp - tLow := by linarith
  have ha : 0 ≤ (tUp - time) / (tUp - tLow) := div_nonneg (by linarith) hr.le
  have hc : 0 ≤ (time - tLow) / (tUp - tLow) := div_nonneg (by linarith) hr.le
  have hac : (tUp - time) / (tUp - tLow) + (time - tLow) / (tUp - tLow) = 1 := by
    rw [← add_div]
    have : tUp - time + (time - tLow) = tUp - tLow := by ring
    rw [this, div_self hr.ne']
  refine ⟨hr.ne', ?_, ?_⟩
  · have e1 := mul_le_mul_of_nonneg_left (min_le_left vLow vUp) ha
    have e2 := mul_le_mul_of_nonneg_left (min_le_right vLow vUp) hc
    have e3 : min vLow vUp = (tUp - time) / (tUp - tLow) * min vLow vUp
        + (time - tLow) / (tUp - tLow) * min vLow vUp := by
      rw [← add_mul, hac, one_mul]
    linarith
  · have e1 := mul_le_mul_of_nonneg_left (le_max_left vLow vUp) ha
    have e2 := mul_le_mul_of_nonneg_left (le_max_right vLow vUp) hc
    have e3 : max vLow vUp = (tUp - time) / (tUp - tLow) * max vLow vUp
        + (time - tLow) / (tUp - tLow) * max vLow vUp := by
      rw [← add_mul, hac, one_mul]
    linarith

/-- The first and the last point of a vector, by index. -/
theorem head_last_index (vect : List Point) (first last : Point)
    (hfirst : vect.head? = some first) (hlast : vect.getLast? = some last) :
    0 < vect.length ∧ vect[0]? = some first ∧ vect[vect.length - 1]? = some last := by
  cases vect with
  | nil => simp at hfirst
  | cons p rest =>
    refine ⟨by simp, by simpa using hfirst, ?_⟩
    rw [← List.getLast?_eq_getElem?]
    exact hlast

/-- C22, amended. `MapSeries::get` on a series of at least two points (fewer
than `2 ^ 63`): it returns the first value when `time` is at most the first
time; the last value when `time` is greater than the first time and at least
the last time; and otherwise, for two adjacent points `low`, `low + 1` with
`tLow ≤ time < tUp`, the value
`(tUp − time)/(tUp − tLow)·vLow + (time − tLow)/(tUp − tLow)·vUp`, whose divisor
is not zero and which lies between `vLow` and `vUp`; the optional outputs
receive these two indices and points in the last case, and nothing in the
first two. -/
theorem get_clamped_interpolation (s : MapSeries) (name : String) (vect : List Point)
    (first last : Point) (time : ℚ)
    (hf : StdMap.find s._data name = some vect) (h2 : 2 ≤ vect.length)
    (hsize : vect.length < 2 ^ 63)
    (hfirst : vect.head? = some first) (hlast : vect.getLast? = some last) :
    (time ≤ first.time → get s name time = .ok ⟨first.value, none, none, none, none⟩) ∧
    (first.time < time → last.time ≤ time →
      get s name time = .ok ⟨last.value, none, none, none, none⟩) ∧
    (first.time < time → time < last.time →
      ∃ low ptLow ptUp, vect[low]? = some ptLow ∧ vect[low + 1]? = some ptUp ∧
        ptLow.time ≤ time ∧ time < ptUp.time ∧ ptUp.time - ptLow.time ≠ 0 ∧
        get s name time
          = .ok ⟨(ptUp.time - time) / (ptUp.time - ptLow.time) * ptLow.value
              + (time - ptLow.time) / (ptUp.time - ptLow.time) * ptUp.value,
            some low, some (low + 1), some ptLow, some ptUp⟩ ∧
        min ptLow.value ptUp.value
          ≤ (ptUp.time - time) / (ptUp.time - ptLow.time) * ptLow.value
            + (time - ptLow.time) / (ptUp.time - ptLow.time) * ptUp.value ∧
        (ptUp.time - time) / (ptUp.time - ptLow.time) * ptLow.value
            + (time - ptLow.time) / (ptUp.time - ptLow.time) * ptUp.value
          ≤ max ptLow.value ptUp.value) := by
  have hc : ¬ StdMap.count s._data name = 0 := by
    rw [count_eq_zero_iff, hf]; simp
  have h0 : ¬ vect.length = 0 := by omega
  have h1 : ¬ vect.length = 1 := by omega
  obtain ⟨-, hi0, hin⟩ := head_last_index vect first last hfirst hlast
  refine ⟨?_, ?_, ?_⟩
  · intro ht
    simp [get, checkSeries, hc, StdMap.atKey, hf, h0, h1, hfirst, hlast, ht]
  · intro ht1 ht2
    simp [get, checkSeries, hc, StdMap.atKey, hf, h0, h1, hfirst, hlast, not_le.2 ht1, ht2]
  · intro ht1 ht2
    have h63 : (2 : Nat) ^ 63 < 2 ^ 64 := by norm_num
    have hsub : usub vect.length 1 = vect.length - 1 := usub_eq _ _ (by omega) (by omega)
    obtain ⟨low, ptLow, ptUp, hb, hlow, hup, hle, hlt⟩ :=
      bisect_spec (fun d => decide (d > 1)) (by intro d _; simp) vect time hsize
        vect.length 0 (vect.length - 1) (by omega) (by omega) (by omega)
        ⟨first, hi0, ht1.le⟩ ⟨last, hin, ht2⟩
    obtain ⟨hr, hmin, hmax⟩ :=
      interpolation_between ptLow.time ptUp.time ptLow.value ptUp.value time hle hlt
    refine ⟨low, ptLow, ptUp, hlow, hup, hle, hlt, hr, ?_, hmin, hmax⟩
    simp [get, checkSeries, hc, StdMap.atKey, hf, h0, h1, hfirst, hlast, not_le.2 ht1,
      not_le.2 ht2, hsub, hb, hlow, hup]

/-- Witness of C22: the series of times 1, 2, 4 read at time 3, between its
points of index 1 and 2. -/
theorem get_clamped_interpolation_witness :
    ∃ low ptLow ptUp,
      [(⟨1, 5⟩ : Point), ⟨2, 7⟩, ⟨4, 9⟩][low]? = some ptLow ∧
      [(⟨1, 5⟩ : Point), ⟨2, 7⟩, ⟨4, 9⟩][low + 1]? = some ptUp ∧
      ptLow.time ≤ 3 ∧ 3 < ptUp.time ∧
      get ⟨[("a", [⟨1, 5⟩, ⟨2, 7⟩, ⟨4, 9⟩])]⟩ "a" 3
        = .ok ⟨(ptUp.time - 3) / (ptUp.time - ptLow.time) * ptLow.value
            + (3 - ptLow.time) / (ptUp.time - ptLow.time) * ptUp.value,
          some low, some (low + 1), some ptLow, some ptUp⟩ := by
  obtain ⟨low, ptLow, ptUp, h1, h2, h3, h4, -, h5, -⟩ :=
    (get_clamped_interpolation ⟨[("a", [⟨1, 5⟩, ⟨2, 7⟩, ⟨4, 9⟩])]⟩ "a"
      [⟨1, 5⟩, ⟨2, 7⟩, ⟨4, 9⟩] ⟨1, 5⟩ ⟨4, 9⟩ 3 rfl (by decide) (by norm_num) rfl rfl).2.2
      (by norm_num) (by norm_num)
  exact ⟨low, ptLow, ptUp, h1, h2, h3, h4, h5⟩

/-- Counterexample of C22: the series `a` holds the points `(1, 5)` and
`(1, 7)`, whose times are non-decreasing; the time 1 is at least the last
time, and `get` returns the first value 5, not the last value 7. -/
theorem get_prefers_first_value :
    (append (append empty "a" 1 5).2 "a" 1 7).2 = ⟨[("a", [⟨1, 5⟩, ⟨1, 7⟩])]⟩ ∧
    back ⟨[("a", [⟨1, 5⟩, ⟨1, 7⟩])]⟩ "a" = .ok ⟨1, 7⟩ ∧
    (1 : ℚ) ≥ (⟨1, 7⟩ : Point).time ∧
    get ⟨[("a", [⟨1, 5⟩, ⟨1, 7⟩])]⟩ "a" 1 = .ok ⟨5, none, none, none, none⟩ :=
  ⟨rfl, rfl, le_refl _, rfl⟩

/-- Times in index order. -/
theorem sorted_index (vect : List Point) (hs : vect.Pairwise (fun p q => p.time ≤ q.time))
    (i j : Nat) (pi pj : Point) (hij : i ≤ j) (hi : vect[i]? = some pi)
    (hj : vect[j]? = some pj) : pi.time ≤ pj.time := by
  rcases Nat.eq_or_lt_of_le hij with h | h
  · subst h
    rw [hi] at hj
    cases hj
    exact le_refl _
  · obtain ⟨hi1, hi2⟩ := List.getElem?_eq_some_iff.1 hi
    obtain ⟨hj1, hj2⟩ := List.getElem?_eq_some_iff.1 hj
    rw [← hi2, ← hj2]
    exact (List.pairwise_iff_getElem.1 hs) i j hi1 hj1 h

/-- C23. `MapSeries::getIndex`: for an unknown series name it throws the logic
error "MapSeries unknown series"; for a non-empty series (of fewer than
`2 ^ 63` points) with non-decreasing times the search ends and the index
returned is valid and closest: `|time − time[i]| ≤ |time − time[j]|` for
every index `j` of the series. -/
theorem getIndex_closest (s : MapSeries) (name : String) (time : ℚ) :
    (StdMap.find s._data name = none →
      getIndex s name time
        = .error (Fault.logic_error ("MapSeries unknown series: " ++ name))) ∧
    (∀ vect, StdMap.find s._data name = some vect → vect ≠ [] →
      vect.Pairwise (fun p q => p.time ≤ q.time) → vect.length < 2 ^ 63 →
      ∃ (i : Nat) (pi : Point), getIndex s name time = .ok i ∧ vect[i]? = some pi ∧
        ∀ (j : Nat) (pj : Point), vect[j]? = some pj →
          |time - pi.time| ≤ |time - pj.time|) := by
  constructor
  · intro hf
    have hc := (count_eq_zero_iff s name).2 hf
    simp [getIndex, checkSeries, hc]
  · intro vect hf hne hs hsize
    have hc : ¬ StdMap.count s._data name = 0 := by
      rw [count_eq_zero_iff, hf]; simp
    obtain ⟨first, hfirst⟩ : ∃ first, vect.head? = some first := by
      cases vect with
      | nil => exact absurd rfl hne
      | cons p rest => exact ⟨p, rfl⟩
    obtain ⟨last, hlast⟩ : ∃ last, vect.getLast? = some last := by
      cases hl : vect.getLast? with
      | none =>
        simp only [List.getLast?_eq_none_iff] at hl
        exact absurd hl hne
      | some last => exact ⟨last, rfl⟩
    obtain ⟨hpos, hi0, hin⟩ := head_last_index vect first last hfirst hlast
    have h63 : (2 : Nat) ^ 63 < 2 ^ 64 := by norm_num
    have hsub : usub vect.length 1 = vect.length - 1 := usub_eq _ _ (by omega) (by omega)
    by_cases ht1 : time ≤ first.time
    · refine ⟨0, first, ?_, hi0, ?_⟩
      · simp [getIndex, checkSeries, hc, StdMap.atKey, hf, hfirst, hlast, ht1]
      · intro j pj hj
        have := sorted_index vect hs 0 j first pj (Nat.zero_le _) hi0 hj
        rw [abs_of_nonpos (by linarith), abs_of_nonpos (by linarith)]
        linarith
    · by_cases ht2 : time ≥ last.time
      · refine ⟨vect.length - 1, last, ?_, hin, ?_⟩
        · simp [getIndex, checkSeries, hc, StdMap.atKey, hf, hfirst, hlast, ht1, ht2, hsub]
        · intro j pj hj
          have hjlt : j < vect.length := (List.getElem?_eq_some_iff.1 hj).1
          have := sorted_index vect hs j (vect.length - 1) pj last (by omega) hj hin
          rw [abs_of_nonneg (by linarith), abs_of_nonneg (by linarith)]
          linarith
      · have hlen : ¬ vect.length = 1 := by
          intro h1
          rw [h1] at hin
          rw [hi0] at hin
          cases hin
          exact ht2 (not_le.1 ht1).le
        obtain ⟨low, ptLow, ptUp, hb, hlow, hup, hle, hlt⟩ :=
          bisect_spec (fun d => decide (d ≠ 1)) (by intro d hd; simp; omega) vect time hsize
            vect.length 0 (vect.length - 1) (by omega) (by omega) (by omega)
            ⟨first, hi0, (not_le.1 ht1).le⟩ ⟨last, hin, not_le.1 ht2⟩
        have hb' := hb
        simp only [ne_eq, decide_not] at hb'
        have hbelow : ∀ (j : Nat) (pj : Point), j ≤ low → vect[j]? = some pj →
            |time - ptLow.time| ≤ |time - pj.time| := by
          intro j pj hjl hj
          have := sorted_index vect hs j low pj ptLow hjl hj hlow
          rw [abs_of_nonneg (by linarith), abs_of_nonneg (by linarith)]
          linarith
        have habove : ∀ (j : Nat) (pj : Point), low + 1 ≤ j → vect[j]? = some pj →
            |time - ptUp.time| ≤ |time - pj.time| := by
          intro j pj hjl hj
          have := sorted_index vect hs (low + 1) j ptUp pj hjl hup hj
          rw [abs_of_nonpos (by linarith), abs_of_nonpos (by linarith)]
          linarith
        by_cases hcl : |time - ptLow.time| ≤ |time - ptUp.time|
        · refine ⟨low, ptLow, ?_, hlow, ?_⟩
          · simp [getIndex, checkSeries, hc, StdMap.atKey, hf, hfirst, hlast, ht1, ht2, hsub,
              hlen, hb', hlow, hup, hcl]
          · intro j pj hj
            by_cases hjl : j ≤ low
            · exact hbelow j pj hjl hj
            · exact le_trans hcl (habove j pj (by omega) hj)
        · refine ⟨low + 1, ptUp, ?_, hup, ?_⟩
          · simp [getIndex, checkSeries, hc, StdMap.atKey, hf, hfirst, hlast, ht1, ht2, hsub,
              hlen, hb', hlow, hup, hcl]
          · intro j pj hj
            by_cases hjl : j ≤ low
            · exact le_trans (not_le.1 hcl).le (hbelow j pj hjl hj)
            · exact habove j pj (by omega) hj

/-- Witness of C23: the series of times 1, 2, 4 searched at time 3, and an
unknown name. -/
theorem getIndex_closest_witness :
    getIndex ⟨[("a", [⟨1, 5⟩, ⟨2, 7⟩, ⟨4, 9⟩])]⟩ "b" 3
      = .error (Fault.logic_error ("MapSeries unknown series: " ++ "b")) ∧
    ∃ (i : Nat) (pi : Point), getIndex ⟨[("a", [⟨1, 5⟩, ⟨2, 7⟩, ⟨4, 9⟩])]⟩ "a" 3 = .ok i ∧
      [(⟨1, 5⟩ : Point), ⟨2, 7⟩, ⟨4, 9⟩][i]? = some pi ∧
      ∀ (j : Nat) (pj : Point), [(⟨1, 5⟩ : Point), ⟨2, 7⟩, ⟨4, 9⟩][j]? = some pj →
        |3 - pi.time| ≤ |3 - pj.time| :=
  ⟨(getIndex_closest ⟨[("a", [⟨1, 5⟩, ⟨2, 7⟩, ⟨4, 9⟩])]⟩ "b" 3).1 rfl,
   (getIndex_closest ⟨[("a", [⟨1, 5⟩, ⟨2, 7⟩, ⟨4, 9⟩])]⟩ "a" 3).2
      [⟨1, 5⟩, ⟨2, 7⟩, ⟨4, 9⟩] rfl (by simp) (by simp; norm_num) (by norm_num)⟩

end MapSeries

/-! ## VectorLabel -/

namespace VectorLabel

/-- A write by index keeps the labels. -/
theorem labels_assignIndex (v v' : VectorLabel) (index : Nat) (value : ℚ)
    (h : assignIndex v index value = .ok v') : v'.labels = v.labels := by
  unfold assignIndex at h
  cases he : v.entries[index]? with
  | none => simp [he] at h
  | some entry =>
    simp only [he, Except.ok.injEq] at h
    subst h
    obtain ⟨hlt, hval⟩ := List.getElem?_eq_some_iff.1 he
    unfold labels
    simp only [List.map_set]
    apply List.ext_getElem
    · simp
    · intro n h1 h2
      simp only [List.getElem_set, List.getElem_map]
      by_cases hn : index = n
      · subst hn
        simp [hval]
      · simp [hn]

/-- A read by index after a write at that index. -/
theorem atIndex_assignIndex (v : VectorLabel) (index : Nat) (value : ℚ)
    (h : index < v.size) :
    ∃ v', assignIndex v index value = .ok v' ∧ atIndex v' index = .ok value := by
  unfold size at h
  refine ⟨⟨v.entries.set index ((v.entries[index]).1, value)⟩, ?_, ?_⟩
  · simp [assignIndex, List.getElem?_eq_getElem h]
  · simp [atIndex, List.getElem?_set, h]

/-- C25. Write/read round trip of the labelled vector modelled from its use: in
a vector whose labels are pairwise distinct, for every contained label `l`
(resp. every index `i` below the size) and every value, the write `vect(l) =
value` (resp. `vect(i) = value`) succeeds and the same accessor then returns the
value, and `getIndex(getLabel(i)) == i`. -/
theorem vectorLabel_round_trip (v : VectorLabel) (hv : v.labels.Nodup) (value : ℚ) :
    (∀ l, v.exist l = true →
      ∃ v', assignLabel v l value = .ok v' ∧ atLabel v' l = .ok value) ∧
    (∀ i, i < v.size →
      ∃ v', assignIndex v i value = .ok v' ∧ atIndex v' i = .ok value) ∧
    (∀ i, i < v.size → ∃ l, getLabel v i = .ok l ∧ getIndex v l = .ok i) := by
  refine ⟨?_, ?_, ?_⟩
  · intro l hl
    have hmem : l ∈ v.labels := by simpa [exist] using hl
    have hlt : v.labels.indexOf l < v.size := by
      have := List.indexOf_lt_length.2 hmem
      simpa [labels, size] using this
    obtain ⟨v', h1, h2⟩ := atIndex_assignIndex v (v.labels.indexOf l) value hlt
    have hlab := labels_assignIndex v v' _ value h1
    refine ⟨v', ?_, ?_⟩
    · simp [assignLabel, getIndex, hl, h1]
    · have hl' : v'.exist l = true := by simpa [exist, hlab] using hmem
      simp [atLabel, getIndex, hl', hlab, h2]
  · intro i hi
    exact atIndex_assignIndex v i value hi
  · intro i hi
    have hi' : i < v.entries.length := hi
    have hil : i < v.labels.length := by simpa [labels] using hi'
    have hlab : v.labels[i] = (v.entries[i]).1 := by simp [labels]
    refine ⟨(v.entries[i]).1, ?_, ?_⟩
    · simp [getLabel, List.getElem?_eq_getElem hi']
    · have hmem : (v.entries[i]).1 ∈ v.labels := by
        rw [← hlab]
        exact List.getElem_mem hil
      have hex : v.exist (v.entries[i]).1 = true := by simpa [exist] using hmem
      have hidx : v.labels.indexOf (v.entries[i]).1 = i := by
        rw [← hlab]
        exact List.indexOf_getElem hv i hil
      simp [getIndex, hex, hidx]

/-- Witness of C25: the vector of labels `l1` to `l4` of the test; the write
`vect("l1") = 1` is read back and the index of the label of index 0 is 0. -/
theorem vectorLabel_round_trip_witness :
    (∃ v', assignLabel ⟨[("l1", 0), ("l2", 0), ("l3", 0), ("l4", 0)]⟩ "l1" 1 = .ok v' ∧
      atLabel v' "l1" = .ok 1) ∧
    (∃ l, getLabel ⟨[("l1", 0), ("l2", 0), ("l3", 0), ("l4", 0)]⟩ 0 = .ok l ∧
      getIndex ⟨[("l1", 0), ("l2", 0), ("l3", 0), ("l4", 0)]⟩ l = .ok 0) :=
  ⟨(vectorLabel_round_trip ⟨[("l1", 0), ("l2", 0), ("l3", 0), ("l4", 0)]⟩ (by decide) 1).1
      "l1" (by decide),
   (vectorLabel_round_trip ⟨[("l1", 0), ("l2", 0), ("l3", 0), ("l4", 0)]⟩ (by decide) 1).2.2
      0 (by decide)⟩

end VectorLabel

/-! ## The secondary computation of the impulse dynamics -/

namespace Model

open LinearSolver

variable {κ : Type}

/-- C26. Whenever `forwardImpulseDynamicsContactsCustom` returns a next velocity,
the procedure without the block that computes `Hinv`, `M1`, `d1` and `lll1`
returns the same next velocity and leaves the same constraint set (fields `A`,
`b`, `x` and `force` among them) and the same model. -/
theorem secondary_inverse_unused (api : RBDL κ) (s : Model κ) (dt : ℚ) {m : Nat}
    (constraints : ConstraintSet s._model.dof_count m)
    (position velocity torque inertiaOffset : VectorXd) (solver : LinearSolver)
    (nextVelocity : Vec s._model.dof_count)
    (h : (forwardImpulseDynamicsContactsCustom api s dt constraints position velocity torque
      inertiaOffset solver).1 = .ok nextVelocity) :
    (forwardImpulseDynamicsContactsCustomWithoutInverse api s dt constraints position velocity
      torque inertiaOffset solver).1 = .ok nextVelocity ∧
    (forwardImpulseDynamicsContactsCustomWithoutInverse api s dt constraints position velocity
      torque inertiaOffset solver).2.1.A
      = (forwardImpulseDynamicsContactsCustom api s dt constraints position velocity torque
          inertiaOffset solver).2.1.A ∧
    (forwardImpulseDynamicsContactsCustomWithoutInverse api s dt constraints position velocity
      torque inertiaOffset solver).2.1.b
      = (forwardImpulseDynamicsContactsCustom api s dt constraints position velocity torque
          inertiaOffset solver).2.1.b ∧
    (forwardImpulseDynamicsContactsCustomWithoutInverse api s dt constraints position velocity
      torque inertiaOffset solver).2.1.x
      = (forwardImpulseDynamicsContactsCustom api s dt constraints position velocity torque
          inertiaOffset solver).2.1.x ∧
    (forwardImpulseDynamicsContactsCustomWithoutInverse api s dt constraints position velocity
      torque inertiaOffset solver).2.1.force
      = (forwardImpulseDynamicsContactsCustom api s dt constraints position velocity torque
          inertiaOffset solver).2.1.force ∧
    forwardImpulseDynamicsContactsCustomWithoutInverse api s dt constraints position velocity
      torque inertiaOffset solver
      = forwardImpulseDynamicsContactsCustom api s dt constraints position velocity torque
          inertiaOffset solver := by
  have key : forwardImpulseDynamicsContactsCustomWithoutInverse api s dt constraints position
      velocity torque inertiaOffset solver
      = forwardImpulseDynamicsContactsCustom api s dt constraints position velocity torque
          inertiaOffset solver := by
    unfold forwardImpulseDynamicsContactsCustom at h ⊢
    unfold forwardImpulseDynamicsContactsCustomWithoutInverse
    by_cases hp : position.size = s._model.dof_count
    · by_cases hv : velocity.size = s._model.dof_count
      · by_cases ht : torque.size = s._model.dof_count
        · by_cases ho : inertiaOffset.size = s._model.dof_count
          · by_cases hinv : api.colPivHouseholderQr_isInvertible
                (addInertiaOffset (api.CalcContactSystemVariables s._model position velocity
                  torque constraints).1.H inertiaOffset) = true
            · simp only [hp, hv, ht, ho, hinv, ne_eq, not_true_eq_false, if_false,
                Bool.not_true, Bool.false_eq_true]
            · simp [hp, hv, ht, ho, hinv] at h
          · simp [hp, hv, ht, ho] at h
        · simp [hp, hv, ht] at h
      · simp [hp, hv] at h
    · simp [hp] at h
  rw [key]
  exact ⟨h, rfl, rfl, rfl, rfl, rfl⟩

/-- Witness of C26: the pendulum with contact, on which the impulse dynamics
returns the next velocity. -/
theorem secondary_inverse_unused_witness :
    ∃ nextVelocity,
      (forwardImpulseDynamicsContactsCustom Demo.demoApi Demo.pendulumModel (1 / 2)
        Demo.contact (VectorXd.ofList [0]) (VectorXd.ofList [3]) (VectorXd.ofList [4])
        (VectorXd.ofList [1]) LinearSolverFullPivLU).1 = .ok nextVelocity ∧
      (forwardImpulseDynamicsContactsCustomWithoutInverse Demo.demoApi Demo.pendulumModel
        (1 / 2) Demo.contact (VectorXd.ofList [0]) (VectorXd.ofList [3]) (VectorXd.ofList [4])
        (VectorXd.ofList [1]) LinearSolverFullPivLU).1 = .ok nextVelocity :=
  ⟨_, rfl,
    (secondary_inverse_unused Demo.demoApi Demo.pendulumModel (1 / 2) Demo.contact
      (VectorXd.ofList [0]) (VectorXd.ofList [3]) (VectorXd.ofList [4]) (VectorXd.ofList [1])
      LinearSolverFullPivLU _ rfl).1⟩

end Model

/-! ## FittedSpline -/

namespace FittedSpline

/-- The test on the minimum time length is never true. -/
theorem polynomPiecesStep_min (minTimeLength minTimeLength' maxTimeLength : ℚ)
    (points : List (ℚ × ℚ)) :
    polynomPiecesStep minTimeLength maxTimeLength points
      = polynomPiecesStep minTimeLength' maxTimeLength points := by
  funext st i
  unfold polynomPiecesStep
  simp only [lt_irrefl, and_false, if_false]

/-- C27. In `fittingPolynomPieces` the test on the minimum time length compares
`currentLength` with itself and is never true: for every list of points and
every `maxTimeLength`, the parts built are the same for every two values of
`minTimeLength`. -/
theorem minTimeLength_never_cancels (sort : List (ℚ × ℚ) → List (ℚ × ℚ))
    (_points : List (ℚ × ℚ)) (minTimeLength minTimeLength' maxTimeLength : ℚ) :
    polynomPiecesParts sort _points minTimeLength maxTimeLength
      = polynomPiecesParts sort _points minTimeLength' maxTimeLength := by
  unfold polynomPiecesParts
  simp only [polynomPiecesStep_min minTimeLength minTimeLength' maxTimeLength]

/-- C29, the code at the failing input: on the three points `(0, 0)`, `(1, 0)`,
`(2, 0)` with `sequenceLength = 1` the loop of `fittingCubic` runs up to
`i = 2` and reads `_points[3]`, outside the points; with `sequenceLength = 8`
the bound `3 - 4` wraps to `2 ^ 64 - 1` and the loop reads `_points[9]` at
`i = 8`. On five points with `sequenceLength = 2` the reads are inside. -/
theorem fittingCubic_reads_outside :
    fittingCubic (fun l => l) [(0, 0), (1, 0), (2, 0)] 1 = .error Fault.undefined ∧
    fittingCubic (fun l => l) [(0, 0), (1, 0), (2, 0)] 8 = .error Fault.undefined ∧
    fittingCubic (fun l => l) [(0, 0), (1, 0), (2, 0), (3, 1), (4, 1)] 2
      = .ok [(0, 0, 0), (2, 0, 1 / 2), (4, 1, 0)] := by
  decide!

/-- A chain extended by a part that starts at its end. -/
theorem chainFrom_append (parts : List (Nat × Nat)) :
    ∀ first last next, chainFrom first parts last → last < next →
      chainFrom first (parts ++ [(last, next)]) next := by
  induction parts with
  | nil =>
    intro first last next h hn
    simp only [chainFrom] at h
    subst h
    simp [chainFrom, hn]
  | cons part rest ih =>
    intro first last next h hn
    simp only [chainFrom] at h
    simp only [List.cons_append, chainFrom]
    exact ⟨h.1, h.2.1, ih _ _ _ h.2.2 hn⟩

/-- What a non-empty chain is, in terms of its parts. -/
theorem chainFrom_facts (parts : List (Nat × Nat)) :
    ∀ first last, chainFrom first parts last → parts ≠ [] →
      parts.head?.map Prod.fst = some first ∧ parts.getLast?.map Prod.snd = some last ∧
      parts.Chain' (fun p q => q.1 = p.2) ∧
      ∀ p ∈ parts, first ≤ p.1 ∧ p.1 < p.2 ∧ p.2 ≤ last := by
  induction parts with
  | nil => intro _ _ _ h; exact absurd rfl h
  | cons part rest ih =>
    intro first last h _
    simp only [chainFrom] at h
    obtain ⟨h1, h2, h3⟩ := h
    cases rest with
    | nil =>
      simp only [chainFrom] at h3
      subst h1 h3
      refine ⟨rfl, rfl, by simp, ?_⟩
      intro p hp
      simp only [List.mem_singleton] at hp
      subst hp
      exact ⟨le_refl _, h2, le_refl _⟩
    | cons part' rest' =>
      obtain ⟨i1, i2, i3, i4⟩ := ih part.2 last h3 (by simp)
      refine ⟨by simp [h1], ?_, ?_, ?_⟩
      · simpa [List.getLast?_cons_cons] using i2
      · rw [List.chain'_cons]
        refine ⟨?_, i3⟩
        simpa using i1
      · intro p hp
        rcases List.mem_cons.1 hp with hp | hp
        · subst hp
          have := i4 part' (by simp)
          refine ⟨h1.ge, h2, ?_⟩
          omega
        · have := i4 p hp
          refine ⟨?_, this.2.1, this.2.2⟩
          omega

/-- The loop of `fittingPieces` over the indices `k` to `k + m - 1` keeps the
parts a chain from 0 to `beginIndex`, with `beginIndex` at least two below the
next index unless the loop has not begun. -/
theorem pieces_loop (points : List (ℚ × ℚ)) (hlen : points.length < 2 ^ 64) (m : Nat) :
    ∀ (k : Nat) (st : Cut), 1 ≤ k → k + m = points.length →
      chainFrom 0 st.parts st.beginIndex →
      (st.beginIndex + 2 ≤ k ∨
        (k = 1 ∧ st.beginIndex = 0 ∧ ∀ (p1 p0 : ℚ × ℚ), points[1]? = some p1 → points[0]? = some p0 →
          st.isIncreasing = decide (p1.2 > p0.2 + 1 / 1000000))) →
      ∃ st', forEach (piecesStep points) (List.range' k m) st = .ok st' ∧
        chainFrom 0 st'.parts st'.beginIndex ∧
        (st'.beginIndex + 2 ≤ k + m ∨ (k + m = 1 ∧ st'.beginIndex = 0)) := by
  induction m with
  | zero =>
    intro k st hk _ hc hq
    refine ⟨st, rfl, hc, ?_⟩
    rcases hq with hq | hq
    · exact Or.inl hq
    · exact Or.inr ⟨hq.1, hq.2.1⟩
  | succ m ih =>
    intro k st hk hkm hc hq
    have hk1 : k < points.length := by omega
    have hk0 : k - 1 < points.length := by omega
    have hsub : usub k 1 = k - 1 := usub_eq k 1 (by omega) hk
    have hnext : ∀ st1 : Cut, chainFrom 0 st1.parts st1.beginIndex →
        st1.beginIndex + 2 ≤ k + 1 →
        ∃ st', forEach (piecesStep points) (List.range' (k + 1) m) st1 = .ok st' ∧
          chainFrom 0 st'.parts st'.beginIndex ∧
          (st'.beginIndex + 2 ≤ k + (m + 1) ∨ (k + (m + 1) = 1 ∧ st'.beginIndex = 0)) := by
      intro st1 hc1 hb1
      obtain ⟨st', h1, h2, h3⟩ := ih (k + 1) st1 (by omega) (by omega) hc1 (Or.inl hb1)
      refine ⟨st', h1, h2, ?_⟩
      rcases h3 with h3 | h3
      · exact Or.inl (by omega)
      · omega
    have hkeep : st.beginIndex + 2 ≤ k + 1 := by
      rcases hq with hq | hq
      · omega
      · omega
    rw [List.range'_succ]
    simp only [forEach, piecesStep, hsub, List.getElem?_eq_getElem hk1,
      List.getElem?_eq_getElem hk0]
    by_cases hdown : st.isIncreasing = true ∧ (points[k]).2 < (points[k - 1]).2 - 1 / 1000000
    · rw [if_pos hdown]
      have hb : st.beginIndex < k - 1 := by
        rcases hq with hq | ⟨hq1, hq2, hq3⟩
        · omega
        · subst hq1
          have := hq3 points[1] points[0] (List.getElem?_eq_getElem hk1)
            (List.getElem?_eq_getElem hk0)
          rw [hdown.1] at this
          have h1 := of_decide_eq_true this.symm
          have h2 := hdown.2
          simp only [Nat.sub_self] at h2
          linarith
      exact hnext ⟨st.parts ++ [(st.beginIndex, k - 1)], k - 1, false⟩
        (chainFrom_append _ _ _ _ hc hb) (by simp only; omega)
    · rw [if_neg hdown]
      by_cases hup : st.isIncreasing = false ∧ (points[k]).2 > (points[k - 1]).2 + 1 / 1000000
      · rw [if_pos hup]
        have hb : st.beginIndex < k - 1 := by
          rcases hq with hq | ⟨hq1, hq2, hq3⟩
          · omega
          · subst hq1
            have := hq3 points[1] points[0] (List.getElem?_eq_getElem hk1)
              (List.getElem?_eq_getElem hk0)
            rw [hup.1] at this
            have h1 := of_decide_eq_false this.symm
            have h2 := hup.2
            simp only [Nat.sub_self] at h2
            exact absurd h2 h1
        exact hnext ⟨st.parts ++ [(st.beginIndex, k - 1)], k - 1, true⟩
          (chainFrom_append _ _ _ _ hc hb) (by simp only; omega)
      · rw [if_neg hup]
        exact hnext st hc hkeep

/-- The parts of `fittingPieces` are a chain from 0 to the last index. -/
theorem piecesParts_chain (points : List (ℚ × ℚ)) (h3 : 3 ≤ points.length)
    (hlen : points.length < 2 ^ 64) :
    ∃ parts, piecesParts points = .ok parts ∧ parts ≠ [] ∧
      chainFrom 0 parts (points.length - 1) := by
  have h1 : 1 < points.length := by omega
  have h0 : 0 < points.length := by omega
  have hsub : usub points.length 1 = points.length - 1 := usub_eq _ _ hlen (by omega)
  obtain ⟨st', hloop, hchain, hb⟩ :=
    pieces_loop points hlen (points.length - 1) 1
      ⟨[], 0, decide ((points[1]).2 > (points[0]).2 + 1 / 1000000)⟩ (le_refl _) (by omega) rfl
      (Or.inr ⟨rfl, rfl, by
        intro p1 p0 hp1 hp0
        rw [List.getElem?_eq_getElem h1] at hp1
        rw [List.getElem?_eq_getElem h0] at hp0
        cases hp1
        cases hp0
        rfl⟩)
  refine ⟨st'.parts ++ [(st'.beginIndex, points.length - 1)], ?_, by simp, ?_⟩
  · simp only [piecesParts, List.getElem?_eq_getElem h1, List.getElem?_eq_getElem h0, hloop,
      hsub]
  · refine chainFrom_append _ _ _ _ hchain ?_
    rcases hb with hb | hb
    · omega
    · omega

/-- The loop that raises the degree ends, within `max 1 gap - degree + 1`
turns, with a degree between 1 and `max 1 gap`, or with the runtime error of
an unsuccessful fit. -/
theorem degreeLoop_ends (fitError : Nat → ℚ) (maxError : ℚ) (throwsError : Bool) (gap : Nat)
    (hgap : gap < 2 ^ 32) :
    ∀ (fuel degree bestDegree : Nat) (bestError : ℚ),
      1 ≤ degree → degree ≤ max 1 gap → max 1 gap - degree < fuel →
      degreeLoop fitError maxError throwsError gap fuel degree bestDegree bestError
          = .error (Fault.runtime_error "FittedSpline unable to fit data point") ∨
        ∃ d ok, degreeLoop fitError maxError throwsError gap fuel degree bestDegree bestError
          = .ok (d, ok) ∧ 1 ≤ d ∧ d ≤ max 1 gap := by
  intro fuel
  induction fuel with
  | zero => intro degree bestDegree bestError _ _ h; omega
  | succ fuel ih =>
    intro degree bestDegree bestError h1 h2 h3
    rw [degreeLoop]
    try dsimp only
    generalize (if bestDegree = 0 ∨ bestError > fitError degree then (degree, fitError degree)
      else (bestDegree, bestError)) = best
    by_cases hexit : degree ≥ gap ∨ best.2 ≤ maxError
    · rw [if_pos hexit]
      by_cases hbad : best.2 > maxError
      · rw [if_pos hbad]
        cases throwsError with
        | true => exact Or.inl rfl
        | false => exact Or.inr ⟨degree, false, rfl, h1, h2⟩
      · rw [if_neg hbad]
        exact Or.inr ⟨degree, true, rfl, h1, h2⟩
    · rw [if_neg hexit]
      have hd : degree < gap := by
        by_contra hge
        exact hexit (Or.inl (not_lt.1 hge))
      have hmod : (degree + 1) % 2 ^ 32 = degree + 1 := Nat.mod_eq_of_lt (by omega)
      rw [hmod]
      have hmax : max 1 gap = gap := max_eq_right (by omega)
      rw [hmax] at h3
      exact ih _ _ _ (by omega) (by rw [hmax]; omega) (by rw [hmax]; omega)

/-- The degree wraps at `2 ^ 32`: over a part with `second - first ≥ 2 ^ 32`
whose fits all have error 1, with `maxError = 0`, the loop that raises the
degree does not end, whatever the number of turns it is given. -/
theorem degreeLoop_wraps (throwsError : Bool) (gap : Nat) (hgap : 2 ^ 32 ≤ gap) :
    ∀ (fuel degree bestDegree : Nat) (bestError : ℚ),
      degree < 2 ^ 32 → (bestDegree = 0 ∨ bestError = 1) →
      degreeLoop (fun _ => 1) 0 throwsError gap fuel degree bestDegree bestError
        = .error Fault.undefined := by
  intro fuel
  induction fuel with
  | zero => intro _ _ _ _ _; rfl
  | succ fuel ih =>
    intro degree bestDegree bestError hd hb
    rw [degreeLoop]
    have hbest : (if bestDegree = 0 ∨ bestError > (1 : ℚ) then (degree, (1 : ℚ))
        else (bestDegree, bestError)).2 = 1 := by
      split
      · rfl
      · rename_i hn
        rcases hb with hb | hb
        · exact absurd (Or.inl hb) hn
        · exact hb
    simp only [hbest]
    have hexit : ¬ (degree ≥ gap ∨ (1 : ℚ) ≤ 0) := by
      intro h
      rcases h with h | h
      · omega
      · norm_num at h
    rw [if_neg hexit]
    exact ih _ _ _ (Nat.mod_lt _ (by norm_num)) (Or.inr rfl)

/-- C30. On fewer than `2 ^ 64` points, at least 3, the parts `fittingPieces`
builds form a chain covering the data: the first part starts at index 0, the
last part ends at index `n − 1`, each part starts at the index where the
previous one ends, and every part `(first, second)` has `first < second`; and
for every part with `second − first < 2 ^ 32` (the degree is an `unsigned int`)
the loop that raises the degree ends, either with the runtime error of an
unsuccessful fit or with a degree between 1 and `max(1, second − first)`. -/
theorem fittingPieces_partition (points : List (ℚ × ℚ)) (h3 : 3 ≤ points.length)
    (hlen : points.length < 2 ^ 64) :
    ∃ parts, piecesParts points = .ok parts ∧
      parts.head?.map Prod.fst = some 0 ∧
      parts.getLast?.map Prod.snd = some (points.length - 1) ∧
      parts.Chain' (fun p q => q.1 = p.2) ∧
      (∀ p ∈ parts, p.1 < p.2 ∧ p.2 ≤ points.length - 1) ∧
      ∀ p ∈ parts, p.2 - p.1 < 2 ^ 32 →
        ∀ (fitError : Nat → ℚ) (maxError : ℚ) (throwsError : Bool),
          degreeLoop fitError maxError throwsError (usub p.2 p.1) (usub p.2 p.1 + 1) 1 0 0
              = .error (Fault.runtime_error "FittedSpline unable to fit data point") ∨
            ∃ d ok, degreeLoop fitError maxError throwsError (usub p.2 p.1)
                (usub p.2 p.1 + 1) 1 0 0 = .ok (d, ok) ∧
              1 ≤ d ∧ d ≤ max 1 (p.2 - p.1) := by
  obtain ⟨parts, hparts, hne, hchain⟩ := piecesParts_chain points h3 hlen
  obtain ⟨f1, f2, f3, f4⟩ := chainFrom_facts parts 0 _ hchain hne
  refine ⟨parts, hparts, f1, f2, f3, fun p hp => ⟨(f4 p hp).2.1, (f4 p hp).2.2⟩, ?_⟩
  intro p hp hgap fitError maxError throwsError
  have hp4 := f4 p hp
  have hsub : usub p.2 p.1 = p.2 - p.1 := usub_eq _ _ (by omega) (by omega)
  rw [hsub]
  exact degreeLoop_ends fitError maxError throwsError (p.2 - p.1) hgap (p.2 - p.1 + 1) 1 0 0
    (le_refl _) (le_max_left _ _) (by
      have : max 1 (p.2 - p.1) = p.2 - p.1 := max_eq_right (by omega)
      omega)

/-- Witness of C30: four points going up, down and up are cut into the chain
`(0, 1)`, `(1, 2)`, `(2, 3)`. -/
theorem fittingPieces_partition_witness :
    piecesParts [(0, 0), (1, 1), (2, 0), (3, 1)] = .ok [(0, 1), (1, 2), (2, 3)] ∧
    ∃ parts, piecesParts [(0, 0), (1, 1), (2, 0), (3, 1)] = .ok parts ∧
      parts.head?.map Prod.fst = some 0 ∧
      parts.getLast?.map Prod.snd = some ([((0 : ℚ), (0 : ℚ)), (1, 1), (2, 0), (3, 1)].length - 1) ∧
      parts.Chain' (fun p q => q.1 = p.2) := by
  refine ⟨by decide!, ?_⟩
  obtain ⟨parts, h1, h2, h3, h4, -⟩ :=
    fittingPieces_partition [(0, 0), (1, 1), (2, 0), (3, 1)] (by decide) (by norm_num)
  exact ⟨parts, h1, h2, h3, h4⟩

end FittedSpline

end Leph
